import Mathlib

/-!
# lib_sw_pll: a shallow embedding of the LUT software PLL

Sources embedded here:

* `lib_sw_pll/src/sw_pll.c`      (`sw_pll_app_pll_init`, `lookup_pll_frac`, `sw_pll_init`,
                                  `sw_pll_do_control_from_error`, `sw_pll_do_control`)
* `lib_sw_pll/src/sw_pll_pfd.h`  (`sw_pll_calc_error_from_port_timers`)

Conventions.

* The target is a 32-bit xcore: `int`, `unsigned` and `size_t` are 32 bits wide.
* Unsigned C values are `Nat`, signed C values are `Int`.  Every place where C converts a
  value to a narrower or differently signed type is written as an explicit `to_uintN` /
  `to_intN` (reduction modulo `2^N`, two's complement for the signed ones).  Signed
  overflow is modelled the same way, as the xcore ALU computes it.
* `x >> k` on a signed value is the arithmetic shift, i.e. `x / 2^k` rounded towards minus
  infinity, which is what `/` on `Int` gives for a positive divisor.
* The pointer `lut_table_base` is a `List Int` of `int16_t` entries; the model reads index `i`
  with `getD i 0`.
* Writes to the sswitch registers are recorded, oldest first, in the `sswitch` log of
  `sw_pll_machine`.
-/

namespace SwPll

/-! ## Machine integers -/

/-- Conversion to `uint16_t`: reduction modulo `2^16`. -/
def to_uint16 (x : Int) : Nat := (x % 65536).toNat

/-- Conversion to `uint32_t` (also `unsigned`, `size_t`): reduction modulo `2^32`. -/
def to_uint32 (x : Int) : Nat := (x % 4294967296).toNat

/-- Conversion to `uint64_t`: reduction modulo `2^64`. -/
def to_uint64 (x : Int) : Nat := (x % 18446744073709551616).toNat

/-- Conversion to `int16_t`: the two's complement representative in `[-2^15, 2^15 - 1]`. -/
def to_int16 (x : Int) : Int := (x + 32768) % 65536 - 32768

/-- Conversion to `int32_t` (also `int`): the representative in `[-2^31, 2^31 - 1]`. -/
def to_int32 (x : Int) : Int := (x + 2147483648) % 4294967296 - 2147483648

/-- Conversion to `int64_t`: the representative in `[-2^63, 2^63 - 1]`. -/
def to_int64 (x : Int) : Int :=
  (x + 9223372036854775808) % 18446744073709551616 - 9223372036854775808

/-! ## Constants and macros -/

/-- `#define SW_PLL_LOCK_COUNT 10` (sw_pll.c, line 9). -/
def SW_PLL_LOCK_COUNT : Nat := 10

/-- `#define SW_PLL_PFD_PRE_DIV_BITS 37` (sw_pll_pfd.h, line 11). -/
def SW_PLL_PFD_PRE_DIV_BITS : Nat := 37

/-- Modelled from the spec: the macro `SW_PLL_NUM_FRAC_BITS` of `sw_pll_common.h`, which is not
among the sources.  The gains are "fixed-point, fractional-bits width W"; the type name
`sw_pll_15q16_t` and the macro `SW_PLL_15Q16` used by the callers fix `W = 16`. -/
def SW_PLL_NUM_FRAC_BITS : Nat := 16

/-- Modelled from the spec: the macro `PORT_TIMEAFTER(NOW, EVENT_TIME)` of `sw_pll_common.h`,
which is not among the sources.  It is the "explicit wraparound comparison" of two samples of
a 16-bit port timer, in the style of `TIMER_TIMEAFTER`: the 16-bit signed distance from `NOW`
to `EVENT_TIME` is negative. -/
def PORT_TIMEAFTER (now event_time : Nat) : Bool :=
  decide (to_int16 ((event_time : Int) - (now : Int)) < 0)

/-- Modelled from the spec: the macro `MAGNITUDE(A)` of `sw_pll_common.h`, which is not among
the sources: the magnitude `|A|` of a signed value, computed in `int` (so `MAGNITUDE(-32768)`
is `32768`). -/
def MAGNITUDE (a : Int) : Int := if a < 0 then -a else a

/-! ## Data model -/

/-- The enumeration `sw_pll_lock_status_t`. -/
inductive sw_pll_lock_status_t where
  | SW_PLL_UNLOCKED_LOW
  | SW_PLL_LOCKED
  | SW_PLL_UNLOCKED_HIGH
deriving DecidableEq, Repr

/-- Modelled from the spec: `sw_pll_pfd_state_t` is declared in `sw_pll_common.h`, which is not
among the sources.  The fields are those the sources read and write (spec section 3,
`PfdState`): `mclk_diff` is an `int16_t`, the two `*_last` samples are `uint16_t`, the two
expected increments are `uint32_t`, the scaling numerator is a `uint64_t` and `mclk_max_diff`
is a `uint16_t`. -/
structure sw_pll_pfd_state_t where
  mclk_diff : Int
  ref_clk_pt_last : Nat
  ref_clk_expected_inc : Nat
  ref_clk_scaling_numerator : Nat
  mclk_pt_last : Nat
  mclk_expected_pt_inc : Nat
  mclk_max_diff : Nat
deriving DecidableEq, Repr

/-- Modelled from the spec: `sw_pll_pi_state_t` is declared in `sw_pll_common.h`, which is not
among the sources (spec section 3, `PiState`).  The gains are `sw_pll_15q16_t` (`int32_t`);
the windup limit and the accumulator are `int32_t`. -/
structure sw_pll_pi_state_t where
  Kp : Int
  Ki : Int
  i_windup_limit : Int
  error_accum : Int
deriving DecidableEq, Repr

/-- Modelled from the spec: `sw_pll_lut_state_t` is declared in `sw_pll_common.h`, which is not
among the sources (spec section 3, `LutState`).  `lut_table_base` points to `int16_t` entries,
`num_lut_entries` is a `size_t`, `nominal_lut_idx` an `unsigned`, and `current_reg_val` the
`uint16_t` last returned by `lookup_pll_frac`. -/
structure sw_pll_lut_state_t where
  lut_table_base : List Int
  num_lut_entries : Nat
  nominal_lut_idx : Nat
  current_reg_val : Nat
deriving DecidableEq, Repr

/-- Modelled from the spec: `sw_pll_state_t` is declared in `sw_pll_common.h`, which is not
among the sources (spec section 3, `SwPllState` and `LockState`).  `lock_counter` and
`first_loop` are `uint8_t`; `loop_rate_count` and `loop_counter` are `unsigned`. -/
structure sw_pll_state_t where
  lock_status : sw_pll_lock_status_t
  lock_counter : Nat
  first_loop : Nat
  loop_rate_count : Nat
  loop_counter : Nat
  pfd_state : sw_pll_pfd_state_t
  pi_state : sw_pll_pi_state_t
  lut_state : sw_pll_lut_state_t
deriving DecidableEq, Repr

/-- The sswitch registers the library writes. -/
inductive sswitch_reg_t where
  | XS1_SSWITCH_SS_APP_PLL_CTL_NUM
  | XS1_SSWITCH_SS_APP_PLL_FRAC_N_DIVIDER_NUM
  | XS1_SSWITCH_SS_APP_CLK_DIVIDER_NUM
deriving DecidableEq, Repr

/-- The software PLL state together with the log of sswitch register writes
(`write_sswitch_reg`, `write_sswitch_reg_no_ack`), oldest first. -/
structure sw_pll_machine where
  sw_pll : sw_pll_state_t
  sswitch : List (sswitch_reg_t × Nat)
deriving DecidableEq, Repr

/-! ## Phase-frequency detector (sw_pll_pfd.h) -/

/-- The two arms of `PORT_TIMEAFTER(a, b) ? -(int16_t)(b - a) : (int16_t)(a - b)`, stored into
an `int16_t`, with the outcome of the comparison as an argument.  `a` and `b` are `uint16_t`,
so the subtractions are done in `int`. -/
def port_timer_diff_arm (timeafter : Bool) (a b : Nat) : Int :=
  if timeafter then to_int16 (-(to_int16 ((b : Int) - (a : Int))))
  else to_int16 ((a : Int) - (b : Int))

/-- The expression `PORT_TIMEAFTER(a, b) ? -(int16_t)(b - a) : (int16_t)(a - b)` stored into an
`int16_t`, as it occurs on lines 31 and 49 of sw_pll_pfd.h. -/
def port_timer_diff (a b : Nat) : Int :=
  port_timer_diff_arm (PORT_TIMEAFTER a b) a b

/-- The compensated feedback increment of lines 36-38 of sw_pll_pfd.h: a `uint64_t` product
shifted right by `SW_PLL_PFD_PRE_DIV_BITS` and stored in a `uint32_t`. -/
def compensated_mclk_expected_pt_inc (pfd : sw_pll_pfd_state_t) (ref_clk_diff : Int) : Nat :=
  to_uint32
    ((to_uint64
        ((to_uint64
            ((pfd.mclk_expected_pt_inc : Int)
              * (to_uint64 ((pfd.ref_clk_expected_inc : Int) + ref_clk_diff) : Int)) : Int)
          * (pfd.ref_clk_scaling_numerator : Int))
      / 2 ^ SW_PLL_PFD_PRE_DIV_BITS : Nat) : Int)

/-- The value of the local `mclk_expected_pt` (sw_pll_pfd.h, lines 25-46). -/
def mclk_expected_pt (pfd : sw_pll_pfd_state_t) (ref_clk_pt : Nat) : Nat :=
  if pfd.ref_clk_expected_inc ≠ 0 then
    let ref_clk_expected_pt :=
      to_uint16 ((pfd.ref_clk_pt_last : Int) + (pfd.ref_clk_expected_inc : Int))
    let ref_clk_diff := port_timer_diff ref_clk_pt ref_clk_expected_pt
    to_uint16 ((pfd.mclk_pt_last : Int)
      + (compensated_mclk_expected_pt_inc pfd ref_clk_diff : Int))
  else
    to_uint16 ((pfd.mclk_pt_last : Int) + (pfd.mclk_expected_pt_inc : Int))

/-- The function `sw_pll_calc_error_from_port_timers` (sw_pll_pfd.h, lines 19-56).  It takes
the PFD state and the caller's `first_loop` byte and returns both as it leaves them. -/
def sw_pll_calc_error_from_port_timers (pfd : sw_pll_pfd_state_t) (first_loop : Nat)
    (mclk_pt ref_clk_pt : Nat) : sw_pll_pfd_state_t × Nat :=
  let expected := mclk_expected_pt pfd ref_clk_pt
  let pfd1 : sw_pll_pfd_state_t :=
    if pfd.ref_clk_expected_inc ≠ 0 then { pfd with ref_clk_pt_last := ref_clk_pt } else pfd
  let pfd2 : sw_pll_pfd_state_t :=
    { pfd1 with mclk_diff := port_timer_diff mclk_pt expected }
  if MAGNITUDE pfd2.mclk_diff > (pfd2.mclk_max_diff : Int) then (pfd2, 1)
  else (pfd2, first_loop)

/-! ## LUT selection and lock state (sw_pll.c) -/

/-- Lines 47-73 of `lookup_pll_frac`: the updated state and the local `frac_index` with which
line 75 reads the table. -/
def lookup_pll_frac_index (sw_pll : sw_pll_state_t) (total_error : Int) :
    sw_pll_state_t × Nat :=
  let set : Int := to_int32 ((sw_pll.lut_state.nominal_lut_idx : Int) - total_error)
  if set < 0 then
    ({ sw_pll with
        lock_counter := SW_PLL_LOCK_COUNT
        lock_status := sw_pll_lock_status_t.SW_PLL_UNLOCKED_LOW }, 0)
  else if set ≥ (sw_pll.lut_state.num_lut_entries : Int) then
    ({ sw_pll with
        lock_counter := SW_PLL_LOCK_COUNT
        lock_status := sw_pll_lock_status_t.SW_PLL_UNLOCKED_HIGH },
      to_uint32 ((sw_pll.lut_state.num_lut_entries : Int) - 1))
  else if sw_pll.lock_counter ≠ 0 then
    ({ sw_pll with lock_counter := sw_pll.lock_counter - 1 }, set.toNat)
  else
    ({ sw_pll with lock_status := sw_pll_lock_status_t.SW_PLL_LOCKED }, set.toNat)

/-- The function `lookup_pll_frac` (sw_pll.c, lines 44-76): the updated state and the returned
`uint16_t`, the table entry at `frac_index`. -/
def lookup_pll_frac (sw_pll : sw_pll_state_t) (total_error : Int) : sw_pll_state_t × Nat :=
  let r := lookup_pll_frac_index sw_pll total_error
  (r.1, to_uint16 (r.1.lut_state.lut_table_base.getD r.2 0))

/-! ## PI controller and control update (sw_pll.c) -/

/-- Lines 140-142 of `sw_pll_do_control_from_error`: accumulate the error and clamp the
accumulator to the windup limit. -/
def pi_accumulate (pi : sw_pll_pi_state_t) (error : Int) : sw_pll_pi_state_t :=
  let acc0 := to_int32 (pi.error_accum + error)
  let acc1 := if acc0 > pi.i_windup_limit then pi.i_windup_limit else acc0
  let acc2 :=
    if acc1 < to_int32 (-pi.i_windup_limit) then to_int32 (-pi.i_windup_limit) else acc1
  { pi with error_accum := acc2 }

/-- Lines 145-149 of `sw_pll_do_control_from_error`: the control signal `total_error`,
computed from the already updated accumulator. -/
def pi_total_error (pi : sw_pll_pi_state_t) (error : Int) : Int :=
  let error_p := to_int64 (pi.Kp * error)
  let error_i := to_int64 (pi.Ki * pi.error_accum)
  to_int32 (to_int64 (error_p + error_i) / 2 ^ SW_PLL_NUM_FRAC_BITS)

/-- The function `sw_pll_do_control_from_error` (sw_pll.c, lines 137-155). -/
def sw_pll_do_control_from_error (m : sw_pll_machine) (error : Int) :
    sw_pll_machine × sw_pll_lock_status_t :=
  let s1 : sw_pll_state_t := { m.sw_pll with pi_state := pi_accumulate m.sw_pll.pi_state error }
  let total_error := pi_total_error s1.pi_state error
  let r := lookup_pll_frac s1 total_error
  let s2 : sw_pll_state_t := { r.1 with lut_state := { r.1.lut_state with current_reg_val := r.2 } }
  ({ sw_pll := s2
     sswitch := m.sswitch ++
       [(sswitch_reg_t.XS1_SSWITCH_SS_APP_PLL_FRAC_N_DIVIDER_NUM,
         0x80000000 ||| s2.lut_state.current_reg_val)] },
   s2.lock_status)

/-- The function `sw_pll_do_control` (sw_pll.c, lines 157-186). -/
def sw_pll_do_control (m : sw_pll_machine) (mclk_pt ref_clk_pt : Nat) :
    sw_pll_machine × sw_pll_lock_status_t :=
  let loop_counter := to_uint32 ((m.sw_pll.loop_counter : Int) + 1)
  if loop_counter = m.sw_pll.loop_rate_count then
    if m.sw_pll.first_loop ≠ 0 then
      ({ m with sw_pll :=
          { m.sw_pll with
              loop_counter := 0
              pfd_state := { m.sw_pll.pfd_state with mclk_pt_last := mclk_pt }
              pi_state := { m.sw_pll.pi_state with error_accum := 0 }
              lock_counter := SW_PLL_LOCK_COUNT
              lock_status := sw_pll_lock_status_t.SW_PLL_UNLOCKED_LOW
              first_loop := 0 } },
        sw_pll_lock_status_t.SW_PLL_UNLOCKED_LOW)
    else
      let p := sw_pll_calc_error_from_port_timers m.sw_pll.pfd_state m.sw_pll.first_loop
        mclk_pt ref_clk_pt
      let m1 : sw_pll_machine :=
        { m with sw_pll :=
            { m.sw_pll with loop_counter := 0, pfd_state := p.1, first_loop := p.2 } }
      let m2 := (sw_pll_do_control_from_error m1 p.1.mclk_diff).1
      let m3 : sw_pll_machine :=
        { m2 with sw_pll :=
            { m2.sw_pll with pfd_state := { m2.sw_pll.pfd_state with mclk_pt_last := mclk_pt } } }
      (m3, m3.sw_pll.lock_status)
  else
    ({ m with sw_pll := { m.sw_pll with loop_counter := loop_counter } }, m.sw_pll.lock_status)

/-! ## Initialisation (sw_pll.c) -/

/-- The function `sw_pll_app_pll_init` (sw_pll.c, lines 19-42); the final `blocking_delay`
only passes time. -/
def sw_pll_app_pll_init (log : List (sswitch_reg_t × Nat))
    (app_pll_ctl_reg_val app_pll_div_reg_val frac_val_nominal : Nat) :
    List (sswitch_reg_t × Nat) :=
  log ++
    [ (sswitch_reg_t.XS1_SSWITCH_SS_APP_PLL_CTL_NUM, app_pll_ctl_reg_val &&& 0xF7FFFFFF),
      (sswitch_reg_t.XS1_SSWITCH_SS_APP_PLL_CTL_NUM, app_pll_ctl_reg_val),
      (sswitch_reg_t.XS1_SSWITCH_SS_APP_PLL_CTL_NUM, app_pll_ctl_reg_val),
      (sswitch_reg_t.XS1_SSWITCH_SS_APP_PLL_CTL_NUM, app_pll_ctl_reg_val &&& 0xF7FFFFFF),
      (sswitch_reg_t.XS1_SSWITCH_SS_APP_PLL_CTL_NUM, app_pll_ctl_reg_val),
      (sswitch_reg_t.XS1_SSWITCH_SS_APP_PLL_FRAC_N_DIVIDER_NUM, 0x80000000 ||| frac_val_nominal),
      (sswitch_reg_t.XS1_SSWITCH_SS_APP_CLK_DIVIDER_NUM, app_pll_div_reg_val) ]

/-- The function `sw_pll_init` (sw_pll.c, lines 79-126), up to the floating-point `xassert`
of lines 127-133, which changes no state and is added by `sw_pll_init_checked`.
`sw_pll_reset` is defined in `sw_pll.h`, which is not among the sources, so it is a
parameter: every field it could set other than `pi_state` is overwritten afterwards. -/
def sw_pll_init
    (sw_pll_reset : sw_pll_state_t → Int → Int → Nat → sw_pll_state_t)
    (m : sw_pll_machine) (Kp Ki : Int)
    (loop_rate_count pll_ratio ref_clk_expected_inc : Nat)
    (lut_table_base : List Int) (num_lut_entries : Nat)
    (app_pll_ctl_reg_val app_pll_div_reg_val nominal_lut_idx ppm_range : Nat) :
    sw_pll_machine :=
  let log := sw_pll_app_pll_init m.sswitch app_pll_ctl_reg_val app_pll_div_reg_val
    (to_uint16 (lut_table_base.getD nominal_lut_idx 0))
  let s0 := sw_pll_reset m.sw_pll Kp Ki num_lut_entries
  let inc := to_uint32 ((ref_clk_expected_inc : Int) * (loop_rate_count : Int))
  let numerator :=
    if inc ≠ 0 then to_uint64 ((2 ^ SW_PLL_PFD_PRE_DIV_BITS / inc + 1 : Nat) : Int)
    else s0.pfd_state.ref_clk_scaling_numerator
  { sw_pll :=
      { lock_status := sw_pll_lock_status_t.SW_PLL_UNLOCKED_LOW
        lock_counter := SW_PLL_LOCK_COUNT
        first_loop := 1
        loop_rate_count := loop_rate_count
        loop_counter := 0
        pfd_state :=
          { mclk_diff := 0
            ref_clk_pt_last := 0
            ref_clk_expected_inc := inc
            ref_clk_scaling_numerator := numerator
            mclk_pt_last := 0
            mclk_expected_pt_inc := to_uint32 ((loop_rate_count : Int) * (pll_ratio : Int))
            mclk_max_diff :=
              to_uint16
                ((to_uint64 ((ppm_range : Int) * 2 * (pll_ratio : Int) * (loop_rate_count : Int))
                  / 1000000 : Nat) : Int) }
        pi_state := s0.pi_state
        lut_state :=
          { lut_table_base := lut_table_base
            num_lut_entries := num_lut_entries
            nominal_lut_idx := nominal_lut_idx
            current_reg_val := to_uint16 (app_pll_div_reg_val : Int) } }
    sswitch := log }

/-! ## Runs and predicates used to state the properties -/

/-- The condition of line 159 of sw_pll.c: this call of `sw_pll_do_control` makes the loop
counter reach `loop_rate_count`, so it performs a control update. -/
def control_update_due (sw_pll : sw_pll_state_t) : Prop :=
  to_uint32 ((sw_pll.loop_counter : Int) + 1) = sw_pll.loop_rate_count

instance (sw_pll : sw_pll_state_t) : Decidable (control_update_due sw_pll) :=
  inferInstanceAs
    (Decidable (to_uint32 ((sw_pll.loop_counter : Int) + 1) = sw_pll.loop_rate_count))

/-- The selection of `lookup_pll_frac` for control signal `c` is in range: neither the test of
line 50 (`set < 0`) nor the test of line 56 (`set >= num_lut_entries`) holds, so the index is
not clamped. -/
def lut_selection_in_range (sw_pll : sw_pll_state_t) (c : Int) : Prop :=
  0 ≤ to_int32 ((sw_pll.lut_state.nominal_lut_idx : Int) - c) ∧
  to_int32 ((sw_pll.lut_state.nominal_lut_idx : Int) - c)
    < (sw_pll.lut_state.num_lut_entries : Int)

instance (sw_pll : sw_pll_state_t) (c : Int) : Decidable (lut_selection_in_range sw_pll c) :=
  inferInstanceAs
    (Decidable
      (0 ≤ to_int32 ((sw_pll.lut_state.nominal_lut_idx : Int) - c) ∧
        to_int32 ((sw_pll.lut_state.nominal_lut_idx : Int) - c)
          < (sw_pll.lut_state.num_lut_entries : Int)))

/-- Successive calls of `lookup_pll_frac`, one per control signal. -/
def lut_run (sw_pll : sw_pll_state_t) (cs : List Int) : sw_pll_state_t :=
  cs.foldl (fun s c => (lookup_pll_frac s c).1) sw_pll

/-- Successive calls of `sw_pll_do_control_from_error`, one per error. -/
def control_from_error_run (m : sw_pll_machine) (errors : List Int) : sw_pll_machine :=
  errors.foldl (fun m e => (sw_pll_do_control_from_error m e).1) m

/-- Successive calls of `sw_pll_do_control`, one per pair `(mclk_pt, ref_clk_pt)`. -/
def sw_pll_run (m : sw_pll_machine) (samples : List (Nat × Nat)) : sw_pll_machine :=
  samples.foldl (fun m p => (sw_pll_do_control m p.1 p.2).1) m

/-! ## Concrete states used as examples -/

/-- A four-entry table with nominal index 2, integral gain 1.0, windup limit 100, no
reference compensation, `loop_rate_count = 2`, in steady state one call before an update. -/
def demo_state : sw_pll_state_t :=
  { lock_status := sw_pll_lock_status_t.SW_PLL_UNLOCKED_LOW
    lock_counter := 10
    first_loop := 0
    loop_rate_count := 2
    loop_counter := 1
    pfd_state :=
      { mclk_diff := 0
        ref_clk_pt_last := 0
        ref_clk_expected_inc := 0
        ref_clk_scaling_numerator := 0
        mclk_pt_last := 100
        mclk_expected_pt_inc := 1000
        mclk_max_diff := 5 }
    pi_state := { Kp := 0, Ki := 65536, i_windup_limit := 100, error_accum := 0 }
    lut_state :=
      { lut_table_base := [10, 20, 30, 40]
        num_lut_entries := 4
        nominal_lut_idx := 2
        current_reg_val := 30 } }

/-- The state `demo_state` with an empty register log. -/
def demo_machine : sw_pll_machine := { sw_pll := demo_state, sswitch := [] }

/-- The machine `demo_machine` with `first_loop` set, as `sw_pll_init` leaves it. -/
def demo_machine_first_loop : sw_pll_machine :=
  { demo_machine with sw_pll := { demo_state with first_loop := 1 } }

/-- The machine `demo_machine` at the start of a decimation period (`loop_counter = 0`). -/
def demo_machine_idle : sw_pll_machine :=
  { demo_machine with sw_pll := { demo_state with loop_counter := 0 } }

/-- An instance of the parameter `sw_pll_reset` of `sw_pll_init`, used to build example
states: it loads the gains, clears the accumulator and sets the windup limit to 100. -/
def demo_sw_pll_reset (sw_pll : sw_pll_state_t) (Kp Ki : Int) (_num_lut_entries : Nat) :
    sw_pll_state_t :=
  { sw_pll with pi_state := { Kp := Kp, Ki := Ki, i_windup_limit := 100, error_accum := 0 } }

/-- The machine left by `sw_pll_init` with `loop_rate_count = 2`, `pll_ratio = 512`, no
reference compensation, the four-entry table and `ppm_range = 1500`, so that
`mclk_expected_pt_inc = 1024` and `mclk_max_diff = 3`. -/
def demo_machine_init : sw_pll_machine :=
  sw_pll_init demo_sw_pll_reset demo_machine 0 65536 2 512 0 [10, 20, 30, 40] 4 0 0 2 1500

/-- The machine `demo_machine_init` after its first-loop update (second call, sample 500) and
one more call: steady state, one call before the next control update. -/
def demo_machine_steady : sw_pll_machine :=
  sw_pll_run demo_machine_init [(0, 0), (500, 0), (0, 0)]

/-! ## The PI law as the specification words it -/

/-- The specification's clamp of `x` to `[lo, hi]` (spec section 4.2, "clamp to
`[-windup_limit, windup_limit]`"), over the integers. -/
def spec_clamp (x lo hi : Int) : Int :=
  if x < lo then lo else if hi < x then hi else x

/-- The specification's control signal (spec section 4.2):
`(gain_p * error + gain_i * accumulator) >> fraction_bits` over the integers, the shift being
the division by `2^SW_PLL_NUM_FRAC_BITS` rounded towards minus infinity. -/
def spec_control_signal (Kp Ki error accumulator : Int) : Int :=
  (Kp * error + Ki * accumulator) / 2 ^ SW_PLL_NUM_FRAC_BITS

/-- The machine `demo_machine` with the accumulator and the windup limit both at `INT32_MAX`. -/
def demo_machine_accum_max : sw_pll_machine :=
  { demo_machine with sw_pll :=
      { demo_state with
          pi_state :=
            { Kp := 0, Ki := 65536, i_windup_limit := 2147483647, error_accum := 2147483647 } } }

/-- The value most recently written to the fractional-N divider register, if any. -/
def last_frac_write (log : List (sswitch_reg_t × Nat)) : Option Nat :=
  ((log.filter
      (fun w => decide (w.1 = sswitch_reg_t.XS1_SSWITCH_SS_APP_PLL_FRAC_N_DIVIDER_NUM))).getLast?).map
    Prod.snd

/-- The machine left by `sw_pll_init` with the four-entry table, nominal index 2 (entry 30),
`app_pll_ctl_reg_val = 0x0A019803` and `app_pll_div_reg_val = 0x80000004`. -/
def demo_machine_init_regs : sw_pll_machine :=
  sw_pll_init demo_sw_pll_reset demo_machine 0 65536 2 512 0 [10, 20, 30, 40] 4
    0x0A019803 0x80000004 2 1500

/-! ## Synthetic feedback streams -/

/-- The feedback sample that is `d` counts ahead of `mclk_pt_last + mclk_expected_pt_inc`,
modulo 65536. -/
def offset_sample (m : sw_pll_machine) (d : Int) : Nat :=
  to_uint16 ((m.sw_pll.pfd_state.mclk_pt_last : Int)
    + (m.sw_pll.pfd_state.mclk_expected_pt_inc : Int) + d)

/-- One decimation period of a stream that runs `d` counts fast: the calls with the samples
`idle`, then one call whose feedback sample is `offset_sample` and whose reference sample is
`ref_clk_pt`. -/
def control_period (d : Int) (m : sw_pll_machine) (idle : List (Nat × Nat))
    (ref_clk_pt : Nat) : sw_pll_machine :=
  (sw_pll_do_control (sw_pll_run m idle) (offset_sample (sw_pll_run m idle) d) ref_clk_pt).1

/-- Successive decimation periods of a stream that runs `d` counts fast, one per pair
`(idle, ref_clk_pt)`. -/
def offset_stream_run (d : Int) (m : sw_pll_machine) :
    List (List (Nat × Nat) × Nat) → sw_pll_machine
  | [] => m
  | p :: ps => offset_stream_run d (control_period d m p.1 p.2) ps

/-- The two machines have the same configuration: decimation count, PFD settings, gains and
windup limit, and table with its size and nominal index. -/
def same_config (a b : sw_pll_machine) : Prop :=
  a.sw_pll.loop_rate_count = b.sw_pll.loop_rate_count ∧
  a.sw_pll.pfd_state.ref_clk_expected_inc = b.sw_pll.pfd_state.ref_clk_expected_inc ∧
  a.sw_pll.pfd_state.mclk_expected_pt_inc = b.sw_pll.pfd_state.mclk_expected_pt_inc ∧
  a.sw_pll.pfd_state.mclk_max_diff = b.sw_pll.pfd_state.mclk_max_diff ∧
  a.sw_pll.pi_state.Kp = b.sw_pll.pi_state.Kp ∧
  a.sw_pll.pi_state.Ki = b.sw_pll.pi_state.Ki ∧
  a.sw_pll.pi_state.i_windup_limit = b.sw_pll.pi_state.i_windup_limit ∧
  a.sw_pll.lut_state.lut_table_base = b.sw_pll.lut_state.lut_table_base ∧
  a.sw_pll.lut_state.num_lut_entries = b.sw_pll.lut_state.num_lut_entries ∧
  a.sw_pll.lut_state.nominal_lut_idx = b.sw_pll.lut_state.nominal_lut_idx

/-- The state of the loop after `j` updates of a perfectly nominal stream that follow a
first-loop update: start of a period, `first_loop` clear, accumulator 0, countdown
`SW_PLL_LOCK_COUNT - j`, status UnlockedLow up to `j = SW_PLL_LOCK_COUNT` and Locked after. -/
def nominal_stream_state (j : Nat) (m : sw_pll_machine) : Prop :=
  m.sw_pll.loop_counter = 0 ∧
  m.sw_pll.first_loop = 0 ∧
  m.sw_pll.pi_state.error_accum = 0 ∧
  m.sw_pll.lock_counter = SW_PLL_LOCK_COUNT - j ∧
  m.sw_pll.lock_status =
    (if j ≤ SW_PLL_LOCK_COUNT then sw_pll_lock_status_t.SW_PLL_UNLOCKED_LOW
     else sw_pll_lock_status_t.SW_PLL_LOCKED)

/-- The accumulator after `j` updates of a stream that runs 13 counts fast, starting from 0
with windup limit `L`: `min (13 * j) L`. -/
def fast_accum (j : Nat) (L : Int) : Int :=
  if 13 * (j : Int) ≤ L then 13 * (j : Int) else L

/-- The state of the loop after `j` updates of a stream that runs 13 counts fast and that
follow a first-loop update: start of a period, `first_loop` clear, accumulator
`fast_accum j i_windup_limit`, status not UnlockedHigh. -/
def fast_stream_state (j : Nat) (m : sw_pll_machine) : Prop :=
  m.sw_pll.loop_counter = 0 ∧
  m.sw_pll.first_loop = 0 ∧
  m.sw_pll.pi_state.error_accum = fast_accum j m.sw_pll.pi_state.i_windup_limit ∧
  m.sw_pll.lock_status ≠ sw_pll_lock_status_t.SW_PLL_UNLOCKED_HIGH


/-- An instance of the parameter `sw_pll_reset` of `sw_pll_init`, used to build example
states: it loads the gains, clears the accumulator and sets the windup limit to 1. -/
def demo_sw_pll_reset_tight (sw_pll : sw_pll_state_t) (Kp Ki : Int) (_num_lut_entries : Nat) :
    sw_pll_state_t :=
  { sw_pll with pi_state := { Kp := Kp, Ki := Ki, i_windup_limit := 1, error_accum := 0 } }

/-- The machine left by `sw_pll_init` on the fast-feedback scenario (`loop_rate_count = 512`,
`pll_ratio = 512`, `Kp = 0`, `Ki = 32 << 16`, no reference compensation, `ppm_range = 150`)
with windup limit 100 and the four-entry table with nominal index 2. -/
def fast_demo_init : sw_pll_machine :=
  sw_pll_init demo_sw_pll_reset demo_machine 0 2097152 512 512 0 [10, 20, 30, 40] 4 0 0 2 150

/-- The 511 calls of a decimation period of `fast_demo_init` that perform no control update. -/
def fast_demo_idle : List (Nat × Nat) := List.replicate 511 (0, 0)

/-- The machine `fast_demo_init` after its first-loop update, 19 periods of a stream that runs
13 counts fast, and the 511 idle calls of the 20th period. -/
def fast_demo_pre : sw_pll_machine :=
  sw_pll_run
    (offset_stream_run 13
      (sw_pll_do_control (sw_pll_run fast_demo_init fast_demo_idle) 0 0).1
      (List.replicate 19 (fast_demo_idle, 0)))
    fast_demo_idle

/-- The 20th control update of the stream that runs 13 counts fast on `fast_demo_init`. -/
def fast_demo_update : sw_pll_machine × sw_pll_lock_status_t :=
  sw_pll_do_control fast_demo_pre (offset_sample fast_demo_pre 13) 0


/-! ## The reciprocal multiply as the specification words it -/

/-- The runtime divide that the reciprocal multiply replaces (the commented-out line 40 of
sw_pll_pfd.h), as the specification words it: `floor(M * (R + r) / R)` over the integers, with
`M = mclk_expected_pt_inc` and `R = ref_clk_expected_inc`. -/
def spec_compensated_inc (pfd : sw_pll_pfd_state_t) (ref_clk_diff : Int) : Int :=
  (pfd.mclk_expected_pt_inc : Int) * ((pfd.ref_clk_expected_inc : Int) + ref_clk_diff)
    / (pfd.ref_clk_expected_inc : Int)

/-- The machine left by `sw_pll_init` with `loop_rate_count = 512`, `pll_ratio = 512` and
`ref_clk_expected_inc = 2083` (a 48 kHz reference on a 100 MHz timer), so that
`R = 1066496`, `M = 262144` and `ref_clk_scaling_numerator = 128870`. -/
def recip_demo_init : sw_pll_machine :=
  sw_pll_init demo_sw_pll_reset demo_machine 0 65536 512 512 2083 [10, 20, 30, 40] 4 0 0 2 150

/-- The machine left by `sw_pll_init` with `loop_rate_count = 512`, `pll_ratio = 2048` and
`ref_clk_expected_inc = 256`, so that `R = 2^17`, `M = 2^20` and
`ref_clk_scaling_numerator = 2^20 + 1`. -/
def recip_demo_init_pow2 : sw_pll_machine :=
  sw_pll_init demo_sw_pll_reset demo_machine 0 65536 512 2048 256 [10, 20, 30, 40] 4 0 0 2 150


/-! ## The width check of `sw_pll_init` (sw_pll.c, lines 126-133)

The check is computed in `float` (IEEE-754 binary32), with one division in `double`
(binary64, the type of the constant `1.1`).  Every value that occurs is a non-negative integer
or a ratio of two, well inside the exponent range, so a floating-point value is represented
by the integer it equals and each operation is the exact result rounded to nearest, ties to
even. -/

/-- The number of times `x` must be halved to come below `2^p`, at most `k`: for
`x < 2^(p + k)`, the exponent of the unit in the last place of `x` at precision `p`. -/
def binary_exponent : Nat → Nat → Nat → Nat
  | 0, _, _ => 0
  | k + 1, p, x => if x < 2 ^ p then 0 else binary_exponent k p (x / 2) + 1

/-- The ratio `a / b` rounded to nearest, ties to even, at `p` significant bits, for
`2^(p-1) ≤ a / b < 2^(p + 128)`, where the result is an integer. -/
def round_nearest_even (p a b : Nat) : Nat :=
  let e := binary_exponent 128 p (a / b)
  let d := b * 2 ^ e
  let q := a / d
  let rem := a % d
  if 2 * rem < d then q * 2 ^ e
  else if d < 2 * rem then (q + 1) * 2 ^ e
  else if q % 2 = 0 then q * 2 ^ e
  else (q + 1) * 2 ^ e

/-- The conversion `(float)n` of an unsigned integer, and the rounding of an integer-valued
`float` product. -/
def float_round (n : Nat) : Nat := round_nearest_even 24 n 1

/-- The `double` constant `1.1`, scaled by `2^52`. -/
def double_1_1_scaled : Nat := round_nearest_even 53 (11 * 2 ^ 52) 10

/-- The local `calc_max` of line 127: `(float)0xffffffffffffffffULL / 1.1`, the division being
done in `double` and the result stored in a `float`. -/
def sw_pll_init_calc_max : Nat :=
  float_round (round_nearest_even 53 (float_round 0xffffffffffffffff * 2 ^ 52) double_1_1_scaled)

/-- The local `max` of lines 128-130: the product of the three fields converted to `float`,
multiplied left to right in `float`. -/
def sw_pll_init_max (pfd : sw_pll_pfd_state_t) : Nat :=
  float_round
    (float_round (float_round pfd.ref_clk_expected_inc
        * float_round pfd.ref_clk_scaling_numerator)
      * float_round pfd.mclk_expected_pt_inc)

/-- The condition of the `xassert` of line 133. -/
def sw_pll_init_width_check (pfd : sw_pll_pfd_state_t) : Prop :=
  sw_pll_init_max pfd < sw_pll_init_calc_max

instance (pfd : sw_pll_pfd_state_t) : Decidable (sw_pll_init_width_check pfd) :=
  inferInstanceAs (Decidable (sw_pll_init_max pfd < sw_pll_init_calc_max))

/-- The function `sw_pll_init` with its final `xassert` (assertions enabled): `none` when the
assertion fails. -/
def sw_pll_init_checked
    (sw_pll_reset : sw_pll_state_t → Int → Int → Nat → sw_pll_state_t)
    (m : sw_pll_machine) (Kp Ki : Int)
    (loop_rate_count pll_ratio ref_clk_expected_inc : Nat)
    (lut_table_base : List Int) (num_lut_entries : Nat)
    (app_pll_ctl_reg_val app_pll_div_reg_val nominal_lut_idx ppm_range : Nat) :
    Option sw_pll_machine :=
  let mi := sw_pll_init sw_pll_reset m Kp Ki loop_rate_count pll_ratio ref_clk_expected_inc
    lut_table_base num_lut_entries app_pll_ctl_reg_val app_pll_div_reg_val nominal_lut_idx
    ppm_range
  if sw_pll_init_width_check mi.sw_pll.pfd_state then some mi else none

/-- The intermediate product of lines 36-38 of sw_pll_pfd.h over the integers, before any
reduction modulo `2^64`: `M * (R + r) * ref_clk_scaling_numerator`. -/
def compensation_product (pfd : sw_pll_pfd_state_t) (ref_clk_diff : Int) : Int :=
  (pfd.mclk_expected_pt_inc : Int) * ((pfd.ref_clk_expected_inc : Int) + ref_clk_diff)
    * (pfd.ref_clk_scaling_numerator : Int)

/-- The machine left by `sw_pll_init` with `loop_rate_count = 512`, `pll_ratio = 512` and
`ref_clk_expected_inc = 1`, so that `R = 512`, `M = 2^18` and
`ref_clk_scaling_numerator = 2^28 + 1`. -/
def width_demo_init : sw_pll_machine :=
  sw_pll_init demo_sw_pll_reset demo_machine 0 65536 512 512 1 [10, 20, 30, 40] 4 0 0 2 150

/-- The machine left by `sw_pll_init` with `loop_rate_count = 512`, `pll_ratio = 16384` and
`ref_clk_expected_inc = 1`, so that `R = 512`, `M = 2^23` and
`ref_clk_scaling_numerator = 2^28 + 1`. -/
def width_demo_init_wide : sw_pll_machine :=
  sw_pll_init demo_sw_pll_reset demo_machine 0 65536 512 16384 1 [10, 20, 30, 40] 4 0 0 2 150

/-! ## Machine-integer lemmas -/

theorem to_int32_of_range (x : Int) (hlo : -2147483648 ≤ x) (hhi : x ≤ 2147483647) :
    to_int32 x = x := by
  unfold to_int32
  omega

theorem to_int32_bounds (x : Int) : -2147483648 ≤ to_int32 x ∧ to_int32 x ≤ 2147483647 := by
  unfold to_int32
  omega

theorem to_int16_bounds (x : Int) : -32768 ≤ to_int16 x ∧ to_int16 x ≤ 32767 := by
  unfold to_int16
  omega

theorem to_int16_of_range (x : Int) (hlo : -32768 ≤ x) (hhi : x ≤ 32767) : to_int16 x = x := by
  unfold to_int16
  omega

/-- Two's complement reduction does not change the residue modulo `2^16`. -/
theorem to_int16_emod (x : Int) : to_int16 x % 65536 = x % 65536 := by
  unfold to_int16
  omega

/-- The representative in `[-2^15, 2^15 - 1]` of a residue class modulo `2^16` is unique. -/
theorem to_int16_unique (x d : Int) (hlo : -32768 ≤ d) (hhi : d ≤ 32767)
    (hd : d % 65536 = x % 65536) : d = to_int16 x := by
  unfold to_int16
  omega

/-- Both branches of the wraparound-aware difference compute the same value. -/
theorem port_timer_diff_arm_eq (t : Bool) (a b : Nat) :
    port_timer_diff_arm t a b = to_int16 ((a : Int) - (b : Int)) := by
  unfold port_timer_diff_arm
  split
  · unfold to_int16
    omega
  · rfl

theorem port_timer_diff_eq (a b : Nat) :
    port_timer_diff a b = to_int16 ((a : Int) - (b : Int)) :=
  port_timer_diff_arm_eq _ a b

/-! ## LUT selection -/

/-- The three cases of the index computation of `lookup_pll_frac`, in terms of the local
`set`. -/
theorem lookup_pll_frac_index_cases (sw_pll : sw_pll_state_t) (c : Int) :
    let set := to_int32 ((sw_pll.lut_state.nominal_lut_idx : Int) - c)
    (set < 0 → lookup_pll_frac_index sw_pll c =
      ({ sw_pll with
          lock_counter := SW_PLL_LOCK_COUNT
          lock_status := sw_pll_lock_status_t.SW_PLL_UNLOCKED_LOW }, 0)) ∧
    (0 ≤ set → (sw_pll.lut_state.num_lut_entries : Int) ≤ set →
      lookup_pll_frac_index sw_pll c =
      ({ sw_pll with
          lock_counter := SW_PLL_LOCK_COUNT
          lock_status := sw_pll_lock_status_t.SW_PLL_UNLOCKED_HIGH },
        to_uint32 ((sw_pll.lut_state.num_lut_entries : Int) - 1))) ∧
    (0 ≤ set → set < (sw_pll.lut_state.num_lut_entries : Int) → sw_pll.lock_counter ≠ 0 →
      lookup_pll_frac_index sw_pll c =
      ({ sw_pll with lock_counter := sw_pll.lock_counter - 1 }, set.toNat)) ∧
    (0 ≤ set → set < (sw_pll.lut_state.num_lut_entries : Int) → sw_pll.lock_counter = 0 →
      lookup_pll_frac_index sw_pll c =
      ({ sw_pll with lock_status := sw_pll_lock_status_t.SW_PLL_LOCKED }, set.toNat)) := by
  intro set
  refine ⟨?_, ?_, ?_, ?_⟩
  · intro h
    simp only [lookup_pll_frac_index]
    rw [if_pos h]
  · intro h0 hN
    simp only [lookup_pll_frac_index]
    rw [if_neg (not_lt.mpr h0), if_pos hN]
  · intro h0 hN hc
    simp only [lookup_pll_frac_index]
    rw [if_neg (not_lt.mpr h0), if_neg (not_le.mpr hN), if_pos hc]
  · intro h0 hN hc
    simp only [lookup_pll_frac_index]
    rw [if_neg (not_lt.mpr h0), if_neg (not_le.mpr hN), if_neg (not_not.mpr hc)]

/-- The clamped index at the top of the table is `num_lut_entries - 1` whenever the table is
not empty. -/
theorem to_uint32_pred (n : Nat) (x : Int) (h1 : 1 ≤ n) (hx : (n : Int) ≤ x)
    (hmax : x ≤ 2147483647) : to_uint32 ((n : Int) - 1) = n - 1 := by
  unfold to_uint32
  omega

/-- C1. LUT selection.  With a non-empty table and `s = nominal_lut_idx - c` representable in
32 bits: `s < 0` returns `table[0]` (as the `uint16_t` the function returns), sets the
countdown to `SW_PLL_LOCK_COUNT` and the status to UnlockedLow; `s >= num_lut_entries` returns
`table[num_lut_entries - 1]`, sets the countdown to `SW_PLL_LOCK_COUNT` and the status to
UnlockedHigh; otherwise `table[s]` is returned, and a positive countdown is decremented with
the status kept, while a zero countdown stays zero and the status becomes Locked.
`sw_pll_do_control_from_error` stores the value returned for its control signal in
`current_reg_val`. -/
theorem lookup_pll_frac_selection (sw_pll : sw_pll_state_t) (c : Int)
    (hN : 1 ≤ sw_pll.lut_state.num_lut_entries)
    (hlo : -2147483648 ≤ (sw_pll.lut_state.nominal_lut_idx : Int) - c)
    (hhi : (sw_pll.lut_state.nominal_lut_idx : Int) - c ≤ 2147483647) :
    let s : Int := (sw_pll.lut_state.nominal_lut_idx : Int) - c
    let r := lookup_pll_frac sw_pll c
    (s < 0 →
      r.2 = to_uint16 (sw_pll.lut_state.lut_table_base.getD 0 0) ∧
      r.1.lock_counter = SW_PLL_LOCK_COUNT ∧
      r.1.lock_status = sw_pll_lock_status_t.SW_PLL_UNLOCKED_LOW) ∧
    ((sw_pll.lut_state.num_lut_entries : Int) ≤ s →
      r.2 = to_uint16
        (sw_pll.lut_state.lut_table_base.getD (sw_pll.lut_state.num_lut_entries - 1) 0) ∧
      r.1.lock_counter = SW_PLL_LOCK_COUNT ∧
      r.1.lock_status = sw_pll_lock_status_t.SW_PLL_UNLOCKED_HIGH) ∧
    (0 ≤ s → s < (sw_pll.lut_state.num_lut_entries : Int) →
      r.2 = to_uint16 (sw_pll.lut_state.lut_table_base.getD s.toNat 0) ∧
      (0 < sw_pll.lock_counter →
        r.1.lock_counter = sw_pll.lock_counter - 1 ∧ r.1.lock_status = sw_pll.lock_status) ∧
      (sw_pll.lock_counter = 0 →
        r.1.lock_counter = 0 ∧ r.1.lock_status = sw_pll_lock_status_t.SW_PLL_LOCKED)) ∧
    (∀ (m : sw_pll_machine) (error : Int),
      (sw_pll_do_control_from_error m error).1.sw_pll.lut_state.current_reg_val =
        (lookup_pll_frac
          { m.sw_pll with pi_state := pi_accumulate m.sw_pll.pi_state error }
          (pi_total_error (pi_accumulate m.sw_pll.pi_state error) error)).2) := by
  intro s r
  have hset : to_int32 ((sw_pll.lut_state.nominal_lut_idx : Int) - c) = s :=
    to_int32_of_range _ hlo hhi
  have hcases := lookup_pll_frac_index_cases sw_pll c
  simp only [hset] at hcases
  obtain ⟨hlow, hhigh, hdec, hlock⟩ := hcases
  refine ⟨?_, ?_, ?_, ?_⟩
  · intro h
    simp only [r, lookup_pll_frac, hlow h]
    exact ⟨trivial, trivial, trivial⟩
  · intro h
    have h0 : 0 ≤ s := le_trans (Int.ofNat_nonneg _) h
    simp only [r, lookup_pll_frac, hhigh h0 h, to_uint32_pred _ s hN h hhi]
    exact ⟨trivial, trivial, trivial⟩
  · intro h0 h
    refine ⟨?_, ?_, ?_⟩
    · by_cases hc : sw_pll.lock_counter = 0
      · simp only [r, lookup_pll_frac, hlock h0 h hc]
      · simp only [r, lookup_pll_frac, hdec h0 h hc]
    · intro hc
      simp only [r, lookup_pll_frac, hdec h0 h (Nat.pos_iff_ne_zero.mp hc)]
      exact ⟨trivial, trivial⟩
    · intro hc
      simp only [r, lookup_pll_frac, hlock h0 h hc]
      exact ⟨hc, trivial⟩
  · intro m error
    rfl

/-- Witness for C1 at `demo_state`: control signal 3 selects below the table, control signal
0 selects the nominal entry and decrements the countdown. -/
theorem lookup_pll_frac_selection_witness :
    ((lookup_pll_frac demo_state 3).2 = 10 ∧
      (lookup_pll_frac demo_state 3).1.lock_counter = 10 ∧
      (lookup_pll_frac demo_state 3).1.lock_status
        = sw_pll_lock_status_t.SW_PLL_UNLOCKED_LOW) ∧
    ((lookup_pll_frac demo_state 0).2 = 30 ∧
      (lookup_pll_frac demo_state 0).1.lock_counter = 9) :=
  ⟨(lookup_pll_frac_selection demo_state 3 (by decide) (by decide) (by decide)).1 (by decide),
    ⟨((lookup_pll_frac_selection demo_state 0 (by decide) (by decide) (by decide)).2.2.1
        (by decide) (by decide)).1,
      (((lookup_pll_frac_selection demo_state 0 (by decide) (by decide) (by decide)).2.2.1
        (by decide) (by decide)).2.1 (by decide)).1⟩⟩

/-- C10. LUT index always in range: with a non-empty table, for every control signal (wrapping
ones included) the index with which `lookup_pll_frac` reads the table is below
`num_lut_entries`, and the returned value is the entry read at that index. -/
theorem lookup_pll_frac_index_in_range (sw_pll : sw_pll_state_t) (c : Int)
    (hN : 1 ≤ sw_pll.lut_state.num_lut_entries) :
    (lookup_pll_frac_index sw_pll c).2 < sw_pll.lut_state.num_lut_entries ∧
    (lookup_pll_frac sw_pll c).2 =
      to_uint16 (sw_pll.lut_state.lut_table_base.getD (lookup_pll_frac_index sw_pll c).2 0) := by
  have hb := to_int32_bounds ((sw_pll.lut_state.nominal_lut_idx : Int) - c)
  obtain ⟨hlow, hhigh, hdec, hlock⟩ := lookup_pll_frac_index_cases sw_pll c
  rcases lt_or_le (to_int32 ((sw_pll.lut_state.nominal_lut_idx : Int) - c)) 0 with h | h0
  · simp only [lookup_pll_frac, hlow h]
    exact ⟨hN, trivial⟩
  · rcases le_or_lt (sw_pll.lut_state.num_lut_entries : Int)
      (to_int32 ((sw_pll.lut_state.nominal_lut_idx : Int) - c)) with h | h
    · simp only [lookup_pll_frac, hhigh h0 h, to_uint32_pred _ _ hN h hb.2]
      exact ⟨by omega, trivial⟩
    · by_cases hc : sw_pll.lock_counter = 0
      · simp only [lookup_pll_frac, hlock h0 h hc]
        exact ⟨by omega, trivial⟩
      · simp only [lookup_pll_frac, hdec h0 h hc]
        exact ⟨by omega, trivial⟩

/-- Witness for C10 at `demo_state` with a control signal whose subtraction wraps. -/
theorem lookup_pll_frac_index_in_range_witness :
    (lookup_pll_frac_index demo_state (-2147483647)).2 < 4 ∧
    (lookup_pll_frac demo_state (-2147483647)).2 =
      to_uint16 (demo_state.lut_state.lut_table_base.getD
        (lookup_pll_frac_index demo_state (-2147483647)).2 0) :=
  lookup_pll_frac_index_in_range demo_state (-2147483647) (by decide)

/-! ## Lock hysteresis -/

theorem lookup_pll_frac_fst (s : sw_pll_state_t) (c : Int) :
    (lookup_pll_frac s c).1 = (lookup_pll_frac_index s c).1 := rfl

theorem lookup_pll_frac_lut_state (s : sw_pll_state_t) (c : Int) :
    (lookup_pll_frac s c).1.lut_state = s.lut_state := by
  simp only [lookup_pll_frac, lookup_pll_frac_index]
  split_ifs <;> rfl

theorem lut_run_concat (s : sw_pll_state_t) (cs : List Int) (c : Int) :
    lut_run s (cs ++ [c]) = (lookup_pll_frac (lut_run s cs) c).1 := by
  simp [lut_run]

theorem lut_run_lut_state (s : sw_pll_state_t) (cs : List Int) :
    (lut_run s cs).lut_state = s.lut_state := by
  induction cs using List.reverseRecOn with
  | nil => rfl
  | append_singleton cs c ih => rw [lut_run_concat, lookup_pll_frac_lut_state, ih]

theorem lut_selection_in_range_congr (s t : sw_pll_state_t) (c : Int)
    (h : t.lut_state = s.lut_state) :
    lut_selection_in_range t c ↔ lut_selection_in_range s c := by
  unfold lut_selection_in_range
  rw [h]

/-- What one selection does to the lock state: an out-of-range selection resets the countdown
and leaves the status unlocked; an in-range selection decrements a positive countdown and
keeps the status, or turns the status to Locked when the countdown is zero. -/
theorem lookup_pll_frac_lock_step (t : sw_pll_state_t) (c : Int) :
    (¬ lut_selection_in_range t c ∧
      (lookup_pll_frac t c).1.lock_counter = SW_PLL_LOCK_COUNT ∧
      (lookup_pll_frac t c).1.lock_status ≠ sw_pll_lock_status_t.SW_PLL_LOCKED) ∨
    (lut_selection_in_range t c ∧ t.lock_counter ≠ 0 ∧
      (lookup_pll_frac t c).1.lock_counter = t.lock_counter - 1 ∧
      (lookup_pll_frac t c).1.lock_status = t.lock_status) ∨
    (lut_selection_in_range t c ∧ t.lock_counter = 0 ∧
      (lookup_pll_frac t c).1.lock_counter = 0 ∧
      (lookup_pll_frac t c).1.lock_status = sw_pll_lock_status_t.SW_PLL_LOCKED) := by
  obtain ⟨hlow, hhigh, hdec, hlock⟩ := lookup_pll_frac_index_cases t c
  rw [lookup_pll_frac_fst]
  unfold lut_selection_in_range
  rcases lt_or_le (to_int32 ((t.lut_state.nominal_lut_idx : Int) - c)) 0 with h | h0
  · rw [hlow h]
    exact Or.inl ⟨fun hin => absurd hin.1 (not_le.mpr h), rfl, fun hl => by cases hl⟩
  · rcases le_or_lt (t.lut_state.num_lut_entries : Int)
      (to_int32 ((t.lut_state.nominal_lut_idx : Int) - c)) with h | h
    · rw [hhigh h0 h]
      exact Or.inl ⟨fun hin => absurd hin.2 (not_lt.mpr h), rfl, fun hl => by cases hl⟩
    · by_cases hc : t.lock_counter = 0
      · rw [hlock h0 h hc]
        exact Or.inr (Or.inr ⟨⟨h0, h⟩, hc, hc, rfl⟩)
      · rw [hdec h0 h hc]
        exact Or.inr (Or.inl ⟨⟨h0, h⟩, hc, rfl, rfl⟩)

/-- The countdown invariant behind the hysteresis: after any run of selections that starts
with a freshly reset countdown and an unlocked status, the countdown `k` is at most
`SW_PLL_LOCK_COUNT`, the status is Locked only if `k = 0`, and the last
`SW_PLL_LOCK_COUNT - k` selections exist and were all in range. -/
theorem lock_countdown_invariant (s : sw_pll_state_t) (cs : List Int)
    (hcnt : s.lock_counter = SW_PLL_LOCK_COUNT)
    (hst : s.lock_status ≠ sw_pll_lock_status_t.SW_PLL_LOCKED) :
    (lut_run s cs).lock_counter ≤ SW_PLL_LOCK_COUNT ∧
    ((lut_run s cs).lock_status = sw_pll_lock_status_t.SW_PLL_LOCKED →
      (lut_run s cs).lock_counter = 0) ∧
    SW_PLL_LOCK_COUNT - (lut_run s cs).lock_counter ≤ cs.length ∧
    ∀ (i : Nat) (c : Int),
      cs.length - (SW_PLL_LOCK_COUNT - (lut_run s cs).lock_counter) ≤ i →
      cs[i]? = some c → lut_selection_in_range s c := by
  induction cs using List.reverseRecOn with
  | nil =>
    refine ⟨le_of_eq hcnt, fun h => absurd h hst, ?_, ?_⟩
    · simp [lut_run, hcnt]
    · intro i c _ h
      simp at h
  | append_singleton cs c ih =>
    obtain ⟨ih1, ih2, ih3, ih4⟩ := ih
    have hlut := lut_run_lut_state s cs
    have hstep := lookup_pll_frac_lock_step (lut_run s cs) c
    rw [lut_run_concat]
    generalize (lookup_pll_frac (lut_run s cs) c).1 = t' at hstep ⊢
    simp only [SW_PLL_LOCK_COUNT, List.length_append, List.length_singleton]
      at ih1 ih3 ih4 hstep ⊢
    -- what the element at position `i` of `cs ++ [c]` can be
    have hsplit : ∀ (i : Nat) (c' : Int), (cs ++ [c])[i]? = some c' →
        (i < cs.length ∧ cs[i]? = some c') ∨ (i = cs.length ∧ c' = c) := by
      intro i c' h
      rcases Nat.lt_or_ge i cs.length with hi | hi
      · rw [List.getElem?_append_left hi] at h
        exact Or.inl ⟨hi, h⟩
      · obtain ⟨hlt, _⟩ := List.getElem?_eq_some.mp h
        have hlen : i = cs.length := by
          simp only [List.length_append, List.length_singleton] at hlt
          omega
        subst hlen
        rw [List.getElem?_concat_length] at h
        exact Or.inr ⟨rfl, (Option.some.inj h).symm⟩
    rcases hstep with ⟨_, hk, hs⟩ | ⟨hin, hc, hk, hs⟩ | ⟨hin, hc, hk, hs⟩
    · refine ⟨by omega, fun hl => absurd hl hs, by omega, ?_⟩
      intro i c' hi hget
      obtain ⟨hlt, _⟩ := List.getElem?_eq_some.mp hget
      simp only [List.length_append, List.length_singleton] at hlt
      omega
    · have hin' := (lut_selection_in_range_congr s (lut_run s cs) c hlut).mp hin
      refine ⟨by omega, fun hl => absurd (ih2 (hs ▸ hl)) hc, by omega, ?_⟩
      intro i c' hi hget
      rcases hsplit i c' hget with ⟨hlt, hget'⟩ | ⟨_, hc'⟩
      · exact ih4 i c' (by omega) hget'
      · rw [hc']
        exact hin'
    · have hin' := (lut_selection_in_range_congr s (lut_run s cs) c hlut).mp hin
      refine ⟨by omega, fun _ => hk, by omega, ?_⟩
      intro i c' hi hget
      rcases hsplit i c' hget with ⟨hlt, hget'⟩ | ⟨_, hc'⟩
      · exact ih4 i c' (by omega) hget'
      · rw [hc']
        exact hin'

/-- C2. Lock hysteresis.  Start from a state whose countdown has just been reset (countdown
`SW_PLL_LOCK_COUNT`, status not Locked) and feed any sequence `cs` of control signals to the
LUT selector.  If the status is Locked after the `n`-th selection, then `n` is at least
`SW_PLL_LOCK_COUNT` and each of the `SW_PLL_LOCK_COUNT` selections up to and including the
`n`-th was in range. -/
theorem lock_hysteresis (s : sw_pll_state_t) (cs : List Int) (n : Nat)
    (hcnt : s.lock_counter = SW_PLL_LOCK_COUNT)
    (hst : s.lock_status ≠ sw_pll_lock_status_t.SW_PLL_LOCKED)
    (hn : n ≤ cs.length)
    (hlocked : (lut_run s (cs.take n)).lock_status = sw_pll_lock_status_t.SW_PLL_LOCKED) :
    SW_PLL_LOCK_COUNT ≤ n ∧
    ∀ (i : Nat) (c : Int), n - SW_PLL_LOCK_COUNT ≤ i → i < n → cs[i]? = some c →
      lut_selection_in_range s c := by
  obtain ⟨h1, h2, h3, h4⟩ := lock_countdown_invariant s (cs.take n) hcnt hst
  have hzero := h2 hlocked
  have hlen : (cs.take n).length = n := by
    rw [List.length_take]
    omega
  rw [hzero, hlen] at h3 h4
  refine ⟨by omega, ?_⟩
  intro i c hi hlt hget
  refine h4 i c (by omega) ?_
  rw [List.getElem?_take_of_lt hlt]
  exact hget

set_option maxRecDepth 100000 in
/-- Witness for C2: from `demo_state`, one selection below the table followed by eleven
nominal selections reports Locked after the twelfth. -/
theorem lock_hysteresis_witness :
    SW_PLL_LOCK_COUNT ≤ 12 ∧
    ∀ (i : Nat) (c : Int), 12 - SW_PLL_LOCK_COUNT ≤ i → i < 12 →
      [(3 : Int), 0, 0, 0, 0, 0, 0, 0, 0, 0, 0, 0][i]? = some c →
      lut_selection_in_range demo_state c :=
  lock_hysteresis demo_state [3, 0, 0, 0, 0, 0, 0, 0, 0, 0, 0, 0] 12
    (by decide) (by decide) (by decide) (by decide)

/-- The starting states C2 names have a freshly reset countdown and an unlocked status: the
state left by `sw_pll_init`. -/
theorem lock_reset_after_init
    (sw_pll_reset : sw_pll_state_t → Int → Int → Nat → sw_pll_state_t)
    (m : sw_pll_machine) (Kp Ki : Int) (loop_rate_count pll_ratio ref_clk_expected_inc : Nat)
    (lut_table_base : List Int)
    (num_lut_entries app_pll_ctl_reg_val app_pll_div_reg_val nominal_lut_idx ppm_range : Nat) :
    (sw_pll_init sw_pll_reset m Kp Ki loop_rate_count pll_ratio ref_clk_expected_inc
      lut_table_base num_lut_entries app_pll_ctl_reg_val app_pll_div_reg_val nominal_lut_idx
      ppm_range).sw_pll.lock_counter = SW_PLL_LOCK_COUNT ∧
    (sw_pll_init sw_pll_reset m Kp Ki loop_rate_count pll_ratio ref_clk_expected_inc
      lut_table_base num_lut_entries app_pll_ctl_reg_val app_pll_div_reg_val nominal_lut_idx
      ppm_range).sw_pll.lock_status ≠ sw_pll_lock_status_t.SW_PLL_LOCKED :=
  ⟨rfl, fun h => by cases h⟩

/-- The starting states C2 names, continued: the state left by an out-of-range selection. -/
theorem lock_reset_after_clamp (s : sw_pll_state_t) (c : Int)
    (h : ¬ lut_selection_in_range s c) :
    (lookup_pll_frac s c).1.lock_counter = SW_PLL_LOCK_COUNT ∧
    (lookup_pll_frac s c).1.lock_status ≠ sw_pll_lock_status_t.SW_PLL_LOCKED := by
  rcases lookup_pll_frac_lock_step s c with h1 | h2 | h3
  · exact h1.2
  · exact absurd h2.1 h
  · exact absurd h3.1 h

/-! ## PI controller -/

/-- The clamp of lines 141-142 keeps the accumulator within the windup limit. -/
theorem pi_accumulate_bounds (pi : sw_pll_pi_state_t) (error : Int)
    (hlim : 0 ≤ pi.i_windup_limit) :
    -pi.i_windup_limit ≤ (pi_accumulate pi error).error_accum ∧
    (pi_accumulate pi error).error_accum ≤ pi.i_windup_limit := by
  simp only [pi_accumulate]
  have hb := to_int32_bounds (pi.error_accum + error)
  have hn := to_int32_bounds (-pi.i_windup_limit)
  have hneg : pi.i_windup_limit ≤ 2147483648 →
      to_int32 (-pi.i_windup_limit) = -pi.i_windup_limit := by
    intro h
    unfold to_int32
    omega
  split_ifs <;> omega

theorem pi_accumulate_limit (pi : sw_pll_pi_state_t) (error : Int) :
    (pi_accumulate pi error).i_windup_limit = pi.i_windup_limit := rfl

theorem do_control_from_error_pi_state (m : sw_pll_machine) (error : Int) :
    (sw_pll_do_control_from_error m error).1.sw_pll.pi_state
      = pi_accumulate m.sw_pll.pi_state error := by
  simp only [sw_pll_do_control_from_error, lookup_pll_frac, lookup_pll_frac_index]
  split_ifs <;> rfl

theorem control_from_error_run_concat (m : sw_pll_machine) (es : List Int) (e : Int) :
    control_from_error_run m (es ++ [e])
      = (sw_pll_do_control_from_error (control_from_error_run m es) e).1 := by
  simp [control_from_error_run]

theorem control_from_error_run_limit (m : sw_pll_machine) (es : List Int) :
    (control_from_error_run m es).sw_pll.pi_state.i_windup_limit
      = m.sw_pll.pi_state.i_windup_limit := by
  induction es using List.reverseRecOn with
  | nil => rfl
  | append_singleton es e ih =>
    rw [control_from_error_run_concat, do_control_from_error_pi_state, pi_accumulate_limit, ih]

/-- C3. PI anti-windup invariant: with a non-negative windup limit, after
`sw_pll_do_control_from_error` the accumulator lies in `[-i_windup_limit, i_windup_limit]`,
whatever the error; hence the same holds after every update of any non-empty sequence of
errors. -/
theorem pi_anti_windup (m : sw_pll_machine)
    (hlim : 0 ≤ m.sw_pll.pi_state.i_windup_limit) :
    (∀ error : Int,
      -m.sw_pll.pi_state.i_windup_limit
          ≤ (sw_pll_do_control_from_error m error).1.sw_pll.pi_state.error_accum ∧
      (sw_pll_do_control_from_error m error).1.sw_pll.pi_state.error_accum
          ≤ m.sw_pll.pi_state.i_windup_limit) ∧
    (∀ errors : List Int, errors ≠ [] →
      -m.sw_pll.pi_state.i_windup_limit
          ≤ (control_from_error_run m errors).sw_pll.pi_state.error_accum ∧
      (control_from_error_run m errors).sw_pll.pi_state.error_accum
          ≤ m.sw_pll.pi_state.i_windup_limit) := by
  constructor
  · intro error
    rw [do_control_from_error_pi_state]
    exact pi_accumulate_bounds _ error hlim
  · intro errors hne
    induction errors using List.reverseRecOn with
    | nil => exact absurd rfl hne
    | append_singleton es e _ =>
      rw [control_from_error_run_concat, do_control_from_error_pi_state]
      have hl := control_from_error_run_limit m es
      have := pi_accumulate_bounds (control_from_error_run m es).sw_pll.pi_state e
        (by rw [hl]; exact hlim)
      rw [hl] at this
      exact this

/-- Witness for C3 at `demo_machine` (windup limit 100) with errors that saturate the
accumulator in both directions. -/
theorem pi_anti_windup_witness :
    (-100 ≤ (control_from_error_run demo_machine
        [32767, 32767, -32768, -32768, -32768]).sw_pll.pi_state.error_accum ∧
      (control_from_error_run demo_machine
        [32767, 32767, -32768, -32768, -32768]).sw_pll.pi_state.error_accum ≤ 100) :=
  (pi_anti_windup demo_machine (by decide)).2 [32767, 32767, -32768, -32768, -32768]
    (by decide)

/-! ## Phase-frequency detector -/

theorem MAGNITUDE_eq_abs (a : Int) : MAGNITUDE a = |a| := by
  unfold MAGNITUDE
  split
  · next h => exact (abs_of_neg h).symm
  · next h => exact (abs_of_nonneg (not_lt.mp h)).symm

/-- The PFD state left by `sw_pll_calc_error_from_port_timers`, field by field. -/
theorem calc_error_pfd_state (pfd : sw_pll_pfd_state_t) (first_loop mclk_pt ref_clk_pt : Nat) :
    (sw_pll_calc_error_from_port_timers pfd first_loop mclk_pt ref_clk_pt).1 =
      { pfd with
          mclk_diff := port_timer_diff mclk_pt (mclk_expected_pt pfd ref_clk_pt)
          ref_clk_pt_last :=
            if pfd.ref_clk_expected_inc ≠ 0 then ref_clk_pt else pfd.ref_clk_pt_last } := by
  simp only [sw_pll_calc_error_from_port_timers]
  split_ifs <;> rfl

/-- The `first_loop` byte left by `sw_pll_calc_error_from_port_timers`. -/
theorem calc_error_first_loop (pfd : sw_pll_pfd_state_t) (first_loop mclk_pt ref_clk_pt : Nat) :
    (sw_pll_calc_error_from_port_timers pfd first_loop mclk_pt ref_clk_pt).2 =
      if MAGNITUDE (port_timer_diff mclk_pt (mclk_expected_pt pfd ref_clk_pt))
          > (pfd.mclk_max_diff : Int) then 1 else first_loop := by
  simp only [sw_pll_calc_error_from_port_timers]
  split_ifs <;> rfl

/-- Without reference compensation the PFD leaves the state unchanged except for `mclk_diff`,
which is the 16-bit signed reduction of `mclk_pt - (mclk_pt_last + mclk_expected_pt_inc)`. -/
theorem calc_error_no_compensation (pfd : sw_pll_pfd_state_t)
    (first_loop mclk_pt ref_clk_pt : Nat) (hinc : pfd.ref_clk_expected_inc = 0) :
    (sw_pll_calc_error_from_port_timers pfd first_loop mclk_pt ref_clk_pt).1 =
      { pfd with
          mclk_diff := to_int16 ((mclk_pt : Int)
            - ((pfd.mclk_pt_last : Int) + (pfd.mclk_expected_pt_inc : Int))) } := by
  have hexp : mclk_expected_pt pfd ref_clk_pt
      = to_uint16 ((pfd.mclk_pt_last : Int) + (pfd.mclk_expected_pt_inc : Int)) := by
    simp [mclk_expected_pt, hinc]
  have hd : to_int16 ((mclk_pt : Int)
        - (to_uint16 ((pfd.mclk_pt_last : Int) + (pfd.mclk_expected_pt_inc : Int)) : Int))
      = to_int16 ((mclk_pt : Int)
        - ((pfd.mclk_pt_last : Int) + (pfd.mclk_expected_pt_inc : Int))) := by
    simp only [to_int16, to_uint16]
    omega
  simp only [calc_error_pfd_state, hexp, port_timer_diff_eq, hinc, hd]
  rfl

/-- C4. PFD without reference compensation: when `ref_clk_expected_inc` is 0, `mclk_diff`
becomes the unique `d` in `[-32768, 32767]` congruent modulo 65536 to
`mclk_pt - (mclk_pt_last + mclk_expected_pt_inc)`, whichever arm of the `PORT_TIMEAFTER`
conditional is evaluated, and `ref_clk_pt_last` and `mclk_pt_last` are left unchanged. -/
theorem pfd_without_ref_compensation (pfd : sw_pll_pfd_state_t)
    (first_loop mclk_pt ref_clk_pt : Nat) (hinc : pfd.ref_clk_expected_inc = 0) :
    let r := (sw_pll_calc_error_from_port_timers pfd first_loop mclk_pt ref_clk_pt).1
    let x : Int := (mclk_pt : Int) - ((pfd.mclk_pt_last : Int) + (pfd.mclk_expected_pt_inc : Int))
    (-32768 ≤ r.mclk_diff ∧ r.mclk_diff ≤ 32767 ∧ r.mclk_diff % 65536 = x % 65536) ∧
    (∀ d : Int, -32768 ≤ d → d ≤ 32767 → d % 65536 = x % 65536 → d = r.mclk_diff) ∧
    (∀ t : Bool,
      port_timer_diff_arm t mclk_pt
        (to_uint16 ((pfd.mclk_pt_last : Int) + (pfd.mclk_expected_pt_inc : Int)))
        = r.mclk_diff) ∧
    r.ref_clk_pt_last = pfd.ref_clk_pt_last ∧
    r.mclk_pt_last = pfd.mclk_pt_last := by
  intro r x
  have hr : r = { pfd with mclk_diff := to_int16 x } :=
    calc_error_no_compensation pfd first_loop mclk_pt ref_clk_pt hinc
  have hd : r.mclk_diff = to_int16 x := by rw [hr]
  refine ⟨?_, ?_, ?_, ?_, ?_⟩
  · rw [hd]
    exact ⟨(to_int16_bounds x).1, (to_int16_bounds x).2, to_int16_emod x⟩
  · intro d hlo hhi hmod
    rw [hd]
    exact to_int16_unique x d hlo hhi hmod
  · intro t
    rw [port_timer_diff_arm_eq, hd]
    simp only [x, to_int16, to_uint16]
    omega
  · rw [hr]
  · rw [hr]

/-- Witness for C4 at the PFD state of `demo_state`: the sample 1110 is 10 counts after the
expected 1100. -/
theorem pfd_without_ref_compensation_witness :
    (sw_pll_calc_error_from_port_timers demo_state.pfd_state 0 1110 0).1.mclk_diff = 10 ∧
    (sw_pll_calc_error_from_port_timers demo_state.pfd_state 0 1110 0).1.mclk_pt_last = 100 :=
  ⟨((pfd_without_ref_compensation demo_state.pfd_state 0 1110 0 (by decide)).2.1 10
      (by decide) (by decide) (by decide)).symm,
    (pfd_without_ref_compensation demo_state.pfd_state 0 1110 0 (by decide)).2.2.2.2⟩

/-- C5. PFD resync signal: after `sw_pll_calc_error_from_port_timers`, `first_loop` is 1 when
the magnitude of the computed `mclk_diff` is strictly greater than `mclk_max_diff` (which the
call does not change), and keeps its previous value otherwise, in particular when the
magnitude equals `mclk_max_diff`. -/
theorem pfd_resync_signal (pfd : sw_pll_pfd_state_t) (first_loop mclk_pt ref_clk_pt : Nat) :
    let r := sw_pll_calc_error_from_port_timers pfd first_loop mclk_pt ref_clk_pt
    r.1.mclk_max_diff = pfd.mclk_max_diff ∧
    (|r.1.mclk_diff| > (pfd.mclk_max_diff : Int) → r.2 = 1) ∧
    (|r.1.mclk_diff| ≤ (pfd.mclk_max_diff : Int) → r.2 = first_loop) := by
  intro r
  have h1 : r.1.mclk_diff = port_timer_diff mclk_pt (mclk_expected_pt pfd ref_clk_pt) := by
    simp only [r, calc_error_pfd_state]
  have h2 := calc_error_first_loop pfd first_loop mclk_pt ref_clk_pt
  rw [MAGNITUDE_eq_abs, ← h1] at h2
  refine ⟨?_, ?_, ?_⟩
  · simp only [r, calc_error_pfd_state]
  · intro h
    simp only [r, h2, if_pos h]
  · intro h
    simp only [r, h2, if_neg (not_lt.mpr h)]

/-! ## The control-loop orchestrator -/

/-- A call of `sw_pll_do_control` that is not a control update only increments the loop
counter. -/
theorem do_control_not_due (m : sw_pll_machine) (mclk_pt ref_clk_pt : Nat)
    (h : ¬ control_update_due m.sw_pll) :
    sw_pll_do_control m mclk_pt ref_clk_pt =
      ({ m with sw_pll :=
          { m.sw_pll with loop_counter := to_uint32 ((m.sw_pll.loop_counter : Int) + 1) } },
        m.sw_pll.lock_status) := by
  unfold control_update_due at h
  simp only [sw_pll_do_control, if_neg h]

/-- The first-loop control update, as one state. -/
theorem do_control_first_loop (m : sw_pll_machine) (mclk_pt ref_clk_pt : Nat)
    (hdue : control_update_due m.sw_pll) (hfl : m.sw_pll.first_loop ≠ 0) :
    sw_pll_do_control m mclk_pt ref_clk_pt =
      ({ m with sw_pll :=
          { m.sw_pll with
              loop_counter := 0
              pfd_state := { m.sw_pll.pfd_state with mclk_pt_last := mclk_pt }
              pi_state := { m.sw_pll.pi_state with error_accum := 0 }
              lock_counter := SW_PLL_LOCK_COUNT
              lock_status := sw_pll_lock_status_t.SW_PLL_UNLOCKED_LOW
              first_loop := 0 } },
        sw_pll_lock_status_t.SW_PLL_UNLOCKED_LOW) := by
  unfold control_update_due at hdue
  simp only [sw_pll_do_control, if_pos hdue, if_pos hfl]

/-- The steady-state control update, as one state: the PFD runs on the old PFD state, the PI
controller accumulates `mclk_diff`, the LUT selector runs on the old lock state, the selected
value is stored and written, and `mclk_pt_last` takes the new sample. -/
theorem do_control_steady (m : sw_pll_machine) (mclk_pt ref_clk_pt : Nat)
    (hdue : control_update_due m.sw_pll) (hfl : m.sw_pll.first_loop = 0) :
    let p := sw_pll_calc_error_from_port_timers m.sw_pll.pfd_state m.sw_pll.first_loop
      mclk_pt ref_clk_pt
    let pi := pi_accumulate m.sw_pll.pi_state p.1.mclk_diff
    let sel := lookup_pll_frac m.sw_pll (pi_total_error pi p.1.mclk_diff)
    sw_pll_do_control m mclk_pt ref_clk_pt =
      ({ sw_pll :=
          { lock_status := sel.1.lock_status
            lock_counter := sel.1.lock_counter
            first_loop := p.2
            loop_rate_count := m.sw_pll.loop_rate_count
            loop_counter := 0
            pfd_state := { p.1 with mclk_pt_last := mclk_pt }
            pi_state := pi
            lut_state := { m.sw_pll.lut_state with current_reg_val := sel.2 } }
         sswitch := m.sswitch ++
           [(sswitch_reg_t.XS1_SSWITCH_SS_APP_PLL_FRAC_N_DIVIDER_NUM, 0x80000000 ||| sel.2)] },
        sel.1.lock_status) := by
  unfold control_update_due at hdue
  have hfl' : ¬ m.sw_pll.first_loop ≠ 0 := not_not.mpr hfl
  simp only [sw_pll_do_control, if_pos hdue, if_neg hfl', sw_pll_do_control_from_error,
    lookup_pll_frac, lookup_pll_frac_index]
  split_ifs <;> rfl

/-- C8. First-loop update: when `first_loop` is set, the call of `sw_pll_do_control` on which
the loop counter reaches `loop_rate_count` writes no register, leaves `current_reg_val`
unchanged, leaves `error_accum` equal to 0, sets `mclk_pt_last` to the supplied `mclk_pt`,
sets the countdown to `SW_PLL_LOCK_COUNT` and the status to UnlockedLow, clears `first_loop`
and returns UnlockedLow. -/
theorem first_loop_update (m : sw_pll_machine) (mclk_pt ref_clk_pt : Nat)
    (hfl : m.sw_pll.first_loop ≠ 0) (hdue : control_update_due m.sw_pll) :
    let r := sw_pll_do_control m mclk_pt ref_clk_pt
    r.1.sswitch = m.sswitch ∧
    r.1.sw_pll.lut_state.current_reg_val = m.sw_pll.lut_state.current_reg_val ∧
    r.1.sw_pll.pi_state.error_accum = 0 ∧
    r.1.sw_pll.pfd_state.mclk_pt_last = mclk_pt ∧
    r.1.sw_pll.lock_counter = SW_PLL_LOCK_COUNT ∧
    r.1.sw_pll.lock_status = sw_pll_lock_status_t.SW_PLL_UNLOCKED_LOW ∧
    r.1.sw_pll.first_loop = 0 ∧
    r.2 = sw_pll_lock_status_t.SW_PLL_UNLOCKED_LOW := by
  intro r
  simp only [r, do_control_first_loop m mclk_pt ref_clk_pt hdue hfl]
  exact ⟨trivial, trivial, trivial, trivial, trivial, trivial, trivial, trivial⟩

/-- Counterexample to C6 as stated, at `demo_machine`: the update is due, `first_loop` is clear,
and the sample 1110 is 10 counts off with `mclk_max_diff = 5`; the call then writes the
fractional register and changes both `current_reg_val` and the accumulator. -/
theorem resync_cycle_counterexample :
    control_update_due demo_machine.sw_pll ∧
    demo_machine.sw_pll.first_loop = 0 ∧
    MAGNITUDE (sw_pll_calc_error_from_port_timers demo_machine.sw_pll.pfd_state
        demo_machine.sw_pll.first_loop 1110 0).1.mclk_diff
      > (demo_machine.sw_pll.pfd_state.mclk_max_diff : Int) ∧
    (sw_pll_do_control demo_machine 1110 0).1.sswitch
      = [(sswitch_reg_t.XS1_SSWITCH_SS_APP_PLL_FRAC_N_DIVIDER_NUM, 0x80000000 ||| 10)] ∧
    (sw_pll_do_control demo_machine 1110 0).1.sswitch ≠ demo_machine.sswitch ∧
    (sw_pll_do_control demo_machine 1110 0).1.sw_pll.lut_state.current_reg_val
      ≠ demo_machine.sw_pll.lut_state.current_reg_val ∧
    (sw_pll_do_control demo_machine 1110 0).1.sw_pll.pi_state.error_accum
      ≠ demo_machine.sw_pll.pi_state.error_accum := by
  decide

/-- C6, as amended.  On a steady-state control update in which the PFD signals resync
(`|mclk_diff| > mclk_max_diff`), `first_loop` is set to 1 for the next update, and the control
action of this cycle is still emitted: the PI accumulator takes in the phase error (clamped to
the windup limit), the LUT selection for the resulting control signal is stored in
`current_reg_val`, and that value is written once to the fractional register. -/
theorem resync_cycle_control_action (m : sw_pll_machine) (mclk_pt ref_clk_pt : Nat)
    (hdue : control_update_due m.sw_pll) (hfl : m.sw_pll.first_loop = 0)
    (hres : |(sw_pll_calc_error_from_port_timers m.sw_pll.pfd_state m.sw_pll.first_loop
        mclk_pt ref_clk_pt).1.mclk_diff| > (m.sw_pll.pfd_state.mclk_max_diff : Int)) :
    let d := (sw_pll_calc_error_from_port_timers m.sw_pll.pfd_state m.sw_pll.first_loop
      mclk_pt ref_clk_pt).1.mclk_diff
    let r := sw_pll_do_control m mclk_pt ref_clk_pt
    r.1.sw_pll.first_loop = 1 ∧
    r.1.sw_pll.pi_state = pi_accumulate m.sw_pll.pi_state d ∧
    r.1.sw_pll.lut_state.current_reg_val =
      (lookup_pll_frac m.sw_pll (pi_total_error (pi_accumulate m.sw_pll.pi_state d) d)).2 ∧
    r.1.sswitch = m.sswitch ++
      [(sswitch_reg_t.XS1_SSWITCH_SS_APP_PLL_FRAC_N_DIVIDER_NUM,
        0x80000000 ||| r.1.sw_pll.lut_state.current_reg_val)] := by
  intro d r
  have hst := do_control_steady m mclk_pt ref_clk_pt hdue hfl
  have hsig : (sw_pll_calc_error_from_port_timers m.sw_pll.pfd_state m.sw_pll.first_loop
      mclk_pt ref_clk_pt).2 = 1 := by
    rw [calc_error_pfd_state] at hres
    rw [calc_error_first_loop, MAGNITUDE_eq_abs, if_pos hres]
  simp only [r, hst]
  refine ⟨hsig, ?_, ?_, ?_⟩ <;> trivial

/-- Witness for the amended C6 at `demo_machine` with the sample 1110. -/
theorem resync_cycle_control_action_witness :
    (sw_pll_do_control demo_machine 1110 0).1.sw_pll.first_loop = 1 ∧
    (sw_pll_do_control demo_machine 1110 0).1.sw_pll.pi_state.error_accum = 10 ∧
    (sw_pll_do_control demo_machine 1110 0).1.sw_pll.lut_state.current_reg_val = 10 :=
  ⟨(resync_cycle_control_action demo_machine 1110 0 (by decide) (by decide) (by decide)).1,
    congrArg sw_pll_pi_state_t.error_accum
      (resync_cycle_control_action demo_machine 1110 0 (by decide) (by decide) (by decide)).2.1,
    (resync_cycle_control_action demo_machine 1110 0 (by decide) (by decide) (by decide)).2.2.1⟩

/-- The starting states C2 names, continued: the state left by a first-loop update. -/
theorem lock_reset_after_first_loop (m : sw_pll_machine) (mclk_pt ref_clk_pt : Nat)
    (hdue : control_update_due m.sw_pll) (hfl : m.sw_pll.first_loop ≠ 0) :
    (sw_pll_do_control m mclk_pt ref_clk_pt).1.sw_pll.lock_counter = SW_PLL_LOCK_COUNT ∧
    (sw_pll_do_control m mclk_pt ref_clk_pt).1.sw_pll.lock_status
      ≠ sw_pll_lock_status_t.SW_PLL_LOCKED := by
  rw [do_control_first_loop m mclk_pt ref_clk_pt hdue hfl]
  exact ⟨rfl, fun h => by cases h⟩

/-- Witness for C8 at `demo_machine_first_loop`. -/
theorem first_loop_update_witness :
    (sw_pll_do_control demo_machine_first_loop 1234 0).1.sswitch = [] ∧
    (sw_pll_do_control demo_machine_first_loop 1234 0).1.sw_pll.pfd_state.mclk_pt_last = 1234 :=
  ⟨(first_loop_update demo_machine_first_loop 1234 0 (by decide) (by decide)).1,
    (first_loop_update demo_machine_first_loop 1234 0 (by decide) (by decide)).2.2.2.1⟩

/-! ## Decimation -/

theorem sw_pll_run_concat (m : sw_pll_machine) (l : List (Nat × Nat)) (p : Nat × Nat) :
    sw_pll_run m (l ++ [p]) = (sw_pll_do_control (sw_pll_run m l) p.1 p.2).1 := by
  simp [sw_pll_run]

/-- No call of `sw_pll_do_control` changes the configuration: the decimation count, the
reference-compensation setting, the nominal feedback increment, the resync threshold, the
windup limit and gains, and the table with its size and nominal index. -/
theorem do_control_config (m : sw_pll_machine) (mclk_pt ref_clk_pt : Nat) :
    let r := (sw_pll_do_control m mclk_pt ref_clk_pt).1
    r.sw_pll.loop_rate_count = m.sw_pll.loop_rate_count ∧
    r.sw_pll.pfd_state.ref_clk_expected_inc = m.sw_pll.pfd_state.ref_clk_expected_inc ∧
    r.sw_pll.pfd_state.mclk_expected_pt_inc = m.sw_pll.pfd_state.mclk_expected_pt_inc ∧
    r.sw_pll.pfd_state.mclk_max_diff = m.sw_pll.pfd_state.mclk_max_diff := by
  intro r
  by_cases hdue : control_update_due m.sw_pll
  · by_cases hfl : m.sw_pll.first_loop = 0
    · simp only [r, do_control_steady m mclk_pt ref_clk_pt hdue hfl, calc_error_pfd_state]
      exact ⟨trivial, trivial, trivial, trivial⟩
    · simp only [r, do_control_first_loop m mclk_pt ref_clk_pt hdue hfl]
      exact ⟨trivial, trivial, trivial, trivial⟩
  · simp only [r, do_control_not_due m mclk_pt ref_clk_pt hdue]
    exact ⟨trivial, trivial, trivial, trivial⟩

/-- The loop counter after a call: 0 after a control update, one more otherwise. -/
theorem do_control_loop_counter (m : sw_pll_machine) (mclk_pt ref_clk_pt : Nat) :
    (sw_pll_do_control m mclk_pt ref_clk_pt).1.sw_pll.loop_counter =
      if control_update_due m.sw_pll then 0
      else to_uint32 ((m.sw_pll.loop_counter : Int) + 1) := by
  by_cases hdue : control_update_due m.sw_pll
  · rw [if_pos hdue]
    by_cases hfl : m.sw_pll.first_loop = 0
    · simp only [do_control_steady m mclk_pt ref_clk_pt hdue hfl]
    · simp only [do_control_first_loop m mclk_pt ref_clk_pt hdue hfl]
  · rw [if_neg hdue]
    simp only [do_control_not_due m mclk_pt ref_clk_pt hdue]

theorem sw_pll_run_config (m : sw_pll_machine) (l : List (Nat × Nat)) :
    (sw_pll_run m l).sw_pll.loop_rate_count = m.sw_pll.loop_rate_count ∧
    (sw_pll_run m l).sw_pll.pfd_state.ref_clk_expected_inc
      = m.sw_pll.pfd_state.ref_clk_expected_inc ∧
    (sw_pll_run m l).sw_pll.pfd_state.mclk_expected_pt_inc
      = m.sw_pll.pfd_state.mclk_expected_pt_inc ∧
    (sw_pll_run m l).sw_pll.pfd_state.mclk_max_diff = m.sw_pll.pfd_state.mclk_max_diff := by
  induction l using List.reverseRecOn with
  | nil => exact ⟨rfl, rfl, rfl, rfl⟩
  | append_singleton l p ih =>
    rw [sw_pll_run_concat]
    obtain ⟨h1, h2, h3, h4⟩ := do_control_config (sw_pll_run m l) p.1 p.2
    exact ⟨h1.trans ih.1, h2.trans ih.2.1, h3.trans ih.2.2.1, h4.trans ih.2.2.2⟩

theorem succ_mod_of_lt (k n : Nat) (h : k % n + 1 < n) : (k + 1) % n = k % n + 1 := by
  have h1 : 1 % n = 1 := Nat.mod_eq_of_lt (by omega)
  rw [Nat.add_mod, h1, Nat.mod_eq_of_lt h]

theorem succ_mod_of_eq (k n : Nat) (h : k % n + 1 = n) : (k + 1) % n = 0 := by
  have hk : k = n * (k / n) + k % n := (Nat.div_add_mod k n).symm
  have : k + 1 = n * (k / n + 1) := by
    rw [Nat.mul_add, Nat.mul_one]
    omega
  rw [this]
  exact Nat.mul_mod_right n _

/-- With a 32-bit `loop_rate_count` `n ≥ 1` and a run that starts with `loop_counter = 0`, the
loop counter after `k` calls is `k mod n`. -/
theorem sw_pll_run_loop_counter (m : sw_pll_machine) (l : List (Nat × Nat))
    (hlc : m.sw_pll.loop_counter = 0) (hn1 : 1 ≤ m.sw_pll.loop_rate_count)
    (hn32 : m.sw_pll.loop_rate_count < 4294967296) :
    (sw_pll_run m l).sw_pll.loop_counter = l.length % m.sw_pll.loop_rate_count := by
  induction l using List.reverseRecOn with
  | nil => simp [sw_pll_run, hlc]
  | append_singleton l p ih =>
    have hcfg := (sw_pll_run_config m l).1
    have hlt : l.length % m.sw_pll.loop_rate_count < m.sw_pll.loop_rate_count :=
      Nat.mod_lt _ (by omega)
    have hu : to_uint32 (((l.length % m.sw_pll.loop_rate_count : Nat) : Int) + 1)
        = l.length % m.sw_pll.loop_rate_count + 1 := by
      unfold to_uint32
      omega
    rw [sw_pll_run_concat, do_control_loop_counter, List.length_append, List.length_singleton]
    simp only [control_update_due, ih, hcfg, hu]
    split
    · next h => exact (succ_mod_of_eq _ _ h).symm
    · next h => exact (succ_mod_of_lt _ _ (by omega)).symm

/-- C9. Decimation: with `loop_counter = 0` at the start and a 32-bit `loop_rate_count`
`n ≥ 1`, the `j`-th call of `sw_pll_do_control` (the call that follows any `j - 1` earlier
calls) performs a control update if and only if `n` divides `j`, and leaves `loop_counter` at
0 exactly then.  When `n` divides `j` the call is the first-loop update if `first_loop` is
set (it loads `mclk_pt_last`, clears the accumulator, resets the lock state, clears
`first_loop`, writes no register and returns UnlockedLow) and the steady-state update
otherwise (PFD, PI controller, LUT selection, register write, `mclk_pt_last` loaded, the new
status returned).  Any other call changes nothing but `loop_counter`, which it increments,
writes no register, and returns the unchanged `lock_status`. -/
theorem decimation (m : sw_pll_machine) (before : List (Nat × Nat)) (mclk_pt ref_clk_pt : Nat)
    (hlc : m.sw_pll.loop_counter = 0) (hn1 : 1 ≤ m.sw_pll.loop_rate_count)
    (hn32 : m.sw_pll.loop_rate_count < 4294967296) :
    let j := before.length + 1
    let pre := sw_pll_run m before
    let r := sw_pll_do_control pre mclk_pt ref_clk_pt
    (control_update_due pre.sw_pll ↔ m.sw_pll.loop_rate_count ∣ j) ∧
    (r.1.sw_pll.loop_counter = 0 ↔ m.sw_pll.loop_rate_count ∣ j) ∧
    (¬ m.sw_pll.loop_rate_count ∣ j →
      r.1 = { pre with sw_pll :=
                { pre.sw_pll with loop_counter := pre.sw_pll.loop_counter + 1 } } ∧
      r.2 = pre.sw_pll.lock_status) ∧
    (m.sw_pll.loop_rate_count ∣ j → pre.sw_pll.first_loop ≠ 0 →
      r = ({ pre with sw_pll :=
              { pre.sw_pll with
                  loop_counter := 0
                  pfd_state := { pre.sw_pll.pfd_state with mclk_pt_last := mclk_pt }
                  pi_state := { pre.sw_pll.pi_state with error_accum := 0 }
                  lock_counter := SW_PLL_LOCK_COUNT
                  lock_status := sw_pll_lock_status_t.SW_PLL_UNLOCKED_LOW
                  first_loop := 0 } },
            sw_pll_lock_status_t.SW_PLL_UNLOCKED_LOW)) ∧
    (m.sw_pll.loop_rate_count ∣ j → pre.sw_pll.first_loop = 0 →
      let p := sw_pll_calc_error_from_port_timers pre.sw_pll.pfd_state pre.sw_pll.first_loop
        mclk_pt ref_clk_pt
      let pi := pi_accumulate pre.sw_pll.pi_state p.1.mclk_diff
      let sel := lookup_pll_frac pre.sw_pll (pi_total_error pi p.1.mclk_diff)
      r = ({ sw_pll :=
              { lock_status := sel.1.lock_status
                lock_counter := sel.1.lock_counter
                first_loop := p.2
                loop_rate_count := pre.sw_pll.loop_rate_count
                loop_counter := 0
                pfd_state := { p.1 with mclk_pt_last := mclk_pt }
                pi_state := pi
                lut_state := { pre.sw_pll.lut_state with current_reg_val := sel.2 } }
             sswitch := pre.sswitch ++
               [(sswitch_reg_t.XS1_SSWITCH_SS_APP_PLL_FRAC_N_DIVIDER_NUM,
                 0x80000000 ||| sel.2)] },
            sel.1.lock_status)) := by
  intro j pre r
  have hcfg : pre.sw_pll.loop_rate_count = m.sw_pll.loop_rate_count :=
    (sw_pll_run_config m before).1
  have hpre : pre.sw_pll.loop_counter = before.length % m.sw_pll.loop_rate_count :=
    sw_pll_run_loop_counter m before hlc hn1 hn32
  have hlt : before.length % m.sw_pll.loop_rate_count < m.sw_pll.loop_rate_count :=
    Nat.mod_lt _ (by omega)
  have hu : to_uint32 ((pre.sw_pll.loop_counter : Int) + 1) = pre.sw_pll.loop_counter + 1 := by
    unfold to_uint32
    omega
  have hdue : control_update_due pre.sw_pll ↔ m.sw_pll.loop_rate_count ∣ j := by
    unfold control_update_due
    rw [hu, hcfg, hpre, Nat.dvd_iff_mod_eq_zero]
    constructor
    · intro h
      exact succ_mod_of_eq _ _ h
    · intro h
      by_contra hne
      have hs := succ_mod_of_lt before.length m.sw_pll.loop_rate_count (by omega)
      have h' : (before.length + 1) % m.sw_pll.loop_rate_count = 0 := h
      rw [hs] at h'
      exact Nat.succ_ne_zero _ h'
  refine ⟨hdue, ?_, ?_, ?_, ?_⟩
  · simp only [r, do_control_loop_counter, hu]
    constructor
    · intro h
      by_contra hnd
      rw [if_neg (fun hd => hnd (hdue.mp hd))] at h
      omega
    · intro h
      rw [if_pos (hdue.mpr h)]
  · intro hnd
    have hnot : ¬ control_update_due pre.sw_pll := fun hd => hnd (hdue.mp hd)
    simp only [r, do_control_not_due pre mclk_pt ref_clk_pt hnot, hu]
    exact ⟨trivial, trivial⟩
  · intro hd hfl
    exact do_control_first_loop pre mclk_pt ref_clk_pt (hdue.mpr hd) hfl
  · intro hd hfl
    exact do_control_steady pre mclk_pt ref_clk_pt (hdue.mpr hd) hfl

/-- Witness for C9 at `demo_machine_idle` (`loop_rate_count = 2`, `first_loop` clear): the
second call is a control update, the first is not; the second call is a steady-state update,
which loads `mclk_pt_last` with its sample 1100 and writes the fractional register once. -/
theorem decimation_witness :
    (control_update_due (sw_pll_run demo_machine_idle [(600, 0)]).sw_pll ↔ 2 ∣ 2) ∧
    (control_update_due (sw_pll_run demo_machine_idle []).sw_pll ↔ 2 ∣ 1) ∧
    (sw_pll_do_control (sw_pll_run demo_machine_idle [(600, 0)]) 1100
        0).1.sw_pll.pfd_state.mclk_pt_last = 1100 ∧
    (sw_pll_do_control (sw_pll_run demo_machine_idle [(600, 0)]) 1100 0).1.sswitch.length
      = (sw_pll_run demo_machine_idle [(600, 0)]).sswitch.length + 1 := by
  have h := (decimation demo_machine_idle [(600, 0)] 1100 0 rfl (by decide) (by decide)).2.2.2.2
    (by decide) (by decide)
  dsimp only at h
  refine ⟨(decimation demo_machine_idle [(600, 0)] 1100 0 rfl (by decide) (by decide)).1,
    (decimation demo_machine_idle [] 600 0 rfl (by decide) (by decide)).1, ?_, ?_⟩
  · rw [h]
  · rw [h]
    exact List.length_append _ _

/-! ## Desync recovery -/

/-- Calls that are not control updates: from `loop_counter = 0`, fewer than `loop_rate_count`
calls only move the loop counter. -/
theorem sw_pll_run_no_update (m : sw_pll_machine) (l : List (Nat × Nat))
    (hlc : m.sw_pll.loop_counter = 0) (hlen : l.length < m.sw_pll.loop_rate_count)
    (hn32 : m.sw_pll.loop_rate_count < 4294967296) :
    sw_pll_run m l = { m with sw_pll := { m.sw_pll with loop_counter := l.length } } := by
  induction l using List.reverseRecOn with
  | nil =>
    simp only [sw_pll_run, List.foldl_nil, List.length_nil]
    rw [← hlc]
  | append_singleton l p ih =>
    simp only [List.length_append, List.length_singleton] at hlen ⊢
    have ih' := ih (by omega)
    have hu : to_uint32 (((l.length : Nat) : Int) + 1) = l.length + 1 := by
      unfold to_uint32
      omega
    have hnot : ¬ control_update_due (sw_pll_run m l).sw_pll := by
      rw [ih']
      simp only [control_update_due, hu]
      omega
    rw [sw_pll_run_concat, do_control_not_due _ _ _ hnot, ih']
    simp only [hu]

/-- The configuration `sw_pll_init` gives the PFD and the orchestrator. -/
theorem sw_pll_init_config
    (sw_pll_reset : sw_pll_state_t → Int → Int → Nat → sw_pll_state_t)
    (m : sw_pll_machine) (Kp Ki : Int) (loop_rate_count pll_ratio ref_clk_expected_inc : Nat)
    (lut_table_base : List Int)
    (num_lut_entries app_pll_ctl_reg_val app_pll_div_reg_val nominal_lut_idx ppm_range : Nat) :
    let mi := sw_pll_init sw_pll_reset m Kp Ki loop_rate_count pll_ratio ref_clk_expected_inc
      lut_table_base num_lut_entries app_pll_ctl_reg_val app_pll_div_reg_val nominal_lut_idx
      ppm_range
    mi.sw_pll.loop_rate_count = loop_rate_count ∧
    mi.sw_pll.pfd_state.ref_clk_expected_inc
      = to_uint32 ((ref_clk_expected_inc : Int) * (loop_rate_count : Int)) ∧
    mi.sw_pll.pfd_state.mclk_expected_pt_inc
      = to_uint32 ((loop_rate_count : Int) * (pll_ratio : Int)) ∧
    mi.sw_pll.pfd_state.mclk_max_diff
      = to_uint16
          ((to_uint64 ((ppm_range : Int) * 2 * (pll_ratio : Int) * (loop_rate_count : Int))
            / 1000000 : Nat) : Int) :=
  ⟨rfl, rfl, rfl, rfl⟩

/-- The resync threshold set by `sw_pll_init` is the exact quotient whenever that quotient is
below `2^15`. -/
theorem mclk_max_diff_exact (ppm_range pll_ratio loop_rate_count : Nat)
    (h : 2 * ppm_range * pll_ratio * loop_rate_count / 1000000 < 32768) :
    to_uint16
        ((to_uint64 ((ppm_range : Int) * 2 * (pll_ratio : Int) * (loop_rate_count : Int))
          / 1000000 : Nat) : Int)
      = 2 * ppm_range * pll_ratio * loop_rate_count / 1000000 := by
  have hprod : (ppm_range : Int) * 2 * (pll_ratio : Int) * (loop_rate_count : Int)
      = ((2 * ppm_range * pll_ratio * loop_rate_count : Nat) : Int) := by
    push_cast
    ring
  rw [hprod]
  generalize 2 * ppm_range * pll_ratio * loop_rate_count = P at h ⊢
  have hP : P < 32768 * 1000000 := (Nat.div_lt_iff_lt_mul (by decide)).mp h
  have h64 : to_uint64 (P : Int) = P := by
    unfold to_uint64
    omega
  rw [h64]
  unfold to_uint16
  omega

theorem to_uint32_lt (x : Int) : to_uint32 x < 4294967296 := by
  unfold to_uint32
  omega

/-- After a control update that left `first_loop` set, the next `loop_rate_count - 1` calls
are not control updates, the call after them is, and it is the first-loop update: it changes
only `mclk_pt_last`, `error_accum`, the lock state and `first_loop`, and writes no register. -/
theorem first_loop_after_gap (m1 : sw_pll_machine) (between : List (Nat × Nat))
    (mclk_pt ref_clk_pt : Nat)
    (hlc : m1.sw_pll.loop_counter = 0) (hfl : m1.sw_pll.first_loop ≠ 0)
    (hn32 : m1.sw_pll.loop_rate_count < 4294967296)
    (hlen : between.length + 1 = m1.sw_pll.loop_rate_count) :
    (∀ k : Nat, k < between.length →
      ¬ control_update_due (sw_pll_run m1 (between.take k)).sw_pll) ∧
    control_update_due (sw_pll_run m1 between).sw_pll ∧
    (sw_pll_do_control (sw_pll_run m1 between) mclk_pt ref_clk_pt).1 =
      { sw_pll :=
          { m1.sw_pll with
              pfd_state := { m1.sw_pll.pfd_state with mclk_pt_last := mclk_pt }
              pi_state := { m1.sw_pll.pi_state with error_accum := 0 }
              lock_counter := SW_PLL_LOCK_COUNT
              lock_status := sw_pll_lock_status_t.SW_PLL_UNLOCKED_LOW
              first_loop := 0 }
        sswitch := m1.sswitch } := by
  have hrun : ∀ l : List (Nat × Nat), l.length < m1.sw_pll.loop_rate_count →
      sw_pll_run m1 l = { m1 with sw_pll := { m1.sw_pll with loop_counter := l.length } } :=
    fun l hl => sw_pll_run_no_update m1 l hlc hl hn32
  have hu : ∀ k : Nat, k < m1.sw_pll.loop_rate_count →
      to_uint32 ((k : Int) + 1) = k + 1 := by
    intro k hk
    unfold to_uint32
    omega
  refine ⟨?_, ?_, ?_⟩
  · intro k hk
    have hlk : (between.take k).length = k := by
      rw [List.length_take]
      omega
    rw [hrun _ (by omega)]
    simp only [control_update_due, hlk, hu k (by omega)]
    omega
  · rw [hrun _ (by omega)]
    simp only [control_update_due, hu _ (show between.length < _ by omega)]
    exact hlen
  · have hdue : control_update_due (sw_pll_run m1 between).sw_pll := by
      rw [hrun _ (by omega)]
      simp only [control_update_due, hu _ (show between.length < _ by omega)]
      exact hlen
    have hfl' : (sw_pll_run m1 between).sw_pll.first_loop ≠ 0 := by
      rw [hrun _ (by omega)]
      exact hfl
    rw [do_control_first_loop _ _ _ hdue hfl', hrun _ (by omega)]
    simp only [← hlc]

/-- C7. Desync recovery.  Let `m` be a state reached from `sw_pll_init` (reference
compensation disabled, parameters `ppm_range`, `pll_ratio`, `loop_rate_count`) with
`first_loop = 0`.  A control update whose feedback sample deviates from
`mclk_pt_last + loop_rate_count * pll_ratio` (mod 65536) by `d` counts, with
`2 * ppm_range * pll_ratio * loop_rate_count / 1000000 < |d| ≤ 32767`, sets `first_loop` to 1.
The next `loop_rate_count - 1` calls are not control updates, and the call after them is the
first-loop update: it writes no register and changes nothing (so neither the PFD nor the PI
controller runs) except that `error_accum` becomes 0, `mclk_pt_last` becomes that call's
sample, the countdown becomes `SW_PLL_LOCK_COUNT`, the status UnlockedLow, and `first_loop`
is cleared. -/
theorem desync_recovery
    (sw_pll_reset : sw_pll_state_t → Int → Int → Nat → sw_pll_state_t)
    (m0 : sw_pll_machine) (Kp Ki : Int) (loop_rate_count pll_ratio : Nat)
    (lut_table_base : List Int)
    (num_lut_entries app_pll_ctl_reg_val app_pll_div_reg_val nominal_lut_idx ppm_range : Nat)
    (samples : List (Nat × Nat)) (m : sw_pll_machine)
    (hm : m = sw_pll_run
      (sw_pll_init sw_pll_reset m0 Kp Ki loop_rate_count pll_ratio 0 lut_table_base
        num_lut_entries app_pll_ctl_reg_val app_pll_div_reg_val nominal_lut_idx ppm_range)
      samples)
    (hfl : m.sw_pll.first_loop = 0)
    (mclk_pt ref_clk_pt : Nat) (d : Int)
    (hdue : control_update_due m.sw_pll)
    (hd : (mclk_pt : Int) % 65536 =
      ((m.sw_pll.pfd_state.mclk_pt_last : Int)
        + (loop_rate_count : Int) * (pll_ratio : Int) + d) % 65536)
    (hlo : ((2 * ppm_range * pll_ratio * loop_rate_count / 1000000 : Nat) : Int) < |d|)
    (hhi : |d| ≤ 32767) :
    let m1 := (sw_pll_do_control m mclk_pt ref_clk_pt).1
    m1.sw_pll.first_loop = 1 ∧
    ∀ (between : List (Nat × Nat)) (mclk_pt' ref_clk_pt' : Nat),
      between.length + 1 = loop_rate_count →
      (∀ k : Nat, k < between.length →
        ¬ control_update_due (sw_pll_run m1 (between.take k)).sw_pll) ∧
      control_update_due (sw_pll_run m1 between).sw_pll ∧
      (sw_pll_do_control (sw_pll_run m1 between) mclk_pt' ref_clk_pt').1 =
        { sw_pll :=
            { m1.sw_pll with
                pfd_state := { m1.sw_pll.pfd_state with mclk_pt_last := mclk_pt' }
                pi_state := { m1.sw_pll.pi_state with error_accum := 0 }
                lock_counter := SW_PLL_LOCK_COUNT
                lock_status := sw_pll_lock_status_t.SW_PLL_UNLOCKED_LOW
                first_loop := 0 }
          sswitch := m1.sswitch } := by
  intro m1
  obtain ⟨hc1, hc2, hc3, hc4⟩ := sw_pll_run_config
    (sw_pll_init sw_pll_reset m0 Kp Ki loop_rate_count pll_ratio 0 lut_table_base
      num_lut_entries app_pll_ctl_reg_val app_pll_div_reg_val nominal_lut_idx ppm_range) samples
  obtain ⟨hi1, hi2, hi3, hi4⟩ := sw_pll_init_config sw_pll_reset m0 Kp Ki loop_rate_count
    pll_ratio 0 lut_table_base num_lut_entries app_pll_ctl_reg_val app_pll_div_reg_val
    nominal_lut_idx ppm_range
  rw [← hm] at hc1 hc2 hc3 hc4
  have hdabs := abs_le.mp hhi
  have hQ : 2 * ppm_range * pll_ratio * loop_rate_count / 1000000 < 32768 := by omega
  have hlrc : m.sw_pll.loop_rate_count = loop_rate_count := hc1.trans hi1
  have hinc : m.sw_pll.pfd_state.ref_clk_expected_inc = 0 := by
    rw [hc2, hi2]
    simp [to_uint32]
  have hexp : m.sw_pll.pfd_state.mclk_expected_pt_inc
      = to_uint32 ((loop_rate_count : Int) * (pll_ratio : Int)) := hc3.trans hi3
  have hmax : m.sw_pll.pfd_state.mclk_max_diff
      = 2 * ppm_range * pll_ratio * loop_rate_count / 1000000 := by
    rw [hc4, hi4]
    exact mclk_max_diff_exact ppm_range pll_ratio loop_rate_count hQ
  -- the phase error of this update is `d`
  have hpfd := calc_error_no_compensation m.sw_pll.pfd_state m.sw_pll.first_loop mclk_pt
    ref_clk_pt hinc
  have hdiff : to_int16 ((mclk_pt : Int)
      - ((m.sw_pll.pfd_state.mclk_pt_last : Int)
        + (m.sw_pll.pfd_state.mclk_expected_pt_inc : Int))) = d := by
    symm
    apply to_int16_unique _ d (by omega) (by omega)
    rw [hexp]
    unfold to_uint32
    omega
  have hsig : (sw_pll_calc_error_from_port_timers m.sw_pll.pfd_state m.sw_pll.first_loop
      mclk_pt ref_clk_pt).2 = 1 := by
    have hmd : port_timer_diff mclk_pt (mclk_expected_pt m.sw_pll.pfd_state ref_clk_pt) = d := by
      have := congrArg sw_pll_pfd_state_t.mclk_diff hpfd
      rw [calc_error_pfd_state] at this
      exact this.trans hdiff
    rw [calc_error_first_loop, MAGNITUDE_eq_abs, hmd, hmax, if_pos hlo]
  have hst := do_control_steady m mclk_pt ref_clk_pt hdue hfl
  have hfl1 : m1.sw_pll.first_loop = 1 := by
    simp only [m1, hst]
    exact hsig
  have hlc1 : m1.sw_pll.loop_counter = 0 := by
    simp only [m1, hst]
  have hlrc1 : m1.sw_pll.loop_rate_count = loop_rate_count := by
    simp only [m1, hst]
    exact hlrc
  have hn32 : m1.sw_pll.loop_rate_count < 4294967296 := by
    rw [hlrc1, ← hlrc]
    unfold control_update_due at hdue
    rw [← hdue]
    exact to_uint32_lt _
  refine ⟨hfl1, ?_⟩
  intro between mclk_pt' ref_clk_pt' hlen
  exact first_loop_after_gap m1 between mclk_pt' ref_clk_pt' hlc1 (by rw [hfl1]; decide) hn32
    (by rw [hlrc1]; exact hlen)

set_option maxRecDepth 100000 in
/-- Witness for C7 at `demo_machine_steady` (`mclk_pt_last = 500`, expected increment 1024,
`mclk_max_diff = 3`): the sample 1534 is 10 counts off and sets `first_loop`; the update two
calls later is the first-loop update. -/
theorem desync_recovery_witness :
    (sw_pll_do_control demo_machine_steady 1534 0).1.sw_pll.first_loop = 1 ∧
    (sw_pll_do_control
      (sw_pll_run (sw_pll_do_control demo_machine_steady 1534 0).1 [(7, 0)]) 2600 0).1 =
      { sw_pll :=
          { (sw_pll_do_control demo_machine_steady 1534 0).1.sw_pll with
              pfd_state :=
                { (sw_pll_do_control demo_machine_steady 1534 0).1.sw_pll.pfd_state with
                    mclk_pt_last := 2600 }
              pi_state :=
                { (sw_pll_do_control demo_machine_steady 1534 0).1.sw_pll.pi_state with
                    error_accum := 0 }
              lock_counter := SW_PLL_LOCK_COUNT
              lock_status := sw_pll_lock_status_t.SW_PLL_UNLOCKED_LOW
              first_loop := 0 }
        sswitch := (sw_pll_do_control demo_machine_steady 1534 0).1.sswitch } :=
  ⟨(desync_recovery demo_sw_pll_reset demo_machine 0 65536 2 512 [10, 20, 30, 40] 4 0 0 2 1500
      [(0, 0), (500, 0), (0, 0)] demo_machine_steady rfl (by decide) 1534 0 10 (by decide)
      (by decide) (by norm_num) (by norm_num)).1,
    ((desync_recovery demo_sw_pll_reset demo_machine 0 65536 2 512 [10, 20, 30, 40] 4 0 0 2 1500
      [(0, 0), (500, 0), (0, 0)] demo_machine_steady rfl (by decide) 1534 0 10 (by decide)
      (by decide) (by norm_num) (by norm_num)).2 [(7, 0)] 2600 0 rfl).2.2⟩

/-! ## Algebra of the wraparound-aware difference -/

/-- C18. The wraparound-aware signed difference is rotation invariant: for all samples `a`,
`b` and every rotation `k`, `diff((a + k) mod 65536, (b + k) mod 65536) = diff(a, b)`; the
same holds for each arm of the conditional taken separately. -/
theorem port_timer_diff_rotation (a b k : Nat) :
    port_timer_diff ((a + k) % 65536) ((b + k) % 65536) = port_timer_diff a b ∧
    ∀ t t' : Bool,
      port_timer_diff_arm t ((a + k) % 65536) ((b + k) % 65536) = port_timer_diff_arm t' a b := by
  have h : to_int16 ((((a + k) % 65536 : Nat) : Int) - (((b + k) % 65536 : Nat) : Int))
      = to_int16 ((a : Int) - (b : Int)) := by
    unfold to_int16
    omega
  refine ⟨?_, ?_⟩
  · rw [port_timer_diff_eq, port_timer_diff_eq, h]
  · intro t t'
    rw [port_timer_diff_arm_eq, port_timer_diff_arm_eq, h]

/-- Counterexample to C13 as stated: at half the timer period, `diff(32768, 0)` and
`diff(0, 32768)` are both `-32768`, so `diff(a, b) = -diff(b, a)` fails. -/
theorem port_timer_diff_antisymmetry_counterexample :
    port_timer_diff 32768 0 = -32768 ∧
    port_timer_diff 0 32768 = -32768 ∧
    port_timer_diff 32768 0 ≠ -port_timer_diff 0 32768 := by
  decide

/-- C13, as amended.  For all samples `a` and `b` whose distance is not exactly half the timer
period (`a - b` is not congruent to 32768 modulo 65536), `diff(a, b) = -diff(b, a)` as
integers. -/
theorem port_timer_diff_antisymmetry (a b : Nat)
    (h : ((a : Int) - (b : Int)) % 65536 ≠ 32768) :
    port_timer_diff a b = -port_timer_diff b a := by
  rw [port_timer_diff_eq, port_timer_diff_eq]
  unfold to_int16
  omega

/-- Witness for the amended C13: samples 5 and 65535, across the wrap. -/
theorem port_timer_diff_antisymmetry_witness :
    port_timer_diff 5 65535 = -port_timer_diff 65535 5 :=
  port_timer_diff_antisymmetry 5 65535 (by decide)

/-! ## Monotonicity of the LUT selection -/

/-- The index with which `lookup_pll_frac` reads the table, as a function of the local
`set`. -/
theorem lookup_pll_frac_index_value (sw_pll : sw_pll_state_t) (c : Int) :
    (lookup_pll_frac_index sw_pll c).2 =
      if to_int32 ((sw_pll.lut_state.nominal_lut_idx : Int) - c) < 0 then 0
      else if (sw_pll.lut_state.num_lut_entries : Int)
          ≤ to_int32 ((sw_pll.lut_state.nominal_lut_idx : Int) - c) then
        to_uint32 ((sw_pll.lut_state.num_lut_entries : Int) - 1)
      else (to_int32 ((sw_pll.lut_state.nominal_lut_idx : Int) - c)).toNat := by
  simp only [lookup_pll_frac_index, ge_iff_le]
  split_ifs <;> rfl

/-- Counterexample to C11 as stated, at `demo_state` (nominal index 2, four entries): for
`c = -2147483646` the subtraction `2 - c` wraps to `-2^31`, so index 0 is selected, while
`c + 1` selects index 3. -/
theorem lut_monotonic_counterexample :
    (lookup_pll_frac_index demo_state (-2147483646)).2 = 0 ∧
    (lookup_pll_frac_index demo_state (-2147483646 + 1)).2 = 3 ∧
    ¬ ((lookup_pll_frac_index demo_state (-2147483646 + 1)).2
        ≤ (lookup_pll_frac_index demo_state (-2147483646)).2) := by
  decide

/-- C11, as amended.  With a non-empty table (`nominal_lut_idx` being a 32-bit value), for
every 32-bit control signal `c` for which `c + 1` is representable, the index selected by
`lookup_pll_frac` for `c + 1` is less than or equal to the index selected for `c`, wrapping
signals included, with one exception: when the table has more than one entry and
`nominal_lut_idx - c = 2^31`, the 32-bit difference is `INT32_MIN` for `c` (index 0) and wraps
to `INT32_MAX` for `c + 1` (a positive index), and there monotonicity fails. -/
theorem lut_monotonic (sw_pll : sw_pll_state_t) (c : Int)
    (hN : 1 ≤ sw_pll.lut_state.num_lut_entries)
    (hnom : sw_pll.lut_state.nominal_lut_idx < 4294967296)
    (hc : -2147483648 ≤ c) (hc1 : c + 1 ≤ 2147483647) :
    (lookup_pll_frac_index sw_pll (c + 1)).2 ≤ (lookup_pll_frac_index sw_pll c).2
      ↔ (sw_pll.lut_state.num_lut_entries = 1
          ∨ (sw_pll.lut_state.nominal_lut_idx : Int) - c ≠ 2147483648) := by
  have hstep : (sw_pll.lut_state.nominal_lut_idx : Int) - c ≠ 2147483648 →
      to_int32 ((sw_pll.lut_state.nominal_lut_idx : Int) - (c + 1))
        = to_int32 ((sw_pll.lut_state.nominal_lut_idx : Int) - c) - 1 := by
    intro h
    unfold to_int32
    omega
  have hwrap : (sw_pll.lut_state.nominal_lut_idx : Int) - c = 2147483648 →
      to_int32 ((sw_pll.lut_state.nominal_lut_idx : Int) - c) = -2147483648 ∧
      to_int32 ((sw_pll.lut_state.nominal_lut_idx : Int) - (c + 1)) = 2147483647 := by
    intro h
    unfold to_int32
    omega
  have hb0 := to_int32_bounds ((sw_pll.lut_state.nominal_lut_idx : Int) - c)
  have hb1 := to_int32_bounds ((sw_pll.lut_state.nominal_lut_idx : Int) - (c + 1))
  have hu : (sw_pll.lut_state.num_lut_entries : Int) ≤ 2147483647 →
      to_uint32 ((sw_pll.lut_state.num_lut_entries : Int) - 1)
        = sw_pll.lut_state.num_lut_entries - 1 := by
    intro h
    unfold to_uint32
    omega
  rw [lookup_pll_frac_index_value, lookup_pll_frac_index_value]
  generalize to_int32 ((sw_pll.lut_state.nominal_lut_idx : Int) - c) = s0 at hstep hwrap hb0 ⊢
  generalize to_int32 ((sw_pll.lut_state.nominal_lut_idx : Int) - (c + 1)) = s1
    at hstep hwrap hb1 ⊢
  generalize hx : (sw_pll.lut_state.nominal_lut_idx : Int) - c = x at hstep hwrap ⊢
  by_cases hex : x = 2147483648
  · obtain ⟨e0, e1⟩ := hwrap hex
    constructor
    · intro hle
      left
      rw [e0, e1] at hle
      split_ifs at hle <;> omega
    · intro hor
      rcases hor with h1 | h2
      · rw [e0, e1]
        split_ifs <;> omega
      · exact absurd hex h2
  · have e1 := hstep hex
    constructor
    · intro _
      exact Or.inr hex
    · intro _
      rw [e1]
      split_ifs <;> omega

/-- Witness for the amended C11 at `demo_state` (nominal index 2, four entries), on a signal
whose difference wraps: for `c = -2147483647` both differences wrap to negative values and
both selections are index 0. -/
theorem lut_monotonic_witness :
    (lookup_pll_frac_index demo_state (-2147483647 + 1)).2
      ≤ (lookup_pll_frac_index demo_state (-2147483647)).2 :=
  (lut_monotonic demo_state (-2147483647) (by decide) (by decide) (by decide)
    (by decide)).mpr (Or.inr (by decide))

/-! ## Lock-state invariant -/

/-- One call of `sw_pll_do_control` preserves: the countdown is at most `SW_PLL_LOCK_COUNT`,
and the status is Locked only when the countdown is 0. -/
theorem do_control_lock_invariant (m : sw_pll_machine) (mclk_pt ref_clk_pt : Nat)
    (h1 : m.sw_pll.lock_counter ≤ SW_PLL_LOCK_COUNT)
    (h2 : m.sw_pll.lock_status = sw_pll_lock_status_t.SW_PLL_LOCKED → m.sw_pll.lock_counter = 0) :
    (sw_pll_do_control m mclk_pt ref_clk_pt).1.sw_pll.lock_counter ≤ SW_PLL_LOCK_COUNT ∧
    ((sw_pll_do_control m mclk_pt ref_clk_pt).1.sw_pll.lock_status
        = sw_pll_lock_status_t.SW_PLL_LOCKED →
      (sw_pll_do_control m mclk_pt ref_clk_pt).1.sw_pll.lock_counter = 0) := by
  by_cases hdue : control_update_due m.sw_pll
  · by_cases hfl : m.sw_pll.first_loop = 0
    · simp only [do_control_steady m mclk_pt ref_clk_pt hdue hfl]
      generalize pi_total_error _ _ = te
      rcases lookup_pll_frac_lock_step m.sw_pll te with ⟨_, hk, hs⟩ | ⟨_, hc, hk, hs⟩ |
        ⟨_, hc, hk, hs⟩
      · exact ⟨le_of_eq hk, fun hl => absurd hl hs⟩
      · refine ⟨by omega, fun hl => ?_⟩
        rw [hs] at hl
        exact absurd (h2 hl) hc
      · exact ⟨by omega, fun _ => hk⟩
    · simp only [do_control_first_loop m mclk_pt ref_clk_pt hdue hfl]
      exact ⟨le_refl _, fun hl => by cases hl⟩
  · simp only [do_control_not_due m mclk_pt ref_clk_pt hdue]
    exact ⟨h1, h2⟩

/-- C20. Lock-state invariant: in every state reached from the state set by `sw_pll_init`
through any sequence of `sw_pll_do_control` calls with arbitrary samples, the countdown is at
most `SW_PLL_LOCK_COUNT`, and the status is Locked only when the countdown is 0. -/
theorem lock_state_invariant
    (sw_pll_reset : sw_pll_state_t → Int → Int → Nat → sw_pll_state_t)
    (m0 : sw_pll_machine) (Kp Ki : Int) (loop_rate_count pll_ratio ref_clk_expected_inc : Nat)
    (lut_table_base : List Int)
    (num_lut_entries app_pll_ctl_reg_val app_pll_div_reg_val nominal_lut_idx ppm_range : Nat)
    (samples : List (Nat × Nat)) :
    (sw_pll_run
      (sw_pll_init sw_pll_reset m0 Kp Ki loop_rate_count pll_ratio ref_clk_expected_inc
        lut_table_base num_lut_entries app_pll_ctl_reg_val app_pll_div_reg_val nominal_lut_idx
        ppm_range) samples).sw_pll.lock_counter ≤ SW_PLL_LOCK_COUNT ∧
    ((sw_pll_run
      (sw_pll_init sw_pll_reset m0 Kp Ki loop_rate_count pll_ratio ref_clk_expected_inc
        lut_table_base num_lut_entries app_pll_ctl_reg_val app_pll_div_reg_val nominal_lut_idx
        ppm_range) samples).sw_pll.lock_status = sw_pll_lock_status_t.SW_PLL_LOCKED →
      (sw_pll_run
        (sw_pll_init sw_pll_reset m0 Kp Ki loop_rate_count pll_ratio ref_clk_expected_inc
          lut_table_base num_lut_entries app_pll_ctl_reg_val app_pll_div_reg_val nominal_lut_idx
          ppm_range) samples).sw_pll.lock_counter = 0) := by
  induction samples using List.reverseRecOn with
  | nil => exact ⟨le_refl _, fun hl => by cases hl⟩
  | append_singleton l p ih =>
    rw [sw_pll_run_concat]
    exact do_control_lock_invariant _ p.1 p.2 ih.1 ih.2

/-! ## PI control law -/

/-- The state left by `sw_pll_do_control_from_error`, field by field: the PI controller
accumulates, the LUT selector runs on the old lock state with the control signal of the new
accumulator, and the selected value is stored and written. -/
theorem do_control_from_error_eq (m : sw_pll_machine) (error : Int) :
    let pi := pi_accumulate m.sw_pll.pi_state error
    let sel := lookup_pll_frac m.sw_pll (pi_total_error pi error)
    sw_pll_do_control_from_error m error =
      ({ sw_pll :=
          { m.sw_pll with
              lock_status := sel.1.lock_status
              lock_counter := sel.1.lock_counter
              pi_state := pi
              lut_state := { m.sw_pll.lut_state with current_reg_val := sel.2 } }
         sswitch := m.sswitch ++
           [(sswitch_reg_t.XS1_SSWITCH_SS_APP_PLL_FRAC_N_DIVIDER_NUM, 0x80000000 ||| sel.2)] },
        sel.1.lock_status) := by
  simp only [sw_pll_do_control_from_error, lookup_pll_frac, lookup_pll_frac_index]
  split_ifs <;> rfl

/-- When the 32-bit addition does not wrap, lines 140-142 clamp the exact sum. -/
theorem pi_accumulate_eq_clamp (pi : sw_pll_pi_state_t) (error : Int)
    (hlim : 0 ≤ pi.i_windup_limit) (hmax : pi.i_windup_limit ≤ 2147483647)
    (hlo : -2147483648 ≤ pi.error_accum + error) (hhi : pi.error_accum + error ≤ 2147483647) :
    pi_accumulate pi error =
      { pi with
          error_accum :=
            spec_clamp (pi.error_accum + error) (-pi.i_windup_limit) pi.i_windup_limit } := by
  have h1 : to_int32 (pi.error_accum + error) = pi.error_accum + error :=
    to_int32_of_range _ hlo hhi
  have h2 : to_int32 (-pi.i_windup_limit) = -pi.i_windup_limit :=
    to_int32_of_range _ (by omega) (by omega)
  have : (if (if pi.error_accum + error > pi.i_windup_limit then pi.i_windup_limit
        else pi.error_accum + error) < -pi.i_windup_limit then -pi.i_windup_limit
      else (if pi.error_accum + error > pi.i_windup_limit then pi.i_windup_limit
        else pi.error_accum + error))
      = spec_clamp (pi.error_accum + error) (-pi.i_windup_limit) pi.i_windup_limit := by
    unfold spec_clamp
    split_ifs <;> omega
  simp only [pi_accumulate, h1, h2, this]

theorem to_int64_of_range (x : Int) (hlo : -9223372036854775808 ≤ x)
    (hhi : x ≤ 9223372036854775807) : to_int64 x = x := by
  unfold to_int64
  omega

/-- A product of a 32-bit and a 32-bit signed value has magnitude at most `2^62`. -/
theorem abs_mul_le_of_int32 (a b : Int) (ha : |a| ≤ 2147483648) (hb : |b| ≤ 2147483648) :
    |a * b| ≤ 4611686018427387904 := by
  rw [abs_mul]
  calc |a| * |b| ≤ 2147483648 * 2147483648 :=
        mul_le_mul ha hb (abs_nonneg b) (by norm_num)
    _ = 4611686018427387904 := by norm_num

/-- A product of a 32-bit and a 16-bit signed value has magnitude at most `2^46`. -/
theorem abs_mul_le_of_int16 (a b : Int) (ha : |a| ≤ 2147483648) (hb : |b| ≤ 32768) :
    |a * b| ≤ 70368744177664 := by
  rw [abs_mul]
  calc |a| * |b| ≤ 2147483648 * 32768 :=
        mul_le_mul ha hb (abs_nonneg b) (by norm_num)
    _ = 70368744177664 := by norm_num

/-- With 32-bit gains and accumulator and a 16-bit error, the 64-bit arithmetic of lines
145-149 is exact: the control signal is the specification's quotient narrowed to 32 bits. -/
theorem pi_total_error_eq (pi : sw_pll_pi_state_t) (error : Int)
    (hKp : |pi.Kp| ≤ 2147483648) (hKi : |pi.Ki| ≤ 2147483648)
    (hacc : |pi.error_accum| ≤ 2147483648) (he : |error| ≤ 32768) :
    pi_total_error pi error
      = to_int32 (spec_control_signal pi.Kp pi.Ki error pi.error_accum) := by
  have hp := abs_le.mp (abs_mul_le_of_int16 pi.Kp error hKp he)
  have hi := abs_le.mp (abs_mul_le_of_int32 pi.Ki pi.error_accum hKi hacc)
  have h1 : to_int64 (pi.Kp * error) = pi.Kp * error :=
    to_int64_of_range _ (by omega) (by omega)
  have h2 : to_int64 (pi.Ki * pi.error_accum) = pi.Ki * pi.error_accum :=
    to_int64_of_range _ (by omega) (by omega)
  have h3 : to_int64 (pi.Kp * error + pi.Ki * pi.error_accum)
      = pi.Kp * error + pi.Ki * pi.error_accum :=
    to_int64_of_range _ (by omega) (by omega)
  simp only [pi_total_error, spec_control_signal, h1, h2, h3]

theorem spec_clamp_bounds (x lo hi : Int) (h : lo ≤ hi) :
    lo ≤ spec_clamp x lo hi ∧ spec_clamp x lo hi ≤ hi := by
  unfold spec_clamp
  split_ifs <;> omega

/-- Counterexample to C12 as stated, at `demo_machine_accum_max` (accumulator and windup limit
both `2^31 - 1`) with error 1: the 32-bit addition wraps, and the accumulator ends at
`-(2^31 - 1)` where the clamp of the exact sum is `2^31 - 1`. -/
theorem pi_control_law_counterexample :
    0 ≤ demo_machine_accum_max.sw_pll.pi_state.i_windup_limit ∧
    (sw_pll_do_control_from_error demo_machine_accum_max 1).1.sw_pll.pi_state.error_accum
      = -2147483647 ∧
    spec_clamp (demo_machine_accum_max.sw_pll.pi_state.error_accum + 1)
      (-demo_machine_accum_max.sw_pll.pi_state.i_windup_limit)
      demo_machine_accum_max.sw_pll.pi_state.i_windup_limit = 2147483647 ∧
    (sw_pll_do_control_from_error demo_machine_accum_max 1).1.sw_pll.pi_state.error_accum
      ≠ spec_clamp (demo_machine_accum_max.sw_pll.pi_state.error_accum + 1)
          (-demo_machine_accum_max.sw_pll.pi_state.i_windup_limit)
          demo_machine_accum_max.sw_pll.pi_state.i_windup_limit := by
  decide

/-- C12, as amended.  For every state with 32-bit gains, `0 ≤ i_windup_limit` and every
16-bit signed error `e` such that `error_accum + e` is representable in 32 bits,
`sw_pll_do_control_from_error` sets `error_accum` to
`acc' = clamp(error_accum + e, -i_windup_limit, i_windup_limit)`, and runs the LUT selector
(lock state, stored and written value) on the control signal
`floor((Kp * e + Ki * acc') / 2^SW_PLL_NUM_FRAC_BITS)` narrowed to 32 bits, the 64-bit
arithmetic being exact; the narrowing loses nothing when that quotient lies in
`[-2^31, 2^31 - 1]`. -/
theorem pi_control_law (m : sw_pll_machine) (e : Int)
    (hlim : 0 ≤ m.sw_pll.pi_state.i_windup_limit)
    (hmax : m.sw_pll.pi_state.i_windup_limit ≤ 2147483647)
    (hKp : -2147483648 ≤ m.sw_pll.pi_state.Kp ∧ m.sw_pll.pi_state.Kp ≤ 2147483647)
    (hKi : -2147483648 ≤ m.sw_pll.pi_state.Ki ∧ m.sw_pll.pi_state.Ki ≤ 2147483647)
    (he : -32768 ≤ e ∧ e ≤ 32767)
    (hsum : -2147483648 ≤ m.sw_pll.pi_state.error_accum + e ∧
      m.sw_pll.pi_state.error_accum + e ≤ 2147483647) :
    let acc' := spec_clamp (m.sw_pll.pi_state.error_accum + e)
      (-m.sw_pll.pi_state.i_windup_limit) m.sw_pll.pi_state.i_windup_limit
    let q := spec_control_signal m.sw_pll.pi_state.Kp m.sw_pll.pi_state.Ki e acc'
    let sel := lookup_pll_frac m.sw_pll (to_int32 q)
    let r := (sw_pll_do_control_from_error m e).1
    r.sw_pll.pi_state = { m.sw_pll.pi_state with error_accum := acc' } ∧
    pi_total_error r.sw_pll.pi_state e = to_int32 q ∧
    r.sw_pll.lock_status = sel.1.lock_status ∧
    r.sw_pll.lock_counter = sel.1.lock_counter ∧
    r.sw_pll.lut_state.current_reg_val = sel.2 ∧
    r.sswitch = m.sswitch ++
      [(sswitch_reg_t.XS1_SSWITCH_SS_APP_PLL_FRAC_N_DIVIDER_NUM, 0x80000000 ||| sel.2)] ∧
    (-2147483648 ≤ q → q ≤ 2147483647 → to_int32 q = q) := by
  intro acc' q sel r
  have hacc := pi_accumulate_eq_clamp m.sw_pll.pi_state e hlim hmax hsum.1 hsum.2
  have hb := spec_clamp_bounds (m.sw_pll.pi_state.error_accum + e)
    (-m.sw_pll.pi_state.i_windup_limit) m.sw_pll.pi_state.i_windup_limit (by omega)
  have hte : pi_total_error (pi_accumulate m.sw_pll.pi_state e) e = to_int32 q := by
    have bKp : |m.sw_pll.pi_state.Kp| ≤ 2147483648 := abs_le.mpr ⟨by omega, by omega⟩
    have bKi : |m.sw_pll.pi_state.Ki| ≤ 2147483648 := abs_le.mpr ⟨by omega, by omega⟩
    have bacc : |acc'| ≤ 2147483648 := abs_le.mpr ⟨by omega, by omega⟩
    have be : |e| ≤ 32768 := abs_le.mpr ⟨by omega, by omega⟩
    rw [hacc]
    exact pi_total_error_eq _ e bKp bKi bacc be
  have hr := do_control_from_error_eq m e
  simp only [hte] at hr
  refine ⟨?_, ?_, ?_, ?_, ?_, ?_, ?_⟩
  · simp only [r, hr]
    exact hacc
  · simp only [r, hr]
    exact hte
  · simp only [r, hr, sel]
  · simp only [r, hr, sel]
  · simp only [r, hr, sel]
  · simp only [r, hr, sel]
  · intro hlo hhi
    exact to_int32_of_range q hlo hhi

/-- Witness for the amended C12 at `demo_machine` (gain `Ki = 1.0`, limit 100): error 7 gives
accumulator 7 and control signal 7, which selects below the table. -/
theorem pi_control_law_witness :
    (sw_pll_do_control_from_error demo_machine 7).1.sw_pll.pi_state
      = { demo_machine.sw_pll.pi_state with error_accum := 7 } ∧
    (sw_pll_do_control_from_error demo_machine 7).1.sw_pll.lut_state.current_reg_val = 10 :=
  ⟨(pi_control_law demo_machine 7 (by decide) (by decide) (by decide) (by decide) (by decide)
      (by decide)).1,
    (pi_control_law demo_machine 7 (by decide) (by decide) (by decide) (by decide) (by decide)
      (by decide)).2.2.2.2.1⟩

/-! ## `current_reg_val` and the fractional register -/

/-- What `sw_pll_init` leaves in `current_reg_val` and in the register log: the field holds
the low 16 bits of `app_pll_div_reg_val` (line 102), while the last write to the fractional
register is the nominal table entry with the enable bit (lines 36 and 96). -/
theorem sw_pll_init_current_reg_val
    (sw_pll_reset : sw_pll_state_t → Int → Int → Nat → sw_pll_state_t)
    (m : sw_pll_machine) (Kp Ki : Int) (loop_rate_count pll_ratio ref_clk_expected_inc : Nat)
    (lut_table_base : List Int)
    (num_lut_entries app_pll_ctl_reg_val app_pll_div_reg_val nominal_lut_idx ppm_range : Nat) :
    let mi := sw_pll_init sw_pll_reset m Kp Ki loop_rate_count pll_ratio ref_clk_expected_inc
      lut_table_base num_lut_entries app_pll_ctl_reg_val app_pll_div_reg_val nominal_lut_idx
      ppm_range
    mi.sw_pll.lut_state.current_reg_val = to_uint16 (app_pll_div_reg_val : Int) ∧
    last_frac_write mi.sswitch
      = some (0x80000000 ||| to_uint16 (lut_table_base.getD nominal_lut_idx 0)) := by
  intro mi
  refine ⟨rfl, ?_⟩
  simp [mi, sw_pll_init, sw_pll_app_pll_init, last_frac_write, List.filter_append,
    List.filter_cons]

/-- C16 at a failing input: after `sw_pll_init` with nominal table entry 30 and
`app_pll_div_reg_val = 0x80000004`, the fractional register was last written with
`0x80000000 | 30`, but `current_reg_val` is 4; the first-loop update (second call) writes
nothing and leaves `current_reg_val` at 4. -/
theorem current_reg_val_after_init :
    last_frac_write demo_machine_init_regs.sswitch = some (0x80000000 ||| 30) ∧
    (0x80000000 ||| 30) % 65536 = 30 ∧
    demo_machine_init_regs.sw_pll.lut_state.lut_table_base.getD
      demo_machine_init_regs.sw_pll.lut_state.nominal_lut_idx 0 = 30 ∧
    demo_machine_init_regs.sw_pll.lut_state.current_reg_val = 4 ∧
    (sw_pll_run demo_machine_init_regs [(0, 0), (500, 0)]).sw_pll.first_loop = 0 ∧
    (sw_pll_run demo_machine_init_regs [(0, 0), (500, 0)]).sswitch
      = demo_machine_init_regs.sswitch ∧
    (sw_pll_run demo_machine_init_regs [(0, 0), (500, 0)]).sw_pll.lut_state.current_reg_val
      = 4 := by
  decide

theorem last_frac_write_concat (log : List (sswitch_reg_t × Nat)) (v : Nat) :
    last_frac_write
      (log ++ [(sswitch_reg_t.XS1_SSWITCH_SS_APP_PLL_FRAC_N_DIVIDER_NUM, v)]) = some v := by
  simp [last_frac_write, List.filter_append]

/-- In every state reached from `sw_pll_init`, either no control action has been emitted yet
and `current_reg_val` still holds the low 16 bits of `app_pll_div_reg_val`, or
`current_reg_val` is the 16-bit table value last written to the fractional register. -/
theorem current_reg_val_reachable
    (sw_pll_reset : sw_pll_state_t → Int → Int → Nat → sw_pll_state_t)
    (m0 : sw_pll_machine) (Kp Ki : Int) (loop_rate_count pll_ratio ref_clk_expected_inc : Nat)
    (lut_table_base : List Int)
    (num_lut_entries app_pll_ctl_reg_val app_pll_div_reg_val nominal_lut_idx ppm_range : Nat)
    (samples : List (Nat × Nat)) :
    let mi := sw_pll_init sw_pll_reset m0 Kp Ki loop_rate_count pll_ratio ref_clk_expected_inc
      lut_table_base num_lut_entries app_pll_ctl_reg_val app_pll_div_reg_val nominal_lut_idx
      ppm_range
    ((sw_pll_run mi samples).sw_pll.lut_state.current_reg_val
        = to_uint16 (app_pll_div_reg_val : Int) ∧
      (sw_pll_run mi samples).sswitch = mi.sswitch) ∨
    last_frac_write (sw_pll_run mi samples).sswitch
      = some (0x80000000 ||| (sw_pll_run mi samples).sw_pll.lut_state.current_reg_val) := by
  intro mi
  induction samples using List.reverseRecOn with
  | nil => exact Or.inl ⟨rfl, rfl⟩
  | append_singleton l p ih =>
    rw [sw_pll_run_concat]
    by_cases hdue : control_update_due (sw_pll_run mi l).sw_pll
    · by_cases hfl : (sw_pll_run mi l).sw_pll.first_loop = 0
      · right
        simp only [do_control_steady _ p.1 p.2 hdue hfl]
        exact last_frac_write_concat _ _
      · simp only [do_control_first_loop _ p.1 p.2 hdue hfl]
        exact ih
    · simp only [do_control_not_due _ p.1 p.2 hdue]
      exact ih

/-! ## Streams with a constant offset -/

/-- The lock state and the value selected by `lookup_pll_frac` do not depend on the loop
counter. -/
theorem lookup_pll_frac_loop_counter (s : sw_pll_state_t) (x : Nat) (c : Int) :
    (lookup_pll_frac { s with loop_counter := x } c).2 = (lookup_pll_frac s c).2 ∧
    (lookup_pll_frac { s with loop_counter := x } c).1.lock_status
      = (lookup_pll_frac s c).1.lock_status ∧
    (lookup_pll_frac { s with loop_counter := x } c).1.lock_counter
      = (lookup_pll_frac s c).1.lock_counter := by
  simp only [lookup_pll_frac, lookup_pll_frac_index]
  split_ifs <;> exact ⟨rfl, rfl, rfl⟩

/-- One period of a stream that runs `d` counts fast, from a steady state at the start of a
period, with `|d|` within the resync threshold and no reference compensation: the phase error
is `d`, no resync is signalled, the PI controller accumulates `d`, and the LUT selector runs on
the resulting control signal. -/
theorem control_period_eq (d : Int) (m : sw_pll_machine) (idle : List (Nat × Nat))
    (ref_clk_pt : Nat)
    (hlc : m.sw_pll.loop_counter = 0) (hfl : m.sw_pll.first_loop = 0)
    (hlen : idle.length + 1 = m.sw_pll.loop_rate_count)
    (hn32 : m.sw_pll.loop_rate_count < 4294967296)
    (hinc : m.sw_pll.pfd_state.ref_clk_expected_inc = 0)
    (hd : -32768 ≤ d ∧ d ≤ 32767)
    (hmax : |d| ≤ (m.sw_pll.pfd_state.mclk_max_diff : Int)) :
    let pi := pi_accumulate m.sw_pll.pi_state d
    let sel := lookup_pll_frac m.sw_pll (pi_total_error pi d)
    control_period d m idle ref_clk_pt =
      { sw_pll :=
          { m.sw_pll with
              lock_status := sel.1.lock_status
              lock_counter := sel.1.lock_counter
              pfd_state :=
                { m.sw_pll.pfd_state with
                    mclk_diff := d
                    mclk_pt_last := offset_sample m d }
              pi_state := pi
              lut_state := { m.sw_pll.lut_state with current_reg_val := sel.2 } }
        sswitch := m.sswitch ++
          [(sswitch_reg_t.XS1_SSWITCH_SS_APP_PLL_FRAC_N_DIVIDER_NUM, 0x80000000 ||| sel.2)] } := by
  intro pi sel
  have hrun := sw_pll_run_no_update m idle hlc (by omega) hn32
  have hu : to_uint32 ((idle.length : Int) + 1) = idle.length + 1 := by
    unfold to_uint32
    omega
  have hdue : control_update_due (sw_pll_run m idle).sw_pll := by
    rw [hrun]
    simp only [control_update_due, hu]
    exact hlen
  have hfl' : (sw_pll_run m idle).sw_pll.first_loop = 0 := by
    rw [hrun]
    exact hfl
  have hsample : offset_sample (sw_pll_run m idle) d = offset_sample m d := by
    rw [hrun]
    rfl
  have hdiff : to_int16 ((offset_sample m d : Int)
      - ((m.sw_pll.pfd_state.mclk_pt_last : Int)
        + (m.sw_pll.pfd_state.mclk_expected_pt_inc : Int))) = d := by
    simp only [offset_sample, to_int16, to_uint16]
    omega
  have hpfd := calc_error_no_compensation m.sw_pll.pfd_state m.sw_pll.first_loop
    (offset_sample m d) ref_clk_pt hinc
  rw [hdiff] at hpfd
  have hsig : (sw_pll_calc_error_from_port_timers m.sw_pll.pfd_state m.sw_pll.first_loop
      (offset_sample m d) ref_clk_pt).2 = 0 := by
    have hmd : port_timer_diff (offset_sample m d)
        (mclk_expected_pt m.sw_pll.pfd_state ref_clk_pt) = d := by
      have := congrArg sw_pll_pfd_state_t.mclk_diff hpfd
      rw [calc_error_pfd_state] at this
      exact this
    rw [calc_error_first_loop, MAGNITUDE_eq_abs, hmd, if_neg (not_lt.mpr hmax), hfl]
  have hst := do_control_steady (sw_pll_run m idle) (offset_sample m d) ref_clk_pt hdue hfl'
  obtain ⟨h1, h2, h3⟩ := lookup_pll_frac_loop_counter m.sw_pll idle.length
    (pi_total_error (pi_accumulate m.sw_pll.pi_state d) d)
  show (sw_pll_do_control (sw_pll_run m idle) (offset_sample (sw_pll_run m idle) d)
    ref_clk_pt).1 = _
  rw [hsample, hst]
  simp only [hrun, hpfd, hsig, h1, h2, h3, pi, sel]
  simp only [hlc, hfl]

/-- The value `sw_pll_do_control` returns is the lock status it leaves in the state. -/
theorem do_control_ret (m : sw_pll_machine) (mclk_pt ref_clk_pt : Nat) :
    (sw_pll_do_control m mclk_pt ref_clk_pt).2
      = (sw_pll_do_control m mclk_pt ref_clk_pt).1.sw_pll.lock_status := by
  by_cases hdue : control_update_due m.sw_pll
  · by_cases hfl : m.sw_pll.first_loop = 0
    · simp only [do_control_steady m mclk_pt ref_clk_pt hdue hfl]
    · simp only [do_control_first_loop m mclk_pt ref_clk_pt hdue hfl]
  · simp only [do_control_not_due m mclk_pt ref_clk_pt hdue]

theorem same_config_refl (a : sw_pll_machine) : same_config a a :=
  ⟨rfl, rfl, rfl, rfl, rfl, rfl, rfl, rfl, rfl, rfl⟩

theorem same_config_trans (a b c : sw_pll_machine) (h1 : same_config a b)
    (h2 : same_config b c) : same_config a c := by
  unfold same_config at *
  obtain ⟨a1, a2, a3, a4, a5, a6, a7, a8, a9, a10⟩ := h1
  obtain ⟨b1, b2, b3, b4, b5, b6, b7, b8, b9, b10⟩ := h2
  exact ⟨a1.trans b1, a2.trans b2, a3.trans b3, a4.trans b4, a5.trans b5, a6.trans b6,
    a7.trans b7, a8.trans b8, a9.trans b9, a10.trans b10⟩

/-- A period of a constant-offset stream keeps the configuration, the loop counter at 0 and
`first_loop` clear. -/
theorem control_period_frame (d : Int) (m : sw_pll_machine) (idle : List (Nat × Nat))
    (ref_clk_pt : Nat)
    (hlc : m.sw_pll.loop_counter = 0) (hfl : m.sw_pll.first_loop = 0)
    (hlen : idle.length + 1 = m.sw_pll.loop_rate_count)
    (hn32 : m.sw_pll.loop_rate_count < 4294967296)
    (hinc : m.sw_pll.pfd_state.ref_clk_expected_inc = 0)
    (hd : -32768 ≤ d ∧ d ≤ 32767)
    (hmax : |d| ≤ (m.sw_pll.pfd_state.mclk_max_diff : Int)) :
    same_config (control_period d m idle ref_clk_pt) m ∧
    (control_period d m idle ref_clk_pt).sw_pll.loop_counter = 0 ∧
    (control_period d m idle ref_clk_pt).sw_pll.first_loop = 0 ∧
    (control_period d m idle ref_clk_pt).sw_pll.pfd_state.mclk_diff = d := by
  rw [control_period_eq d m idle ref_clk_pt hlc hfl hlen hn32 hinc hd hmax]
  exact ⟨⟨rfl, rfl, rfl, rfl, rfl, rfl, rfl, rfl, rfl, rfl⟩, hlc, hfl, rfl⟩

/-! ## A nominal stream locks -/

/-- With a cleared accumulator and a zero error the PI controller leaves the accumulator at 0
and produces the control signal 0. -/
theorem pi_zero_error (pi : sw_pll_pi_state_t) (e : Int) (he : e = 0)
    (hacc : pi.error_accum = 0) (hlim : 0 ≤ pi.i_windup_limit)
    (hmax : pi.i_windup_limit ≤ 2147483647) :
    pi_accumulate pi e = pi ∧ pi_total_error (pi_accumulate pi e) e = 0 := by
  subst he
  have h1 : pi_accumulate pi 0 = pi := by
    rw [pi_accumulate_eq_clamp pi 0 hlim hmax (by omega) (by omega)]
    have : spec_clamp (pi.error_accum + 0) (-pi.i_windup_limit) pi.i_windup_limit
        = pi.error_accum := by
      unfold spec_clamp
      split_ifs <;> omega
    rw [this]
  refine ⟨h1, ?_⟩
  rw [h1]
  simp [pi_total_error, hacc, to_int64, to_int32]

/-- The selection for a zero control signal when the nominal index lies inside a table of at
most `2^31` entries: the nominal index is selected and it is in range. -/
theorem lookup_nominal (s : sw_pll_state_t) (c : Int) (hc : c = 0)
    (hnom : s.lut_state.nominal_lut_idx < s.lut_state.num_lut_entries)
    (hN : s.lut_state.num_lut_entries ≤ 2147483648) :
    (lookup_pll_frac_index s c).2 = s.lut_state.nominal_lut_idx ∧
    (lookup_pll_frac s c).2
      = to_uint16 (s.lut_state.lut_table_base.getD s.lut_state.nominal_lut_idx 0) ∧
    lut_selection_in_range s c := by
  have hset : to_int32 ((s.lut_state.nominal_lut_idx : Int) - c)
      = (s.lut_state.nominal_lut_idx : Int) := by
    unfold to_int32
    omega
  have hidx : (lookup_pll_frac_index s c).2 = s.lut_state.nominal_lut_idx := by
    rw [lookup_pll_frac_index_value, hset]
    split_ifs <;> omega
  refine ⟨hidx, ?_, ?_⟩
  · have hl := lookup_pll_frac_lut_state s c
    rw [lookup_pll_frac_fst] at hl
    simp only [lookup_pll_frac]
    rw [hl, hidx]
  · unfold lut_selection_in_range
    rw [hset]
    omega

/-- One period of a perfectly nominal stream (offset `d = 0`): phase error 0, accumulator 0,
control signal 0, the nominal entry selected, stored and written, and the lock state one step
further. -/
theorem nominal_period_step (d : Int) (hd0 : d = 0) (m : sw_pll_machine)
    (idle : List (Nat × Nat)) (ref_clk_pt : Nat)
    (j : Nat) (hinv : nominal_stream_state j m)
    (hlen : idle.length + 1 = m.sw_pll.loop_rate_count)
    (hn32 : m.sw_pll.loop_rate_count < 4294967296)
    (hinc : m.sw_pll.pfd_state.ref_clk_expected_inc = 0)
    (hlim : 0 ≤ m.sw_pll.pi_state.i_windup_limit)
    (hLmax : m.sw_pll.pi_state.i_windup_limit ≤ 2147483647)
    (hnom : m.sw_pll.lut_state.nominal_lut_idx < m.sw_pll.lut_state.num_lut_entries)
    (hN : m.sw_pll.lut_state.num_lut_entries ≤ 2147483648) :
    nominal_stream_state (j + 1) (control_period d m idle ref_clk_pt) ∧
    same_config (control_period d m idle ref_clk_pt) m ∧
    (control_period d m idle ref_clk_pt).sw_pll.pfd_state.mclk_diff = d ∧
    pi_total_error (pi_accumulate m.sw_pll.pi_state d) d = 0 ∧
    (control_period d m idle ref_clk_pt).sw_pll.lut_state.current_reg_val
      = to_uint16 (m.sw_pll.lut_state.lut_table_base.getD
          m.sw_pll.lut_state.nominal_lut_idx 0) ∧
    (control_period d m idle ref_clk_pt).sswitch = m.sswitch ++
      [(sswitch_reg_t.XS1_SSWITCH_SS_APP_PLL_FRAC_N_DIVIDER_NUM,
        0x80000000 ||| to_uint16 (m.sw_pll.lut_state.lut_table_base.getD
          m.sw_pll.lut_state.nominal_lut_idx 0))] := by
  obtain ⟨hlc, hfl, hacc, hcnt, hst⟩ := hinv
  obtain ⟨hpi, hte⟩ := pi_zero_error m.sw_pll.pi_state d hd0 hacc hlim hLmax
  have hdm : |d| ≤ (m.sw_pll.pfd_state.mclk_max_diff : Int) := by
    rw [hd0, abs_zero]
    exact Int.ofNat_nonneg _
  have heq := control_period_eq d m idle ref_clk_pt hlc hfl hlen hn32 hinc
    ⟨by omega, by omega⟩ hdm
  dsimp only at heq
  refine ⟨?_, ?_, ?_, hte, ?_, ?_⟩
  all_goals
    generalize pi_total_error (pi_accumulate m.sw_pll.pi_state d) d = c at heq hte
    obtain ⟨_, hval, hin⟩ := lookup_nominal m.sw_pll c hte hnom hN
    have hstep := lookup_pll_frac_lock_step m.sw_pll c
    generalize lookup_pll_frac m.sw_pll c = sel at heq hval hstep
    generalize offset_sample m d = smp at heq
    rw [hpi] at heq
    rw [heq]
  · simp only [SW_PLL_LOCK_COUNT, nominal_stream_state] at hcnt hst hstep ⊢
    refine ⟨hlc, hfl, hacc, ?_, ?_⟩
    · rcases hstep with ⟨hnot, _⟩ | ⟨_, hc, hk, hs⟩ | ⟨_, hc, hk, hs⟩
      · exact absurd hin hnot
      · rw [hk]
        omega
      · rw [hk]
        omega
    · rcases hstep with ⟨hnot, _⟩ | ⟨_, hc, hk, hs⟩ | ⟨_, hc, hk, hs⟩
      · exact absurd hin hnot
      · rw [hs, hst, if_pos (by omega), if_pos (by omega)]
      · rw [hs, if_neg (by omega)]
  · simp only [same_config]
    exact ⟨trivial, trivial, trivial, trivial, trivial, trivial, trivial, trivial, trivial,
      trivial⟩
  · exact hval
  · rw [hval]

/-- Any number of periods of a perfectly nominal stream (offset `d = 0`). -/
theorem nominal_stream_run (d : Int) (hd0 : d = 0) (ps : List (List (Nat × Nat) × Nat)) :
    ∀ (m : sw_pll_machine) (j : Nat), nominal_stream_state j m →
      m.sw_pll.loop_rate_count < 4294967296 →
      m.sw_pll.pfd_state.ref_clk_expected_inc = 0 →
      0 ≤ m.sw_pll.pi_state.i_windup_limit →
      m.sw_pll.pi_state.i_windup_limit ≤ 2147483647 →
      m.sw_pll.lut_state.nominal_lut_idx < m.sw_pll.lut_state.num_lut_entries →
      m.sw_pll.lut_state.num_lut_entries ≤ 2147483648 →
      (∀ p ∈ ps, p.1.length + 1 = m.sw_pll.loop_rate_count) →
      nominal_stream_state (j + ps.length) (offset_stream_run d m ps) ∧
      same_config (offset_stream_run d m ps) m := by
  induction ps with
  | nil =>
    intro m j hinv _ _ _ _ _ _ _
    exact ⟨hinv, same_config_refl m⟩
  | cons p ps ih =>
    intro m j hinv hn32 hinc hlim hLmax hnom hN hlen
    obtain ⟨hinv', hcfg, _⟩ := nominal_period_step d hd0 m p.1 p.2 j hinv
      (hlen p (List.mem_cons_self _ _)) hn32 hinc hlim hLmax hnom hN
    obtain ⟨c1, c2, _, _, _, _, c7, _, c9, c10⟩ := id hcfg
    have := ih (control_period d m p.1 p.2) (j + 1) hinv'
      (by rw [c1]; exact hn32) (by rw [c2]; exact hinc) (by rw [c7]; exact hlim)
      (by rw [c7]; exact hLmax) (by rw [c9, c10]; exact hnom) (by rw [c9]; exact hN)
      (fun q hq => by rw [c1]; exact hlen q (List.mem_cons_of_mem _ hq))
    refine ⟨?_, same_config_trans _ _ _ this.2 hcfg⟩
    have hl : j + (p :: ps).length = j + 1 + ps.length := by
      simp only [List.length_cons]
      omega
    rw [hl]
    exact this.1

/-- The first-loop update that starts a stream: from a state at the start of a period with
`first_loop` set, the update leaves the loop in `nominal_stream_state 0` with the same
configuration and the same register log. -/
theorem first_loop_period (m : sw_pll_machine) (idle0 : List (Nat × Nat))
    (mclk_pt0 ref_clk_pt0 : Nat)
    (hfl : m.sw_pll.first_loop ≠ 0) (hlc : m.sw_pll.loop_counter = 0)
    (hn32 : m.sw_pll.loop_rate_count < 4294967296)
    (hlen0 : idle0.length + 1 = m.sw_pll.loop_rate_count) :
    nominal_stream_state 0 (sw_pll_do_control (sw_pll_run m idle0) mclk_pt0 ref_clk_pt0).1 ∧
    same_config (sw_pll_do_control (sw_pll_run m idle0) mclk_pt0 ref_clk_pt0).1 m ∧
    (sw_pll_do_control (sw_pll_run m idle0) mclk_pt0 ref_clk_pt0).1.sswitch = m.sswitch := by
  obtain ⟨_, _, h⟩ := first_loop_after_gap m idle0 mclk_pt0 ref_clk_pt0 hlc hfl hn32 hlen0
  rw [h]
  refine ⟨⟨hlc, rfl, rfl, rfl, rfl⟩, ⟨rfl, rfl, rfl, rfl, rfl, rfl, rfl, rfl, rfl, rfl⟩, rfl⟩

/-- The `k`-th update of a perfectly nominal stream (offset `d = 0`), `k = ps.length + 1`,
after a first-loop update. -/
theorem nominal_stream_update (d : Int) (hd0 : d = 0) (m : sw_pll_machine)
    (idle0 : List (Nat × Nat)) (mclk_pt0 ref_clk_pt0 : Nat)
    (ps : List (List (Nat × Nat) × Nat)) (idle : List (Nat × Nat)) (ref_clk_pt : Nat)
    (hfl : m.sw_pll.first_loop ≠ 0) (hlc : m.sw_pll.loop_counter = 0)
    (hn32 : m.sw_pll.loop_rate_count < 4294967296)
    (hinc : m.sw_pll.pfd_state.ref_clk_expected_inc = 0)
    (hlim : 0 ≤ m.sw_pll.pi_state.i_windup_limit)
    (hLmax : m.sw_pll.pi_state.i_windup_limit ≤ 2147483647)
    (hnom : m.sw_pll.lut_state.nominal_lut_idx < m.sw_pll.lut_state.num_lut_entries)
    (hN : m.sw_pll.lut_state.num_lut_entries ≤ 2147483648)
    (hlen0 : idle0.length + 1 = m.sw_pll.loop_rate_count)
    (hps : ∀ p ∈ ps, p.1.length + 1 = m.sw_pll.loop_rate_count)
    (hlen : idle.length + 1 = m.sw_pll.loop_rate_count) :
    let m1 := (sw_pll_do_control (sw_pll_run m idle0) mclk_pt0 ref_clk_pt0).1
    let pre := sw_pll_run (offset_stream_run d m1 ps) idle
    let upd := sw_pll_do_control pre (offset_sample pre d) ref_clk_pt
    m1.sw_pll.lock_status = sw_pll_lock_status_t.SW_PLL_UNLOCKED_LOW ∧
    upd.1.sw_pll.pfd_state.mclk_diff = d ∧
    upd.1.sw_pll.first_loop = 0 ∧
    upd.1.sw_pll.pi_state.error_accum = 0 ∧
    pi_total_error (pi_accumulate pre.sw_pll.pi_state d) d = 0 ∧
    (lookup_pll_frac_index pre.sw_pll
      (pi_total_error (pi_accumulate pre.sw_pll.pi_state d) d)).2
        = m.sw_pll.lut_state.nominal_lut_idx ∧
    upd.1.sswitch = pre.sswitch ++
      [(sswitch_reg_t.XS1_SSWITCH_SS_APP_PLL_FRAC_N_DIVIDER_NUM,
        0x80000000 ||| to_uint16 (m.sw_pll.lut_state.lut_table_base.getD
          m.sw_pll.lut_state.nominal_lut_idx 0))] ∧
    upd.1.sw_pll.lut_state.current_reg_val
      = to_uint16 (m.sw_pll.lut_state.lut_table_base.getD
          m.sw_pll.lut_state.nominal_lut_idx 0) ∧
    (ps.length + 1 ≤ SW_PLL_LOCK_COUNT →
      upd.1.sw_pll.lock_status = sw_pll_lock_status_t.SW_PLL_UNLOCKED_LOW ∧
      upd.2 = sw_pll_lock_status_t.SW_PLL_UNLOCKED_LOW) ∧
    (SW_PLL_LOCK_COUNT + 1 ≤ ps.length + 1 →
      upd.1.sw_pll.lock_status = sw_pll_lock_status_t.SW_PLL_LOCKED ∧
      upd.2 = sw_pll_lock_status_t.SW_PLL_LOCKED) := by
  intro m1 pre upd
  obtain ⟨hinv1, hcfg1, _⟩ := first_loop_period m idle0 mclk_pt0 ref_clk_pt0 hfl hlc hn32 hlen0
  have hm1 : (sw_pll_do_control (sw_pll_run m idle0) mclk_pt0 ref_clk_pt0).1 = m1 := rfl
  rw [hm1] at hinv1 hcfg1
  obtain ⟨c1, c2, _, _, _, _, c7, c8, c9, c10⟩ := id hcfg1
  obtain ⟨hinvX, hcfgX⟩ := nominal_stream_run d hd0 ps m1 0 hinv1
    (by rw [c1]; exact hn32) (by rw [c2]; exact hinc) (by rw [c7]; exact hlim)
    (by rw [c7]; exact hLmax) (by rw [c9, c10]; exact hnom) (by rw [c9]; exact hN)
    (fun q hq => by rw [c1]; exact hps q hq)
  have hupd : upd.1 = control_period d (offset_stream_run d m1 ps) idle ref_clk_pt := rfl
  have hret : upd.2 = upd.1.sw_pll.lock_status := do_control_ret _ _ _
  have hpre0 : pre = sw_pll_run (offset_stream_run d m1 ps) idle := rfl
  clear_value upd pre
  generalize offset_stream_run d m1 ps = X at hinvX hcfgX hupd hpre0
  obtain ⟨x1, x2, _, _, _, _, x7, x8, x9, x10⟩ := id hcfgX
  have hXlen : idle.length + 1 = X.sw_pll.loop_rate_count := by rw [x1, c1]; exact hlen
  have hXn32 : X.sw_pll.loop_rate_count < 4294967296 := by rw [x1, c1]; exact hn32
  obtain ⟨hinv', _, hdiff, hte, hcrv, hlog⟩ := nominal_period_step d hd0 X idle ref_clk_pt
    (0 + ps.length) hinvX hXlen hXn32 (by rw [x2, c2]; exact hinc)
    (by rw [x7, c7]; exact hlim) (by rw [x7, c7]; exact hLmax)
    (by rw [x9, x10, c9, c10]; exact hnom) (by rw [x9, c9]; exact hN)
  have hpre : pre = { X with sw_pll := { X.sw_pll with loop_counter := idle.length } } :=
    hpre0.trans (sw_pll_run_no_update X idle hinvX.1 (by omega) hXn32)
  have hprepi : pre.sw_pll.pi_state = X.sw_pll.pi_state := by rw [hpre]
  have hprelog : pre.sswitch = X.sswitch := by rw [hpre]
  have hprelut : pre.sw_pll.lut_state = X.sw_pll.lut_state := by rw [hpre]
  rw [hret, hupd, hprepi, hprelog]
  obtain ⟨i1, i2, i3, i4, i5⟩ := hinv'
  simp only [SW_PLL_LOCK_COUNT] at i4 i5 ⊢
  rw [x8, x10, c8, c10] at hcrv hlog
  refine ⟨hinv1.2.2.2.2, hdiff, i2, i3, hte, ?_, hlog, hcrv, ?_, ?_⟩
  · generalize pi_total_error (pi_accumulate X.sw_pll.pi_state d) d = c at hte
    have := (lookup_nominal pre.sw_pll c hte (by rw [hprelut, x9, x10, c9, c10]; exact hnom)
      (by rw [hprelut, x9, c9]; exact hN)).1
    rw [this, hprelut, x10, c10]
  · intro hk
    rw [i5, if_pos (by omega)]
    exact ⟨rfl, rfl⟩
  · intro hk
    rw [i5, if_neg (by omega)]
    exact ⟨rfl, rfl⟩

/-- C19. A perfectly nominal stream locks.  Take a state with `first_loop` set,
`loop_counter = 0`, reference compensation disabled, `0 ≤ i_windup_limit`, the nominal index
inside the table, and any gains (the field values being 32-bit and the table at most `2^31`
entries long).  After the first-loop update the status is UnlockedLow.  If the feedback
sample of every later control update equals `(mclk_pt_last + mclk_expected_pt_inc) mod 65536`,
then the `k`-th such update (`k = ps.length + 1`) has phase error 0, does not signal resync,
keeps `error_accum` at 0, computes the control signal 0, selects index `nominal_lut_idx`,
stores and writes `table[nominal_lut_idx]`, and leaves (and returns) the status UnlockedLow
for `k ≤ SW_PLL_LOCK_COUNT` and Locked for `k ≥ SW_PLL_LOCK_COUNT + 1`. -/
theorem nominal_stream_locks (m : sw_pll_machine)
    (idle0 : List (Nat × Nat)) (mclk_pt0 ref_clk_pt0 : Nat)
    (ps : List (List (Nat × Nat) × Nat)) (idle : List (Nat × Nat)) (ref_clk_pt : Nat)
    (hfl : m.sw_pll.first_loop = 1) (hlc : m.sw_pll.loop_counter = 0)
    (hn32 : m.sw_pll.loop_rate_count < 4294967296)
    (hinc : m.sw_pll.pfd_state.ref_clk_expected_inc = 0)
    (hlim : 0 ≤ m.sw_pll.pi_state.i_windup_limit)
    (hLmax : m.sw_pll.pi_state.i_windup_limit ≤ 2147483647)
    (hnom : m.sw_pll.lut_state.nominal_lut_idx < m.sw_pll.lut_state.num_lut_entries)
    (hN : m.sw_pll.lut_state.num_lut_entries ≤ 2147483648)
    (hlen0 : idle0.length + 1 = m.sw_pll.loop_rate_count)
    (hps : ∀ p ∈ ps, p.1.length + 1 = m.sw_pll.loop_rate_count)
    (hlen : idle.length + 1 = m.sw_pll.loop_rate_count) :
    let m1 := (sw_pll_do_control (sw_pll_run m idle0) mclk_pt0 ref_clk_pt0).1
    let pre := sw_pll_run (offset_stream_run 0 m1 ps) idle
    let upd := sw_pll_do_control pre (offset_sample pre 0) ref_clk_pt
    m1.sw_pll.lock_status = sw_pll_lock_status_t.SW_PLL_UNLOCKED_LOW ∧
    upd.1.sw_pll.pfd_state.mclk_diff = 0 ∧
    upd.1.sw_pll.first_loop = 0 ∧
    upd.1.sw_pll.pi_state.error_accum = 0 ∧
    pi_total_error (pi_accumulate pre.sw_pll.pi_state 0) 0 = 0 ∧
    (lookup_pll_frac_index pre.sw_pll
      (pi_total_error (pi_accumulate pre.sw_pll.pi_state 0) 0)).2
        = m.sw_pll.lut_state.nominal_lut_idx ∧
    upd.1.sswitch = pre.sswitch ++
      [(sswitch_reg_t.XS1_SSWITCH_SS_APP_PLL_FRAC_N_DIVIDER_NUM,
        0x80000000 ||| to_uint16 (m.sw_pll.lut_state.lut_table_base.getD
          m.sw_pll.lut_state.nominal_lut_idx 0))] ∧
    upd.1.sw_pll.lut_state.current_reg_val
      = to_uint16 (m.sw_pll.lut_state.lut_table_base.getD
          m.sw_pll.lut_state.nominal_lut_idx 0) ∧
    (ps.length + 1 ≤ SW_PLL_LOCK_COUNT →
      upd.1.sw_pll.lock_status = sw_pll_lock_status_t.SW_PLL_UNLOCKED_LOW ∧
      upd.2 = sw_pll_lock_status_t.SW_PLL_UNLOCKED_LOW) ∧
    (SW_PLL_LOCK_COUNT + 1 ≤ ps.length + 1 →
      upd.1.sw_pll.lock_status = sw_pll_lock_status_t.SW_PLL_LOCKED ∧
      upd.2 = sw_pll_lock_status_t.SW_PLL_LOCKED) :=
  nominal_stream_update 0 rfl m idle0 mclk_pt0 ref_clk_pt0 ps idle ref_clk_pt
    (by rw [hfl]; exact Nat.one_ne_zero) hlc hn32 hinc hlim hLmax hnom hN hlen0 hps hlen

/-- Witness for C19 at `demo_machine_init` (`loop_rate_count = 2`, nominal index 2): the
first nominal update after the first-loop update leaves `first_loop` clear and stores the
nominal entry. -/
theorem nominal_stream_locks_witness :
    (sw_pll_do_control (sw_pll_run demo_machine_init [(0, 0)]) 500 0).1.sw_pll.lock_status
      = sw_pll_lock_status_t.SW_PLL_UNLOCKED_LOW ∧
    (sw_pll_do_control
      (sw_pll_run (offset_stream_run 0
        (sw_pll_do_control (sw_pll_run demo_machine_init [(0, 0)]) 500 0).1 []) [(7, 0)])
      (offset_sample
        (sw_pll_run (offset_stream_run 0
          (sw_pll_do_control (sw_pll_run demo_machine_init [(0, 0)]) 500 0).1 []) [(7, 0)]) 0)
      0).1.sw_pll.first_loop = 0 :=
  ⟨(nominal_stream_locks demo_machine_init [(0, 0)] 500 0 [] [(7, 0)] 0 (by decide) (by decide)
      (by decide) (by decide) (by decide) (by decide) (by decide) (by decide) (by decide)
      (by decide) (by decide)).1,
    (nominal_stream_locks demo_machine_init [(0, 0)] 500 0 [] [(7, 0)] 0 (by decide) (by decide)
      (by decide) (by decide) (by decide) (by decide) (by decide) (by decide) (by decide)
      (by decide) (by decide)).2.2.1⟩


/-! ## A stream that runs 13 counts fast -/

/-- The PI controller on the scenario gains (`Kp = 0`, `Ki = 32.0`) with error 13 and a small
non-negative accumulator `a`: the accumulator becomes `min (a + 13) L` and the control signal
is 32 times that. -/
theorem pi_fast_error (pi : sw_pll_pi_state_t) (d a : Int) (hd : d = 13)
    (hacc : pi.error_accum = a) (ha0 : 0 ≤ a) (ha : a ≤ 260)
    (hKp : pi.Kp = 0) (hKi : pi.Ki = 2097152)
    (hlim : 0 ≤ pi.i_windup_limit) (hmax : pi.i_windup_limit ≤ 2147483647) :
    pi_accumulate pi d =
      { pi with error_accum := if a + 13 ≤ pi.i_windup_limit then a + 13
                               else pi.i_windup_limit } ∧
    pi_total_error (pi_accumulate pi d) d =
      32 * (if a + 13 ≤ pi.i_windup_limit then a + 13 else pi.i_windup_limit) := by
  have h1 : pi_accumulate pi d =
      { pi with error_accum := if a + 13 ≤ pi.i_windup_limit then a + 13
                               else pi.i_windup_limit } := by
    rw [pi_accumulate_eq_clamp pi d hlim hmax (by omega) (by omega)]
    have : spec_clamp (pi.error_accum + d) (-pi.i_windup_limit) pi.i_windup_limit
        = if a + 13 ≤ pi.i_windup_limit then a + 13 else pi.i_windup_limit := by
      unfold spec_clamp
      split_ifs <;> omega
    rw [this]
  refine ⟨h1, ?_⟩
  rw [h1]
  generalize hb : (if a + 13 ≤ pi.i_windup_limit then a + 13 else pi.i_windup_limit) = b
  have hb0 : 0 ≤ b ∧ b ≤ 273 := by
    rw [← hb]
    split_ifs <;> omega
  have hte := pi_total_error_eq { pi with error_accum := b } d
    (abs_le.mpr ⟨by rw [hKp]; norm_num, by rw [hKp]; norm_num⟩)
    (abs_le.mpr ⟨by rw [hKi]; norm_num, by rw [hKi]; norm_num⟩)
    (abs_le.mpr ⟨by show -2147483648 ≤ b; omega, by show b ≤ 2147483648; omega⟩)
    (abs_le.mpr ⟨by omega, by omega⟩)
  rw [hte]
  have hq : spec_control_signal pi.Kp pi.Ki d b = 32 * b := by
    unfold spec_control_signal
    rw [hKp, hKi]
    simp only [SW_PLL_NUM_FRAC_BITS]
    norm_num
    omega
  show to_int32 (spec_control_signal pi.Kp pi.Ki d b) = 32 * b
  rw [hq]
  exact to_int32_of_range _ (by omega) (by omega)

/-- The selection for a non-negative control signal, with the nominal index inside a table of
at most `2^31` entries: it is clamped at index 0 (UnlockedLow) when the signal exceeds the
nominal index and is in range otherwise; the status never becomes UnlockedHigh. -/
theorem lookup_nonneg_signal (s : sw_pll_state_t) (c : Int)
    (hc0 : 0 ≤ c) (hcmax : c ≤ 2147483647)
    (hnom : s.lut_state.nominal_lut_idx < s.lut_state.num_lut_entries)
    (hN : s.lut_state.num_lut_entries ≤ 2147483648)
    (hst : s.lock_status ≠ sw_pll_lock_status_t.SW_PLL_UNLOCKED_HIGH) :
    (lookup_pll_frac s c).1.lock_status ≠ sw_pll_lock_status_t.SW_PLL_UNLOCKED_HIGH ∧
    ((s.lut_state.nominal_lut_idx : Int) < c →
      (lookup_pll_frac s c).1.lock_status = sw_pll_lock_status_t.SW_PLL_UNLOCKED_LOW ∧
      (lookup_pll_frac s c).1.lock_counter = SW_PLL_LOCK_COUNT ∧
      (lookup_pll_frac_index s c).2 = 0 ∧
      (lookup_pll_frac s c).2 = to_uint16 (s.lut_state.lut_table_base.getD 0 0) ∧
      ¬ lut_selection_in_range s c) ∧
    (c ≤ (s.lut_state.nominal_lut_idx : Int) →
      lut_selection_in_range s c ∧
      (lookup_pll_frac_index s c).2 = ((s.lut_state.nominal_lut_idx : Int) - c).toNat ∧
      (lookup_pll_frac s c).2 = to_uint16 (s.lut_state.lut_table_base.getD
        ((s.lut_state.nominal_lut_idx : Int) - c).toNat 0)) := by
  have hset : to_int32 ((s.lut_state.nominal_lut_idx : Int) - c)
      = (s.lut_state.nominal_lut_idx : Int) - c :=
    to_int32_of_range _ (by omega) (by omega)
  have hl := lookup_pll_frac_lut_state s c
  rw [lookup_pll_frac_fst] at hl
  have hval : (lookup_pll_frac s c).2
      = to_uint16 (s.lut_state.lut_table_base.getD (lookup_pll_frac_index s c).2 0) := by
    simp only [lookup_pll_frac]
    rw [hl]
  have hidx := lookup_pll_frac_index_value s c
  rw [hset] at hidx
  have hstep := lookup_pll_frac_lock_step s c
  unfold lut_selection_in_range at hstep ⊢
  rw [hset] at hstep ⊢
  refine ⟨?_, ?_, ?_⟩
  · rcases hstep with ⟨hnot, _, _⟩ | ⟨_, _, _, hs⟩ | ⟨_, _, _, hs⟩
    · have hlow : (s.lut_state.nominal_lut_idx : Int) - c < 0 := by omega
      obtain ⟨hcase, _⟩ := lookup_pll_frac_index_cases s c
      rw [hset] at hcase
      rw [lookup_pll_frac_fst, hcase hlow]
      exact fun h => by cases h
    · rw [hs]
      exact hst
    · rw [hs]
      exact fun h => by cases h
  · intro hlt
    have hlow : (s.lut_state.nominal_lut_idx : Int) - c < 0 := by omega
    obtain ⟨hcase, _⟩ := lookup_pll_frac_index_cases s c
    rw [hset] at hcase
    have hi0 : (lookup_pll_frac_index s c).2 = 0 := by rw [hcase hlow]
    refine ⟨?_, ?_, hi0, ?_, ?_⟩
    · rw [lookup_pll_frac_fst, hcase hlow]
    · rw [lookup_pll_frac_fst, hcase hlow]
    · rw [hval, hi0]
    · omega
  · intro hle
    have hi : (lookup_pll_frac_index s c).2
        = ((s.lut_state.nominal_lut_idx : Int) - c).toNat := by
      rw [hidx]
      split_ifs <;> omega
    refine ⟨by omega, hi, ?_⟩
    rw [hval, hi]

theorem fast_accum_succ (j : Nat) (L : Int) :
    (if fast_accum j L + 13 ≤ L then fast_accum j L + 13 else L) = fast_accum (j + 1) L := by
  unfold fast_accum
  push_cast
  split_ifs <;> omega

theorem fast_accum_bounds (j : Nat) (L : Int) (hL : 0 ≤ L) :
    0 ≤ fast_accum j L ∧ fast_accum j L ≤ 13 * (j : Int) ∧ fast_accum j L ≤ L := by
  unfold fast_accum
  split_ifs <;> omega

/-- One period of a stream that runs `d = 13` counts fast, on the scenario gains: phase error
13, no resync, the accumulator one step further, and the LUT selector run on 32 times the
new accumulator. -/
theorem fast_period_step (d : Int) (hd : d = 13) (m : sw_pll_machine)
    (idle : List (Nat × Nat)) (ref_clk_pt : Nat)
    (j : Nat) (hj : j < 20) (hinv : fast_stream_state j m)
    (hlen : idle.length + 1 = m.sw_pll.loop_rate_count)
    (hn32 : m.sw_pll.loop_rate_count < 4294967296)
    (hinc : m.sw_pll.pfd_state.ref_clk_expected_inc = 0)
    (hmaxd : 13 ≤ m.sw_pll.pfd_state.mclk_max_diff)
    (hKp : m.sw_pll.pi_state.Kp = 0) (hKi : m.sw_pll.pi_state.Ki = 2097152)
    (hlim : 0 ≤ m.sw_pll.pi_state.i_windup_limit)
    (hLmax : m.sw_pll.pi_state.i_windup_limit ≤ 2147483647)
    (hnom : m.sw_pll.lut_state.nominal_lut_idx < m.sw_pll.lut_state.num_lut_entries)
    (hN : m.sw_pll.lut_state.num_lut_entries ≤ 2147483648) :
    fast_stream_state (j + 1) (control_period d m idle ref_clk_pt) ∧
    same_config (control_period d m idle ref_clk_pt) m ∧
    (control_period d m idle ref_clk_pt).sw_pll.pfd_state.mclk_diff = d ∧
    pi_total_error (pi_accumulate m.sw_pll.pi_state d) d
      = 32 * fast_accum (j + 1) m.sw_pll.pi_state.i_windup_limit ∧
    ((m.sw_pll.lut_state.nominal_lut_idx : Int)
        < 32 * fast_accum (j + 1) m.sw_pll.pi_state.i_windup_limit →
      (control_period d m idle ref_clk_pt).sw_pll.lock_status
        = sw_pll_lock_status_t.SW_PLL_UNLOCKED_LOW ∧
      (control_period d m idle ref_clk_pt).sw_pll.lock_counter = SW_PLL_LOCK_COUNT ∧
      (lookup_pll_frac_index m.sw_pll
        (32 * fast_accum (j + 1) m.sw_pll.pi_state.i_windup_limit)).2 = 0 ∧
      (control_period d m idle ref_clk_pt).sw_pll.lut_state.current_reg_val
        = to_uint16 (m.sw_pll.lut_state.lut_table_base.getD 0 0) ∧
      ¬ lut_selection_in_range m.sw_pll
        (32 * fast_accum (j + 1) m.sw_pll.pi_state.i_windup_limit)) ∧
    (32 * fast_accum (j + 1) m.sw_pll.pi_state.i_windup_limit
        ≤ (m.sw_pll.lut_state.nominal_lut_idx : Int) →
      lut_selection_in_range m.sw_pll
        (32 * fast_accum (j + 1) m.sw_pll.pi_state.i_windup_limit) ∧
      (control_period d m idle ref_clk_pt).sw_pll.lut_state.current_reg_val
        = to_uint16 (m.sw_pll.lut_state.lut_table_base.getD
            ((m.sw_pll.lut_state.nominal_lut_idx : Int)
              - 32 * fast_accum (j + 1) m.sw_pll.pi_state.i_windup_limit).toNat 0)) := by
  obtain ⟨hlc, hfl, hacc, hst⟩ := hinv
  obtain ⟨hb0, hb1, _⟩ := fast_accum_bounds j m.sw_pll.pi_state.i_windup_limit hlim
  obtain ⟨hpi, hte⟩ := pi_fast_error m.sw_pll.pi_state d
    (fast_accum j m.sw_pll.pi_state.i_windup_limit) hd hacc hb0 (by omega) hKp hKi hlim hLmax
  rw [fast_accum_succ j _] at hpi hte
  obtain ⟨hc0, hc1, _⟩ := fast_accum_bounds (j + 1) m.sw_pll.pi_state.i_windup_limit hlim
  have hdm : |d| ≤ (m.sw_pll.pfd_state.mclk_max_diff : Int) := by
    rw [hd]
    norm_num
    omega
  have heq := control_period_eq d m idle ref_clk_pt hlc hfl hlen hn32 hinc
    ⟨by omega, by omega⟩ hdm
  dsimp only at heq
  rw [hte] at heq
  generalize hbdef : fast_accum (j + 1) m.sw_pll.pi_state.i_windup_limit = b
    at hpi hte heq hc0 hc1 ⊢
  obtain ⟨hs1, hs2, hs3⟩ := lookup_nonneg_signal m.sw_pll (32 * b) (by omega)
    (by push_cast at hc1; omega) hnom hN hst
  refine ⟨?_, ?_, ?_, hte, ?_, ?_⟩
  all_goals
    generalize lookup_pll_frac m.sw_pll (32 * b) = sel at heq hs1 hs2 hs3
    generalize offset_sample m d = smp at heq
    rw [hpi] at heq
    rw [heq]
  · simp only [fast_stream_state]
    exact ⟨hlc, hfl, hbdef.symm, hs1⟩
  · simp only [same_config]
    exact ⟨trivial, trivial, trivial, trivial, trivial, trivial, trivial, trivial, trivial,
      trivial⟩
  · intro hlt
    obtain ⟨g1, g2, g3, g4, g5⟩ := hs2 hlt
    exact ⟨g1, g2, g3, g4, g5⟩
  · intro hle
    obtain ⟨g1, _, g3⟩ := hs3 hle
    exact ⟨g1, g3⟩

/-- Up to 20 periods of a stream that runs `d = 13` counts fast, on the scenario gains. -/
theorem fast_stream_run (d : Int) (hd : d = 13) (ps : List (List (Nat × Nat) × Nat)) :
    ∀ (m : sw_pll_machine) (j : Nat), fast_stream_state j m →
      j + ps.length ≤ 20 →
      m.sw_pll.loop_rate_count < 4294967296 →
      m.sw_pll.pfd_state.ref_clk_expected_inc = 0 →
      13 ≤ m.sw_pll.pfd_state.mclk_max_diff →
      m.sw_pll.pi_state.Kp = 0 →
      m.sw_pll.pi_state.Ki = 2097152 →
      0 ≤ m.sw_pll.pi_state.i_windup_limit →
      m.sw_pll.pi_state.i_windup_limit ≤ 2147483647 →
      m.sw_pll.lut_state.nominal_lut_idx < m.sw_pll.lut_state.num_lut_entries →
      m.sw_pll.lut_state.num_lut_entries ≤ 2147483648 →
      (∀ p ∈ ps, p.1.length + 1 = m.sw_pll.loop_rate_count) →
      fast_stream_state (j + ps.length) (offset_stream_run d m ps) ∧
      same_config (offset_stream_run d m ps) m := by
  induction ps with
  | nil =>
    intro m j hinv _ _ _ _ _ _ _ _ _ _ _
    exact ⟨hinv, same_config_refl m⟩
  | cons p ps ih =>
    intro m j hinv hj hn32 hinc hmaxd hKp hKi hlim hLmax hnom hN hlen
    simp only [List.length_cons] at hj
    obtain ⟨hinv', hcfg, _⟩ := fast_period_step d hd m p.1 p.2 j (by omega) hinv
      (hlen p (List.mem_cons_self _ _)) hn32 hinc hmaxd hKp hKi hlim hLmax hnom hN
    obtain ⟨c1, c2, _, c4, c5, c6, c7, _, c9, c10⟩ := id hcfg
    have := ih (control_period d m p.1 p.2) (j + 1) hinv' (by omega)
      (by rw [c1]; exact hn32) (by rw [c2]; exact hinc) (by rw [c4]; exact hmaxd)
      (by rw [c5]; exact hKp) (by rw [c6]; exact hKi) (by rw [c7]; exact hlim)
      (by rw [c7]; exact hLmax) (by rw [c9, c10]; exact hnom) (by rw [c9]; exact hN)
      (fun q hq => by rw [c1]; exact hlen q (List.mem_cons_of_mem _ hq))
    refine ⟨?_, same_config_trans _ _ _ this.2 hcfg⟩
    have hl : j + (p :: ps).length = j + 1 + ps.length := by
      simp only [List.length_cons]
      omega
    rw [hl]
    exact this.1

/-- The `k`-th update (`k = ps.length + 1 ≤ 20`) of a stream that runs `d = 13` counts fast,
after a first-loop update, on the scenario gains. -/
theorem fast_stream_update (d : Int) (hd : d = 13) (m : sw_pll_machine)
    (idle0 : List (Nat × Nat)) (mclk_pt0 ref_clk_pt0 : Nat)
    (ps : List (List (Nat × Nat) × Nat)) (idle : List (Nat × Nat)) (ref_clk_pt : Nat)
    (hk : ps.length + 1 ≤ 20)
    (hfl : m.sw_pll.first_loop ≠ 0) (hlc : m.sw_pll.loop_counter = 0)
    (hn32 : m.sw_pll.loop_rate_count < 4294967296)
    (hinc : m.sw_pll.pfd_state.ref_clk_expected_inc = 0)
    (hmaxd : 13 ≤ m.sw_pll.pfd_state.mclk_max_diff)
    (hKp : m.sw_pll.pi_state.Kp = 0) (hKi : m.sw_pll.pi_state.Ki = 2097152)
    (hlim : 0 ≤ m.sw_pll.pi_state.i_windup_limit)
    (hLmax : m.sw_pll.pi_state.i_windup_limit ≤ 2147483647)
    (hnom : m.sw_pll.lut_state.nominal_lut_idx < m.sw_pll.lut_state.num_lut_entries)
    (hN : m.sw_pll.lut_state.num_lut_entries ≤ 2147483648)
    (hlen0 : idle0.length + 1 = m.sw_pll.loop_rate_count)
    (hps : ∀ p ∈ ps, p.1.length + 1 = m.sw_pll.loop_rate_count)
    (hlen : idle.length + 1 = m.sw_pll.loop_rate_count) :
    let m1 := (sw_pll_do_control (sw_pll_run m idle0) mclk_pt0 ref_clk_pt0).1
    let pre := sw_pll_run (offset_stream_run d m1 ps) idle
    let upd := sw_pll_do_control pre (offset_sample pre d) ref_clk_pt
    let a := fast_accum (ps.length + 1) m.sw_pll.pi_state.i_windup_limit
    upd.1.sw_pll.first_loop = 0 ∧
    upd.1.sw_pll.pfd_state.mclk_diff = d ∧
    upd.1.sw_pll.pi_state.error_accum = a ∧
    pi_total_error (pi_accumulate pre.sw_pll.pi_state d) d = 32 * a ∧
    upd.1.sw_pll.lock_status ≠ sw_pll_lock_status_t.SW_PLL_UNLOCKED_HIGH ∧
    upd.2 ≠ sw_pll_lock_status_t.SW_PLL_UNLOCKED_HIGH ∧
    ((m.sw_pll.lut_state.nominal_lut_idx : Int) < 32 * a →
      ¬ lut_selection_in_range m.sw_pll (32 * a) ∧
      upd.1.sw_pll.lock_status = sw_pll_lock_status_t.SW_PLL_UNLOCKED_LOW ∧
      upd.2 = sw_pll_lock_status_t.SW_PLL_UNLOCKED_LOW ∧
      upd.1.sw_pll.lock_counter = SW_PLL_LOCK_COUNT ∧
      upd.1.sw_pll.lut_state.current_reg_val
        = to_uint16 (m.sw_pll.lut_state.lut_table_base.getD 0 0)) ∧
    (32 * a ≤ (m.sw_pll.lut_state.nominal_lut_idx : Int) →
      lut_selection_in_range m.sw_pll (32 * a) ∧
      upd.1.sw_pll.lut_state.current_reg_val
        = to_uint16 (m.sw_pll.lut_state.lut_table_base.getD
            ((m.sw_pll.lut_state.nominal_lut_idx : Int) - 32 * a).toNat 0)) := by
  intro m1 pre upd a
  obtain ⟨hinv1, hcfg1, _⟩ := first_loop_period m idle0 mclk_pt0 ref_clk_pt0 hfl hlc hn32 hlen0
  have hm1 : (sw_pll_do_control (sw_pll_run m idle0) mclk_pt0 ref_clk_pt0).1 = m1 := rfl
  rw [hm1] at hinv1 hcfg1
  obtain ⟨c1, c2, _, c4, c5, c6, c7, c8, c9, c10⟩ := id hcfg1
  have hfast1 : fast_stream_state 0 m1 := by
    obtain ⟨n1, n2, n3, _, n5⟩ := hinv1
    refine ⟨n1, n2, ?_, ?_⟩
    · rw [n3, c7]
      unfold fast_accum
      split_ifs <;> omega
    · rw [n5]
      simp
  obtain ⟨hinvX, hcfgX⟩ := fast_stream_run d hd ps m1 0 hfast1 (by omega)
    (by rw [c1]; exact hn32) (by rw [c2]; exact hinc) (by rw [c4]; exact hmaxd)
    (by rw [c5]; exact hKp) (by rw [c6]; exact hKi) (by rw [c7]; exact hlim)
    (by rw [c7]; exact hLmax) (by rw [c9, c10]; exact hnom) (by rw [c9]; exact hN)
    (fun q hq => by rw [c1]; exact hps q hq)
  have hupd : upd.1 = control_period d (offset_stream_run d m1 ps) idle ref_clk_pt := rfl
  have hret : upd.2 = upd.1.sw_pll.lock_status := do_control_ret _ _ _
  have hpre0 : pre = sw_pll_run (offset_stream_run d m1 ps) idle := rfl
  have ha : a = fast_accum (ps.length + 1) m.sw_pll.pi_state.i_windup_limit := rfl
  clear_value upd pre a
  generalize offset_stream_run d m1 ps = X at hinvX hcfgX hupd hpre0
  obtain ⟨x1, x2, _, x4, x5, x6, x7, x8, x9, x10⟩ := id hcfgX
  have hXlen : idle.length + 1 = X.sw_pll.loop_rate_count := by rw [x1, c1]; exact hlen
  have hXn32 : X.sw_pll.loop_rate_count < 4294967296 := by rw [x1, c1]; exact hn32
  obtain ⟨hinv', hcfgY, hdiff, hte, hlow, hin⟩ := fast_period_step d hd X idle ref_clk_pt
    (0 + ps.length) (by omega) hinvX hXlen hXn32 (by rw [x2, c2]; exact hinc)
    (by rw [x4, c4]; exact hmaxd) (by rw [x5, c5]; exact hKp) (by rw [x6, c6]; exact hKi)
    (by rw [x7, c7]; exact hlim) (by rw [x7, c7]; exact hLmax)
    (by rw [x9, x10, c9, c10]; exact hnom) (by rw [x9, c9]; exact hN)
  have hpre : pre = { X with sw_pll := { X.sw_pll with loop_counter := idle.length } } :=
    hpre0.trans (sw_pll_run_no_update X idle hinvX.1 (by omega) hXn32)
  have hprepi : pre.sw_pll.pi_state = X.sw_pll.pi_state := by rw [hpre]
  have hidx : (0 + ps.length + 1) = ps.length + 1 := by omega
  rw [hidx] at hinv' hte hlow hin
  rw [x7, c7, ← ha] at hte hlow hin
  rw [x10, c10] at hlow hin
  rw [x8, c8] at hlow hin
  have hrange : lut_selection_in_range X.sw_pll (32 * a)
      ↔ lut_selection_in_range m.sw_pll (32 * a) := by
    unfold lut_selection_in_range
    rw [x9, x10, c9, c10]
  rw [hrange] at hlow hin
  rw [hret, hupd, hprepi]
  obtain ⟨i1, i2, i3, i4⟩ := hinv'
  rw [hcfgY.2.2.2.2.2.2.1, x7, c7, ← ha] at i3
  refine ⟨i2, hdiff, i3, hte, i4, i4, ?_, ?_⟩
  · intro hlt
    obtain ⟨g1, g2, _, g4, g5⟩ := hlow hlt
    exact ⟨g5, g1, g1, g2, g4⟩
  · intro hle
    exact hin hle


/-- The fields that `sw_pll_init` sets without arithmetic. -/
theorem sw_pll_init_start
    (sw_pll_reset : sw_pll_state_t → Int → Int → Nat → sw_pll_state_t)
    (m : sw_pll_machine) (Kp Ki : Int) (loop_rate_count pll_ratio ref_clk_expected_inc : Nat)
    (lut_table_base : List Int)
    (num_lut_entries app_pll_ctl_reg_val app_pll_div_reg_val nominal_lut_idx ppm_range : Nat) :
    let mi := sw_pll_init sw_pll_reset m Kp Ki loop_rate_count pll_ratio ref_clk_expected_inc
      lut_table_base num_lut_entries app_pll_ctl_reg_val app_pll_div_reg_val nominal_lut_idx
      ppm_range
    mi.sw_pll.first_loop = 1 ∧
    mi.sw_pll.loop_counter = 0 ∧
    mi.sw_pll.lut_state.num_lut_entries = num_lut_entries ∧
    mi.sw_pll.lut_state.nominal_lut_idx = nominal_lut_idx ∧
    mi.sw_pll.lut_state.lut_table_base = lut_table_base ∧
    mi.sw_pll.pi_state = (sw_pll_reset m.sw_pll Kp Ki num_lut_entries).pi_state :=
  ⟨rfl, rfl, rfl, rfl, rfl, rfl⟩

/-- The scenario configuration (`loop_rate_count = 512`, `pll_ratio = 512`, no reference
compensation, `ppm_range = 150`) as `sw_pll_init` leaves it: resync threshold 78. -/
theorem fast_scenario_config
    (sw_pll_reset : sw_pll_state_t → Int → Int → Nat → sw_pll_state_t)
    (m0 : sw_pll_machine) (Kp Ki : Int) (lut_table_base : List Int)
    (num_lut_entries app_pll_ctl_reg_val app_pll_div_reg_val nominal_lut_idx : Nat)
    (m : sw_pll_machine)
    (hm : m = sw_pll_init sw_pll_reset m0 Kp Ki 512 512 0 lut_table_base num_lut_entries
      app_pll_ctl_reg_val app_pll_div_reg_val nominal_lut_idx 150) :
    m.sw_pll.first_loop ≠ 0 ∧
    m.sw_pll.loop_counter = 0 ∧
    m.sw_pll.loop_rate_count = 512 ∧
    m.sw_pll.pfd_state.ref_clk_expected_inc = 0 ∧
    m.sw_pll.pfd_state.mclk_expected_pt_inc = 262144 ∧
    m.sw_pll.pfd_state.mclk_max_diff = 78 ∧
    m.sw_pll.lut_state.num_lut_entries = num_lut_entries ∧
    m.sw_pll.lut_state.nominal_lut_idx = nominal_lut_idx ∧
    m.sw_pll.lut_state.lut_table_base = lut_table_base := by
  obtain ⟨s1, s2, s3, s4, s5, _⟩ := sw_pll_init_start sw_pll_reset m0 Kp Ki 512 512 0
    lut_table_base num_lut_entries app_pll_ctl_reg_val app_pll_div_reg_val nominal_lut_idx 150
  obtain ⟨h1, h2, h3, h4⟩ := sw_pll_init_config sw_pll_reset m0 Kp Ki 512 512 0
    lut_table_base num_lut_entries app_pll_ctl_reg_val app_pll_div_reg_val nominal_lut_idx 150
  rw [← hm] at s1 s2 s3 s4 s5 h1 h2 h3 h4
  rw [mclk_max_diff_exact 150 512 512 (by decide)] at h4
  refine ⟨?_, s2, h1, ?_, ?_, ?_, s3, s4, s5⟩
  · rw [s1]
    exact Nat.one_ne_zero
  · rw [h2]
    decide
  · rw [h3]
    decide
  · rw [h4]


/-- C17 fails as stated on `fast_demo_init` (windup limit 100, four-entry table, nominal
index 2): the 20th update of the stream that runs 13 counts fast does not signal resync, its
control signal is 3200, its selection is out of range and clamped at index 0 (the stored
value is `table[0] = 10`), and the status it leaves and returns is UnlockedLow, not
UnlockedHigh. -/
theorem fast_stream_counterexample :
    fast_demo_update.1.sw_pll.first_loop = 0 ∧
    fast_demo_update.1.sw_pll.pfd_state.mclk_diff = 13 ∧
    pi_total_error (pi_accumulate fast_demo_pre.sw_pll.pi_state 13) 13 = 3200 ∧
    ¬ lut_selection_in_range fast_demo_init.sw_pll 3200 ∧
    fast_demo_update.1.sw_pll.lut_state.current_reg_val = 10 ∧
    fast_demo_update.1.sw_pll.lock_status = sw_pll_lock_status_t.SW_PLL_UNLOCKED_LOW ∧
    fast_demo_update.2 = sw_pll_lock_status_t.SW_PLL_UNLOCKED_LOW ∧
    fast_demo_update.2 ≠ sw_pll_lock_status_t.SW_PLL_UNLOCKED_HIGH := by
  unfold fast_demo_update fast_demo_pre
  have hlen : fast_demo_idle.length + 1 = fast_demo_init.sw_pll.loop_rate_count := by
    unfold fast_demo_idle
    rw [List.length_replicate]
    rfl
  have h := fast_stream_update 13 rfl fast_demo_init fast_demo_idle 0 0
    (List.replicate 19 (fast_demo_idle, 0)) fast_demo_idle 0
    (by rw [List.length_replicate]) (by decide) (by decide) (by decide) (by decide) (by decide)
    (by decide) (by decide) (by decide) (by decide) (by decide) (by decide) hlen
    (fun p hp => by rw [List.eq_of_mem_replicate hp]; exact hlen) hlen
  dsimp only at h
  have hL : fast_demo_init.sw_pll.pi_state.i_windup_limit = 100 := rfl
  have hn : fast_demo_init.sw_pll.lut_state.nominal_lut_idx = 2 := rfl
  have ht : fast_demo_init.sw_pll.lut_state.lut_table_base = [10, 20, 30, 40] := rfl
  have ha : fast_accum ((List.replicate 19 (fast_demo_idle, 0)).length + 1) 100 = 100 := by
    rw [List.length_replicate]
    decide
  have he : (32 : Int) * 100 = 3200 := by norm_num
  have hv : to_uint16 (([10, 20, 30, 40] : List Int).getD 0 0) = 10 := by decide
  rw [hL, hn, ht, ha, he, hv] at h
  obtain ⟨h1, h2, _, h4, _, h6, h7, _⟩ := h
  obtain ⟨g1, g2, g3, _, g5⟩ := h7 (by norm_num)
  exact ⟨h1, h2, h4, g1, g5, g2, g3, h6⟩

/-- C17, amended. The fast-feedback scenario saturates low, not high.  Let `m` be the machine
left by `sw_pll_init` with `loop_rate_count = 512`, `pll_ratio = 512`, `Kp = 0`,
`Ki = 32 << 16`, `ppm_range = 150` and reference compensation disabled, the reset having
stored these gains and a windup limit `0 ≤ L ≤ INT32_MAX`, and the nominal index being inside
a table of at most `2^31` entries.  After the first-loop update, let the feedback sample of
every control update be 13 counts ahead of `mclk_pt_last + 262144`.  Then the `k`-th such
update, for every `k = ps.length + 1 ≤ 20`, does not signal resync (`first_loop` stays 0 and
the phase error is 13), leaves the accumulator at `a = min (13 * k) L`, computes the control
signal `32 * a`, and never leaves or returns UnlockedHigh: when `nominal_lut_idx < 32 * a` the
selection is out of range, clamped at index 0, with status UnlockedLow and the countdown
reset; when `32 * a ≤ nominal_lut_idx` the selection is in range at index
`nominal_lut_idx - 32 * a`. -/
theorem fast_stream_saturates_low
    (sw_pll_reset : sw_pll_state_t → Int → Int → Nat → sw_pll_state_t)
    (m0 : sw_pll_machine) (lut_table_base : List Int)
    (num_lut_entries app_pll_ctl_reg_val app_pll_div_reg_val nominal_lut_idx : Nat)
    (idle0 : List (Nat × Nat)) (mclk_pt0 ref_clk_pt0 : Nat)
    (ps : List (List (Nat × Nat) × Nat)) (idle : List (Nat × Nat)) (ref_clk_pt : Nat)
    (hk : ps.length + 1 ≤ 20)
    (hnom : nominal_lut_idx < num_lut_entries) (hN : num_lut_entries ≤ 2147483648)
    (hlen0 : idle0.length + 1 = 512)
    (hps : ∀ p ∈ ps, p.1.length + 1 = 512)
    (hlen : idle.length + 1 = 512) :
    let m := sw_pll_init sw_pll_reset m0 0 2097152 512 512 0 lut_table_base num_lut_entries
      app_pll_ctl_reg_val app_pll_div_reg_val nominal_lut_idx 150
    m.sw_pll.pi_state.Kp = 0 →
    m.sw_pll.pi_state.Ki = 2097152 →
    0 ≤ m.sw_pll.pi_state.i_windup_limit →
    m.sw_pll.pi_state.i_windup_limit ≤ 2147483647 →
    let m1 := (sw_pll_do_control (sw_pll_run m idle0) mclk_pt0 ref_clk_pt0).1
    let pre := sw_pll_run (offset_stream_run 13 m1 ps) idle
    let upd := sw_pll_do_control pre (offset_sample pre 13) ref_clk_pt
    let a := fast_accum (ps.length + 1) m.sw_pll.pi_state.i_windup_limit
    m.sw_pll.pfd_state.mclk_expected_pt_inc = 262144 ∧
    upd.1.sw_pll.first_loop = 0 ∧
    upd.1.sw_pll.pfd_state.mclk_diff = 13 ∧
    upd.1.sw_pll.pi_state.error_accum = a ∧
    pi_total_error (pi_accumulate pre.sw_pll.pi_state 13) 13 = 32 * a ∧
    upd.1.sw_pll.lock_status ≠ sw_pll_lock_status_t.SW_PLL_UNLOCKED_HIGH ∧
    upd.2 ≠ sw_pll_lock_status_t.SW_PLL_UNLOCKED_HIGH ∧
    ((m.sw_pll.lut_state.nominal_lut_idx : Int) < 32 * a →
      ¬ lut_selection_in_range m.sw_pll (32 * a) ∧
      upd.1.sw_pll.lock_status = sw_pll_lock_status_t.SW_PLL_UNLOCKED_LOW ∧
      upd.2 = sw_pll_lock_status_t.SW_PLL_UNLOCKED_LOW ∧
      upd.1.sw_pll.lock_counter = SW_PLL_LOCK_COUNT ∧
      upd.1.sw_pll.lut_state.current_reg_val
        = to_uint16 (m.sw_pll.lut_state.lut_table_base.getD 0 0)) ∧
    (32 * a ≤ (m.sw_pll.lut_state.nominal_lut_idx : Int) →
      lut_selection_in_range m.sw_pll (32 * a) ∧
      upd.1.sw_pll.lut_state.current_reg_val
        = to_uint16 (m.sw_pll.lut_state.lut_table_base.getD
            ((m.sw_pll.lut_state.nominal_lut_idx : Int) - 32 * a).toNat 0)) := by
  intro m hKp hKi hlim hLmax
  obtain ⟨f1, f2, f3, f4, f5, f6, f7, f8, _⟩ := fast_scenario_config sw_pll_reset m0 0 2097152
    lut_table_base num_lut_entries app_pll_ctl_reg_val app_pll_div_reg_val nominal_lut_idx m rfl
  clear_value m
  exact ⟨f5, fast_stream_update 13 rfl m idle0 mclk_pt0 ref_clk_pt0 ps idle ref_clk_pt hk
    f1 f2 (by rw [f3]; decide) f4 (by rw [f6]; decide) hKp hKi hlim hLmax
    (by rw [f7, f8]; exact hnom) (by rw [f7]; exact hN) (by rw [f3]; exact hlen0)
    (fun p hp => by rw [f3]; exact hps p hp) (by rw [f3]; exact hlen)⟩

/-- Witness for C17 (amended) with windup limit 1 and a 64-entry table of nominal index 40:
the first fast update after the first-loop update has control signal 32, is in range and
stores `table[8]`. -/
theorem fast_stream_saturates_low_witness :
    let m := sw_pll_init demo_sw_pll_reset_tight demo_machine 0 2097152 512 512 0
      (List.replicate 64 7) 64 0 0 40 150
    let m1 := (sw_pll_do_control (sw_pll_run m fast_demo_idle) 0 0).1
    let pre := sw_pll_run (offset_stream_run 13 m1 []) fast_demo_idle
    let upd := sw_pll_do_control pre (offset_sample pre 13) 0
    upd.1.sw_pll.first_loop = 0 ∧
    upd.1.sw_pll.pfd_state.mclk_diff = 13 ∧
    upd.2 ≠ sw_pll_lock_status_t.SW_PLL_UNLOCKED_HIGH := by
  have hlen : fast_demo_idle.length + 1 = 512 := by
    unfold fast_demo_idle
    rw [List.length_replicate]
  have h := fast_stream_saturates_low demo_sw_pll_reset_tight demo_machine (List.replicate 64 7)
    64 0 0 40 fast_demo_idle 0 0 [] fast_demo_idle 0 (by decide) (by decide) (by decide)
    hlen (fun p hp => absurd hp (List.not_mem_nil p)) hlen rfl rfl (by decide) (by decide)
  dsimp only at h ⊢
  exact ⟨h.2.1, h.2.2.1, h.2.2.2.2.2.2.1⟩


/-! ## The reciprocal multiply-and-shift -/

theorem pre_div_pow : 2 ^ SW_PLL_PFD_PRE_DIV_BITS = 137438953472 := by decide

theorem to_uint64_of_lt (n : Nat) (h : n < 18446744073709551616) : to_uint64 (n : Int) = n := by
  unfold to_uint64
  omega

theorem to_uint32_of_lt (n : Nat) (h : n < 4294967296) : to_uint32 (n : Int) = n := by
  unfold to_uint32
  omega

/-- The arithmetic of the reciprocal: with `num = 2^37 / R + 1` and `δ = R * num - 2^37`,
`0 < δ ≤ R`, and `X * num >> 37` is `X / R` plus an excess of at most `X / 2^37 + 1`. -/
theorem reciprocal_core (R X : Nat) (hR : 0 < R) :
    0 < R * (137438953472 / R + 1) - 137438953472 ∧
    R * (137438953472 / R + 1) - 137438953472 ≤ R ∧
    R * (137438953472 / R + 1)
      = 137438953472 + (R * (137438953472 / R + 1) - 137438953472) ∧
    X * (137438953472 / R + 1) / 137438953472
      = X / R + ((X / R) * (R * (137438953472 / R + 1) - 137438953472)
          + (X % R) * (137438953472 / R + 1)) / 137438953472 ∧
    ((X / R) * (R * (137438953472 / R + 1) - 137438953472)
        + (X % R) * (137438953472 / R + 1)) / 137438953472
      ≤ X / 137438953472 + 1 := by
  have hdm : R * (137438953472 / R) + 137438953472 % R = 137438953472 :=
    Nat.div_add_mod 137438953472 R
  have hmod : 137438953472 % R < R := Nat.mod_lt _ hR
  have hmul : R * (137438953472 / R + 1) = R * (137438953472 / R) + R := by ring
  generalize hnum : 137438953472 / R + 1 = num at hmul ⊢
  generalize hq0 : R * (137438953472 / R) = A at hdm hmul
  generalize hδ : R * num - 137438953472 = δ
  have hRn : R * num = 137438953472 + δ := by omega
  have hδ0 : 0 < δ := by omega
  have hδR : δ ≤ R := by omega
  have hX : R * (X / R) + X % R = X := Nat.div_add_mod X R
  have hs : X % R < R := Nat.mod_lt _ hR
  generalize X / R = q at hX ⊢
  generalize X % R = s at hX hs ⊢
  have hprod : X * num = q * 137438953472 + (q * δ + s * num) := by
    have : X * num = q * (R * num) + s * num := by rw [← hX]; ring
    rw [this, hRn]
    ring
  refine ⟨hδ0, hδR, hRn, ?_, ?_⟩
  · rw [hprod, add_comm (q * 137438953472), Nat.add_mul_div_right _ _ (by norm_num), add_comm]
  · have hXP : X < (X / 137438953472 + 1) * 137438953472 := by
      have := Nat.div_add_mod X 137438953472
      have := Nat.mod_lt X (show 0 < 137438953472 by norm_num)
      omega
    have hkey : R * (q * δ + s * num) < R * ((X / 137438953472 + 2) * 137438953472) := by
      have e1 : R * (q * δ + s * num) = δ * X + s * 137438953472 := by
        have : R * (q * δ + s * num) = δ * (R * q) + s * (R * num) := by ring
        rw [this, hRn, ← hX]
        ring
      rw [e1]
      have h1 : δ * X ≤ R * X := Nat.mul_le_mul_right X hδR
      have h2 : s * 137438953472 < R * 137438953472 :=
        Nat.mul_lt_mul_of_pos_right hs (by norm_num)
      have h3 : R * X < R * ((X / 137438953472 + 1) * 137438953472) :=
        Nat.mul_lt_mul_of_pos_left hXP hR
      have e2 : R * ((X / 137438953472 + 2) * 137438953472)
          = R * ((X / 137438953472 + 1) * 137438953472) + R * 137438953472 := by ring
      rw [e2]
      omega
    have hlt := Nat.lt_of_mul_lt_mul_left hkey
    have : (q * δ + s * num) / 137438953472 < X / 137438953472 + 2 :=
      (Nat.div_lt_iff_lt_mul (by norm_num)).mpr hlt
    omega

/-- The reciprocal that `sw_pll_init` stores when reference compensation is enabled
(line 115 of sw_pll.c). -/
theorem sw_pll_init_numerator
    (sw_pll_reset : sw_pll_state_t → Int → Int → Nat → sw_pll_state_t)
    (m : sw_pll_machine) (Kp Ki : Int) (loop_rate_count pll_ratio ref_clk_expected_inc : Nat)
    (lut_table_base : List Int)
    (num_lut_entries app_pll_ctl_reg_val app_pll_div_reg_val nominal_lut_idx ppm_range : Nat) :
    let pfd := (sw_pll_init sw_pll_reset m Kp Ki loop_rate_count pll_ratio ref_clk_expected_inc
      lut_table_base num_lut_entries app_pll_ctl_reg_val app_pll_div_reg_val nominal_lut_idx
      ppm_range).sw_pll.pfd_state
    pfd.ref_clk_expected_inc < 4294967296 ∧
    (pfd.ref_clk_expected_inc ≠ 0 →
      pfd.ref_clk_scaling_numerator = 137438953472 / pfd.ref_clk_expected_inc + 1) := by
  intro pfd
  have hR : pfd.ref_clk_expected_inc
      = to_uint32 ((ref_clk_expected_inc : Int) * (loop_rate_count : Int)) := rfl
  have hnum : pfd.ref_clk_scaling_numerator
      = if pfd.ref_clk_expected_inc ≠ 0 then
          to_uint64 ((2 ^ SW_PLL_PFD_PRE_DIV_BITS / pfd.ref_clk_expected_inc + 1 : Nat) : Int)
        else (sw_pll_reset m.sw_pll Kp Ki num_lut_entries).pfd_state.ref_clk_scaling_numerator :=
    rfl
  clear_value pfd
  refine ⟨by rw [hR]; exact to_uint32_lt _, ?_⟩
  intro h0
  rw [hnum, if_pos h0, pre_div_pow]
  apply to_uint64_of_lt
  have := Nat.div_le_self 137438953472 pfd.ref_clk_expected_inc
  omega

/-- The compensated increment when nothing wraps: the 64-bit product shifted right by 37. -/
theorem compensated_inc_no_wrap (pfd : sw_pll_pfd_state_t) (r : Int) (X : Nat)
    (hX : (X : Int) = (pfd.mclk_expected_pt_inc : Int) * ((pfd.ref_clk_expected_inc : Int) + r))
    (hR32 : pfd.ref_clk_expected_inc < 4294967296) (hr : r ≤ 32767)
    (h0 : 0 ≤ (pfd.ref_clk_expected_inc : Int) + r)
    (hX64 : X < 18446744073709551616)
    (hwrap : X * pfd.ref_clk_scaling_numerator < 18446744073709551616)
    (hres : X * pfd.ref_clk_scaling_numerator / 137438953472 < 4294967296) :
    compensated_mclk_expected_pt_inc pfd r
      = X * pfd.ref_clk_scaling_numerator / 137438953472 := by
  unfold compensated_mclk_expected_pt_inc
  have e1 : ((to_uint64 ((pfd.ref_clk_expected_inc : Int) + r) : Nat) : Int)
      = (pfd.ref_clk_expected_inc : Int) + r := by
    unfold to_uint64
    omega
  rw [e1, ← hX, to_uint64_of_lt X hX64]
  have e2 : (X : Int) * (pfd.ref_clk_scaling_numerator : Int)
      = ((X * pfd.ref_clk_scaling_numerator : Nat) : Int) := by push_cast; rfl
  rw [e2, to_uint64_of_lt _ hwrap, pre_div_pow, to_uint32_of_lt _ hres]


/-- C14 fails as stated.  On `recip_demo_init` (`R = 1066496`, `M = 262144`) the reference
differences -1 and 2 give the compensated increments 262144 and 262145 where the divide gives
262143 and 262144; on `recip_demo_init_pow2` (`R = 2^17`, `M = 2^20`) the reference difference
0 gives `M + 1`. -/
theorem reciprocal_multiply_counterexample :
    recip_demo_init.sw_pll.pfd_state.ref_clk_scaling_numerator = 2 ^ 37 / 1066496 + 1 ∧
    compensated_mclk_expected_pt_inc recip_demo_init.sw_pll.pfd_state (-1) = 262144 ∧
    spec_compensated_inc recip_demo_init.sw_pll.pfd_state (-1) = 262143 ∧
    compensated_mclk_expected_pt_inc recip_demo_init.sw_pll.pfd_state 2 = 262145 ∧
    spec_compensated_inc recip_demo_init.sw_pll.pfd_state 2 = 262144 ∧
    recip_demo_init_pow2.sw_pll.pfd_state.mclk_expected_pt_inc = 1048576 ∧
    compensated_mclk_expected_pt_inc recip_demo_init_pow2.sw_pll.pfd_state 0 = 1048577 ∧
    spec_compensated_inc recip_demo_init_pow2.sw_pll.pfd_state 0 = 1048576 := by
  decide

/-- The compensated increment against the divide it replaces, on any PFD state whose
reciprocal is `2^37 / R + 1`, when nothing wraps. -/
theorem compensated_inc_vs_divide (pfd : sw_pll_pfd_state_t) (r : Int) (X δ : Nat)
    (hXdef : X = pfd.mclk_expected_pt_inc * ((pfd.ref_clk_expected_inc : Int) + r).toNat)
    (hδdef : δ = pfd.ref_clk_expected_inc * pfd.ref_clk_scaling_numerator - 137438953472)
    (hR0 : pfd.ref_clk_expected_inc ≠ 0) (hR32 : pfd.ref_clk_expected_inc < 4294967296)
    (hnum : pfd.ref_clk_scaling_numerator = 137438953472 / pfd.ref_clk_expected_inc + 1)
    (hr : r ≤ 32767) (h0 : 0 ≤ (pfd.ref_clk_expected_inc : Int) + r)
    (hwrap : X * pfd.ref_clk_scaling_numerator < 18446744073709551616)
    (hres : X * pfd.ref_clk_scaling_numerator / 137438953472 < 4294967296) :
    0 < δ ∧ δ ≤ pfd.ref_clk_expected_inc ∧
    (compensated_mclk_expected_pt_inc pfd r : Int)
      = spec_compensated_inc pfd r
        + (((X / pfd.ref_clk_expected_inc) * δ
            + (X % pfd.ref_clk_expected_inc) * pfd.ref_clk_scaling_numerator)
              / 137438953472 : Nat) ∧
    ((X / pfd.ref_clk_expected_inc) * δ
        + (X % pfd.ref_clk_expected_inc) * pfd.ref_clk_scaling_numerator) / 137438953472
      ≤ X / 137438953472 + 1 ∧
    ((compensated_mclk_expected_pt_inc pfd r : Int) = spec_compensated_inc pfd r
      ↔ (X / pfd.ref_clk_expected_inc) * δ
          + (X % pfd.ref_clk_expected_inc) * pfd.ref_clk_scaling_numerator < 137438953472) ∧
    (r = 0 → compensated_mclk_expected_pt_inc pfd r
      = pfd.mclk_expected_pt_inc + pfd.mclk_expected_pt_inc * δ / 137438953472) := by
  have hRpos : 0 < pfd.ref_clk_expected_inc := Nat.pos_of_ne_zero hR0
  have hXint : (X : Int)
      = (pfd.mclk_expected_pt_inc : Int) * ((pfd.ref_clk_expected_inc : Int) + r) := by
    rw [hXdef]
    push_cast
    rw [Int.toNat_of_nonneg h0]
  obtain ⟨c1, c2, _, c4, c5⟩ := reciprocal_core pfd.ref_clk_expected_inc X hRpos
  rw [← hnum, ← hδdef] at c1 c2 c4 c5
  have hnum1 : 1 ≤ pfd.ref_clk_scaling_numerator := by
    rw [hnum]
    exact Nat.le_add_left 1 _
  have hX64 : X < 18446744073709551616 :=
    lt_of_le_of_lt (Nat.le_mul_of_pos_right X hnum1) hwrap
  have hcomp := compensated_inc_no_wrap pfd r X hXint hR32 hr h0 hX64 hwrap hres
  have hspec : spec_compensated_inc pfd r = ((X / pfd.ref_clk_expected_inc : Nat) : Int) := by
    unfold spec_compensated_inc
    rw [← hXint]
    norm_cast
  rw [hcomp, hspec, c4]
  generalize hedef : ((X / pfd.ref_clk_expected_inc) * δ
    + (X % pfd.ref_clk_expected_inc) * pfd.ref_clk_scaling_numerator) = e at c5 ⊢
  refine ⟨c1, c2, by push_cast; rfl, c5, ?_, ?_⟩
  · constructor
    · intro h
      have h2 : e / 137438953472 = 0 := by
        have : (((X / pfd.ref_clk_expected_inc + e / 137438953472 : Nat)) : Int)
            = ((X / pfd.ref_clk_expected_inc : Nat) : Int) := h
        omega
      exact (Nat.div_eq_zero_iff (by norm_num)).mp h2
    · intro h
      rw [Nat.div_eq_of_lt h]
      rfl
  · intro hr0
    have hXR : X = pfd.mclk_expected_pt_inc * pfd.ref_clk_expected_inc := by
      rw [hXdef, hr0]
      simp
    have hq : X / pfd.ref_clk_expected_inc = pfd.mclk_expected_pt_inc := by
      rw [hXR]
      exact Nat.mul_div_cancel _ hRpos
    have hs : X % pfd.ref_clk_expected_inc = 0 := by
      rw [hXR]
      exact Nat.mul_mod_left _ _
    rw [← hedef, hq, hs]
    simp

/-- C14, amended. The reciprocal multiply-and-shift approximates the divide from above.  For
every PFD state set up by `sw_pll_init` with non-zero `R = ref_clk_expected_inc` and
`M = mclk_expected_pt_inc`, the reciprocal is `num = 2^37 / R + 1`, and with
`δ = R * num - 2^37` (so `0 < δ ≤ R`): for every reference difference `r` in
`[-32768, 32767]` with `0 ≤ R + r`, whose product `X * num`, `X = M * (R + r)`, is below
`2^64` and whose shifted product is below `2^32`, the compensated increment is
`floor(X / R) + floor(((X / R) * δ + (X mod R) * num) / 2^37)`; the excess over the divide is
at most `X / 2^37 + 1`, and is zero exactly when `(X / R) * δ + (X mod R) * num < 2^37`.  At
`r = 0` the compensated increment is `M + floor(M * δ / 2^37)`. -/
theorem reciprocal_multiply_approximates_divide
    (sw_pll_reset : sw_pll_state_t → Int → Int → Nat → sw_pll_state_t)
    (m : sw_pll_machine) (Kp Ki : Int) (loop_rate_count pll_ratio ref_clk_expected_inc : Nat)
    (lut_table_base : List Int)
    (num_lut_entries app_pll_ctl_reg_val app_pll_div_reg_val nominal_lut_idx ppm_range : Nat)
    (r : Int) :
    let pfd := (sw_pll_init sw_pll_reset m Kp Ki loop_rate_count pll_ratio ref_clk_expected_inc
      lut_table_base num_lut_entries app_pll_ctl_reg_val app_pll_div_reg_val nominal_lut_idx
      ppm_range).sw_pll.pfd_state
    let X := pfd.mclk_expected_pt_inc * ((pfd.ref_clk_expected_inc : Int) + r).toNat
    let δ := pfd.ref_clk_expected_inc * pfd.ref_clk_scaling_numerator - 137438953472
    pfd.ref_clk_expected_inc ≠ 0 →
    -32768 ≤ r → r ≤ 32767 →
    0 ≤ (pfd.ref_clk_expected_inc : Int) + r →
    X * pfd.ref_clk_scaling_numerator < 18446744073709551616 →
    X * pfd.ref_clk_scaling_numerator / 137438953472 < 4294967296 →
    2 ^ SW_PLL_PFD_PRE_DIV_BITS = 137438953472 ∧
    pfd.ref_clk_scaling_numerator = 137438953472 / pfd.ref_clk_expected_inc + 1 ∧
    0 < δ ∧ δ ≤ pfd.ref_clk_expected_inc ∧
    (compensated_mclk_expected_pt_inc pfd r : Int)
      = spec_compensated_inc pfd r
        + (((X / pfd.ref_clk_expected_inc) * δ
            + (X % pfd.ref_clk_expected_inc) * pfd.ref_clk_scaling_numerator)
              / 137438953472 : Nat) ∧
    ((X / pfd.ref_clk_expected_inc) * δ
        + (X % pfd.ref_clk_expected_inc) * pfd.ref_clk_scaling_numerator) / 137438953472
      ≤ X / 137438953472 + 1 ∧
    ((compensated_mclk_expected_pt_inc pfd r : Int) = spec_compensated_inc pfd r
      ↔ (X / pfd.ref_clk_expected_inc) * δ
          + (X % pfd.ref_clk_expected_inc) * pfd.ref_clk_scaling_numerator < 137438953472) ∧
    (r = 0 → compensated_mclk_expected_pt_inc pfd r
      = pfd.mclk_expected_pt_inc + pfd.mclk_expected_pt_inc * δ / 137438953472) := by
  intro pfd X δ hR0 _ hr h0 hwrap hres
  obtain ⟨hR32, hn⟩ := sw_pll_init_numerator sw_pll_reset m Kp Ki loop_rate_count pll_ratio
    ref_clk_expected_inc lut_table_base num_lut_entries app_pll_ctl_reg_val app_pll_div_reg_val
    nominal_lut_idx ppm_range
  exact ⟨pre_div_pow, hn hR0,
    compensated_inc_vs_divide pfd r X δ rfl rfl hR0 hR32 (hn hR0) hr h0 hwrap hres⟩

/-- Witness for C14 (amended) on `recip_demo_init` (`R = 1066496`, `M = 262144`,
`num = 128870`): at reference difference 1 the excess term is zero and the compensated
increment equals the divide. -/
theorem reciprocal_multiply_approximates_divide_witness :
    recip_demo_init.sw_pll.pfd_state.ref_clk_scaling_numerator = 137438953472 / 1066496 + 1 ∧
    (compensated_mclk_expected_pt_inc recip_demo_init.sw_pll.pfd_state 1 : Int)
      = spec_compensated_inc recip_demo_init.sw_pll.pfd_state 1 :=
  ⟨(reciprocal_multiply_approximates_divide demo_sw_pll_reset demo_machine 0 65536 512 512 2083
      [10, 20, 30, 40] 4 0 0 2 150 1 (by decide) (by decide) (by decide) (by decide)
      (by decide) (by decide)).2.1,
    (reciprocal_multiply_approximates_divide demo_sw_pll_reset demo_machine 0 65536 512 512 2083
      [10, 20, 30, 40] 4 0 0 2 150 1 (by decide) (by decide) (by decide) (by decide)
      (by decide) (by decide)).2.2.2.2.2.2.1.mpr (by decide)⟩


/-! ## The width check of `sw_pll_init` -/

/-- The constants of the check: `(float)UINT64_MAX` is `2^64`, the `double` nearest to `1.1`
is `4953959590107546 / 2^52`, and `calc_max` is `15252015 * 2^40`. -/
theorem sw_pll_init_calc_max_value :
    float_round 0xffffffffffffffff = 2 ^ 64 ∧
    double_1_1_scaled = 4953959590107546 ∧
    sw_pll_init_calc_max = 15252015 * 2 ^ 40 := by
  decide

theorem binary_exponent_spec (p : Nat) :
    ∀ (k x : Nat), binary_exponent k p x = 0 ∨ 2 ^ (p + binary_exponent k p x) ≤ 2 * x := by
  intro k
  induction k with
  | zero =>
    intro x
    exact Or.inl rfl
  | succ k ih =>
    intro x
    unfold binary_exponent
    split_ifs with h
    · exact Or.inl rfl
    · right
      have hx : 2 ^ p ≤ x := Nat.le_of_not_lt h
      have h2 : 2 * (x / 2) ≤ x := Nat.mul_div_le x 2
      rcases ih (x / 2) with h0 | h1
      · rw [h0]
        have : 2 ^ (p + (0 + 1)) = 2 * 2 ^ p := by ring
        rw [this]
        omega
      · have : 2 ^ (p + (binary_exponent k p (x / 2) + 1))
            = 2 * 2 ^ (p + binary_exponent k p (x / 2)) := by ring
        rw [this]
        omega

/-- Rounding to `float` loses at most one part in `2^24`. -/
theorem float_round_lower (n : Nat) : 16777215 * n ≤ 16777216 * float_round n := by
  unfold float_round round_nearest_even
  simp only [Nat.div_one, one_mul]
  have hspec := binary_exponent_spec 24 128 n
  generalize binary_exponent 128 24 n = e at hspec ⊢
  have hu : 0 < 2 ^ e := Nat.pow_pos (by norm_num)
  have hsplit : 2 ^ 24 * 2 ^ e = 2 ^ (24 + e) := by ring
  have he0 : e = 0 → 2 ^ e = 1 := by
    intro h
    rw [h]
    rfl
  generalize 2 ^ (24 + e) = w at hspec hsplit
  generalize 2 ^ e = u at hu hsplit he0 ⊢
  have hdm : u * (n / u) + n % u = n := Nat.div_add_mod n u
  have hrem : n % u < u := Nat.mod_lt n hu
  have hcomm : n / u * u = u * (n / u) := Nat.mul_comm _ _
  have hcomm1 : (n / u + 1) * u = u * (n / u) + u := by ring
  have hdown : 2 * (n % u) ≤ u → 16777215 * (n % u) ≤ u * (n / u) := by
    intro hle
    rcases hspec with h0 | hw
    · have := he0 h0
      omega
    · have hq : 8388608 ≤ n / u := by
        by_contra hlt
        have hlt2 : n / u + 1 ≤ 8388608 := by omega
        have : u * (n / u + 1) ≤ u * 8388608 := Nat.mul_le_mul_left u hlt2
        have e1 : u * (n / u + 1) = u * (n / u) + u := by ring
        norm_num at hsplit
        omega
      have : u * 8388608 ≤ u * (n / u) := Nat.mul_le_mul_left u hq
      omega
  generalize n / u = q at hdm hcomm hcomm1 hdown ⊢
  generalize n % u = rem at hdm hrem hdown ⊢
  generalize hqu : u * q = qu at hdm hcomm hcomm1 hdown
  split_ifs with h1 h2 h3
  · rw [hcomm]
    have := hdown (by omega)
    omega
  · rw [hcomm1]
    omega
  · rw [hcomm]
    have := hdown (by omega)
    omega
  · rw [hcomm1]
    omega

/-- The `float` product `max` is at least the exact product less five roundings. -/
theorem sw_pll_init_max_lower (pfd : sw_pll_pfd_state_t) :
    16777215 ^ 5 * (pfd.ref_clk_expected_inc * pfd.ref_clk_scaling_numerator
        * pfd.mclk_expected_pt_inc)
      ≤ 16777216 ^ 5 * sw_pll_init_max pfd := by
  unfold sw_pll_init_max
  have hR := float_round_lower pfd.ref_clk_expected_inc
  have hn := float_round_lower pfd.ref_clk_scaling_numerator
  have hM := float_round_lower pfd.mclk_expected_pt_inc
  generalize float_round pfd.ref_clk_expected_inc = a at hR ⊢
  generalize float_round pfd.ref_clk_scaling_numerator = b at hn ⊢
  generalize float_round pfd.mclk_expected_pt_inc = c at hM ⊢
  have hab := float_round_lower (a * b)
  generalize float_round (a * b) = ab at hab ⊢
  have htop := float_round_lower (ab * c)
  generalize float_round (ab * c) = top at htop ⊢
  generalize pfd.ref_clk_expected_inc = R at hR ⊢
  generalize pfd.ref_clk_scaling_numerator = num at hn ⊢
  generalize pfd.mclk_expected_pt_inc = M at hM ⊢
  calc 16777215 ^ 5 * (R * num * M)
      = 16777215 * 16777215 * ((16777215 * R) * (16777215 * num) * (16777215 * M)) := by ring
    _ ≤ 16777215 * 16777215 * ((16777216 * a) * (16777216 * b) * (16777216 * c)) :=
        Nat.mul_le_mul_left _ (Nat.mul_le_mul (Nat.mul_le_mul hR hn) hM)
    _ = 16777216 ^ 3 * 16777215 * c * (16777215 * (a * b)) := by ring
    _ ≤ 16777216 ^ 3 * 16777215 * c * (16777216 * ab) := Nat.mul_le_mul_left _ hab
    _ = 16777216 ^ 4 * (16777215 * (ab * c)) := by ring
    _ ≤ 16777216 ^ 4 * (16777216 * top) := Nat.mul_le_mul_left _ htop
    _ = 16777216 ^ 5 * top := by ring

/-- What the check bounds: a state that passes has exact nominal product below
`2^120 * calc_max / (2^24 - 1)^5`, and a state whose nominal product reaches `2^64` fails. -/
theorem width_check_nominal (pfd : sw_pll_pfd_state_t) :
    (sw_pll_init_width_check pfd →
      12 * (pfd.ref_clk_expected_inc * pfd.ref_clk_scaling_numerator
        * pfd.mclk_expected_pt_inc) < 11 * 18446744073709551616) ∧
    (18446744073709551616 ≤ pfd.ref_clk_expected_inc * pfd.ref_clk_scaling_numerator
        * pfd.mclk_expected_pt_inc → ¬ sw_pll_init_width_check pfd) := by
  have hlow := sw_pll_init_max_lower pfd
  have hC : sw_pll_init_calc_max = 15252015 * 2 ^ 40 := sw_pll_init_calc_max_value.2.2
  unfold sw_pll_init_width_check
  rw [hC]
  generalize sw_pll_init_max pfd = top at hlow ⊢
  generalize pfd.ref_clk_expected_inc * pfd.ref_clk_scaling_numerator
    * pfd.mclk_expected_pt_inc = P at hlow ⊢
  norm_num at hlow ⊢
  constructor
  · intro h
    omega
  · intro h
    omega

/-- A state that passes the check, with the reciprocal of `sw_pll_init`: for a reference
difference `r ≤ R / 11` with `0 ≤ R + r` the intermediate product is below `2^64` and the
64-bit computation of lines 36-38 of sw_pll_pfd.h yields it unreduced. -/
theorem width_check_product (pfd : sw_pll_pfd_state_t) (r : Int)
    (hcheck : sw_pll_init_width_check pfd)
    (hR32 : pfd.ref_clk_expected_inc < 4294967296)
    (hnum1 : 1 ≤ pfd.ref_clk_scaling_numerator)
    (hr : r ≤ 32767) (h0 : 0 ≤ (pfd.ref_clk_expected_inc : Int) + r)
    (h11 : 11 * r ≤ (pfd.ref_clk_expected_inc : Int)) :
    0 ≤ compensation_product pfd r ∧
    compensation_product pfd r < 18446744073709551616 ∧
    ((to_uint64
        ((to_uint64
            ((pfd.mclk_expected_pt_inc : Int)
              * (to_uint64 ((pfd.ref_clk_expected_inc : Int) + r) : Int)) : Int)
          * (pfd.ref_clk_scaling_numerator : Int)) : Nat) : Int)
      = compensation_product pfd r := by
  have hP := (width_check_nominal pfd).1 hcheck
  obtain ⟨X, hX⟩ := Int.eq_ofNat_of_zero_le h0
  have hX12 : 11 * X ≤ 12 * pfd.ref_clk_expected_inc := by omega
  have hprod : 11 * (pfd.mclk_expected_pt_inc * X * pfd.ref_clk_scaling_numerator)
      ≤ 12 * (pfd.ref_clk_expected_inc * pfd.ref_clk_scaling_numerator
        * pfd.mclk_expected_pt_inc) := by
    calc 11 * (pfd.mclk_expected_pt_inc * X * pfd.ref_clk_scaling_numerator)
        = pfd.mclk_expected_pt_inc * pfd.ref_clk_scaling_numerator * (11 * X) := by ring
      _ ≤ pfd.mclk_expected_pt_inc * pfd.ref_clk_scaling_numerator
            * (12 * pfd.ref_clk_expected_inc) := Nat.mul_le_mul_left _ hX12
      _ = 12 * (pfd.ref_clk_expected_inc * pfd.ref_clk_scaling_numerator
            * pfd.mclk_expected_pt_inc) := by ring
  have hlt : pfd.mclk_expected_pt_inc * X * pfd.ref_clk_scaling_numerator
      < 18446744073709551616 := by omega
  have hMX : pfd.mclk_expected_pt_inc * X < 18446744073709551616 :=
    lt_of_le_of_lt (Nat.le_mul_of_pos_right _ hnum1) hlt
  have hcp : compensation_product pfd r
      = ((pfd.mclk_expected_pt_inc * X * pfd.ref_clk_scaling_numerator : Nat) : Int) := by
    unfold compensation_product
    rw [hX]
    push_cast
    rfl
  have e1 : ((to_uint64 ((pfd.ref_clk_expected_inc : Int) + r) : Nat) : Int) = (X : Int) := by
    unfold to_uint64
    omega
  have e2 : (pfd.mclk_expected_pt_inc : Int) * (X : Int)
      = ((pfd.mclk_expected_pt_inc * X : Nat) : Int) := by push_cast; rfl
  have e3 : ((pfd.mclk_expected_pt_inc * X : Nat) : Int) * (pfd.ref_clk_scaling_numerator : Int)
      = ((pfd.mclk_expected_pt_inc * X * pfd.ref_clk_scaling_numerator : Nat) : Int) := by
    push_cast
    rfl
  rw [e1, e2, to_uint64_of_lt _ hMX, e3, to_uint64_of_lt _ hlt, hcp]
  refine ⟨Int.natCast_nonneg _, ?_, rfl⟩
  exact_mod_cast hlt

/-- C15 fails as stated.  `sw_pll_init` completes on `loop_rate_count = 512`,
`pll_ratio = 512`, `ref_clk_expected_inc = 1` (`R = 512`), yet the reference difference -32768
makes `R + r` negative and the 64-bit product wrap; and it completes on `pll_ratio = 16384`
(`M = 2^23`), yet the reference difference 32767 gives a product of at least `2^64`. -/
theorem width_check_counterexample :
    sw_pll_init_checked demo_sw_pll_reset demo_machine 0 65536 512 512 1
      [10, 20, 30, 40] 4 0 0 2 150 = some width_demo_init ∧
    width_demo_init.sw_pll.pfd_state.ref_clk_expected_inc = 512 ∧
    (width_demo_init.sw_pll.pfd_state.ref_clk_expected_inc : Int) + (-32768) < 0 ∧
    to_uint64 ((width_demo_init.sw_pll.pfd_state.ref_clk_expected_inc : Int) + (-32768))
      = 18446744073709519360 ∧
    sw_pll_init_checked demo_sw_pll_reset demo_machine 0 65536 512 16384 1
      [10, 20, 30, 40] 4 0 0 2 150 = some width_demo_init_wide ∧
    width_demo_init_wide.sw_pll.pfd_state.ref_clk_expected_inc = 512 ∧
    18446744073709551616 ≤ compensation_product width_demo_init_wide.sw_pll.pfd_state 32767 := by
  refine ⟨?_, by decide, by decide, by decide, ?_, by decide, by decide⟩
  · unfold sw_pll_init_checked width_demo_init
    dsimp only
    exact if_pos (by decide)
  · unfold sw_pll_init_checked width_demo_init_wide
    dsimp only
    exact if_pos (by decide)

/-- When `sw_pll_init_checked` returns a machine, it is the one `sw_pll_init` builds and the
check holds on it. -/
theorem sw_pll_init_checked_some
    (sw_pll_reset : sw_pll_state_t → Int → Int → Nat → sw_pll_state_t)
    (m : sw_pll_machine) (Kp Ki : Int) (loop_rate_count pll_ratio ref_clk_expected_inc : Nat)
    (lut_table_base : List Int)
    (num_lut_entries app_pll_ctl_reg_val app_pll_div_reg_val nominal_lut_idx ppm_range : Nat)
    (mi : sw_pll_machine)
    (h : sw_pll_init_checked sw_pll_reset m Kp Ki loop_rate_count pll_ratio ref_clk_expected_inc
      lut_table_base num_lut_entries app_pll_ctl_reg_val app_pll_div_reg_val nominal_lut_idx
      ppm_range = some mi) :
    mi = sw_pll_init sw_pll_reset m Kp Ki loop_rate_count pll_ratio ref_clk_expected_inc
      lut_table_base num_lut_entries app_pll_ctl_reg_val app_pll_div_reg_val nominal_lut_idx
      ppm_range ∧
    sw_pll_init_width_check mi.sw_pll.pfd_state := by
  unfold sw_pll_init_checked at h
  dsimp only at h
  split_ifs at h with hc
  have e := Option.some.inj h
  rw [← e]
  exact ⟨rfl, hc⟩

/-- C15, amended. The width check leaves headroom for reference differences up to `R / 11`
only.  If `sw_pll_init` completes (its final assertion, computed in `float`, holds) with
reference compensation enabled (`R = ref_clk_expected_inc ≠ 0`), then the nominal product
`R * ref_clk_scaling_numerator * M` is below `2^64` (so a configuration whose nominal product
reaches `2^64` makes initialization fail), and for every reference difference `r` in
`[-32768, 32767]` with `0 ≤ R + r` and `11 * r ≤ R` the intermediate product
`M * (R + r) * ref_clk_scaling_numerator` is non-negative and below `2^64`, and the 64-bit
computation of lines 36-38 of sw_pll_pfd.h yields it unreduced. -/
theorem width_check_headroom
    (sw_pll_reset : sw_pll_state_t → Int → Int → Nat → sw_pll_state_t)
    (m : sw_pll_machine) (Kp Ki : Int) (loop_rate_count pll_ratio ref_clk_expected_inc : Nat)
    (lut_table_base : List Int)
    (num_lut_entries app_pll_ctl_reg_val app_pll_div_reg_val nominal_lut_idx ppm_range : Nat)
    (mi : sw_pll_machine) (r : Int)
    (hinit : sw_pll_init_checked sw_pll_reset m Kp Ki loop_rate_count pll_ratio
      ref_clk_expected_inc lut_table_base num_lut_entries app_pll_ctl_reg_val
      app_pll_div_reg_val nominal_lut_idx ppm_range = some mi)
    (hR : mi.sw_pll.pfd_state.ref_clk_expected_inc ≠ 0)
    (_hrlo : -32768 ≤ r) (hrhi : r ≤ 32767)
    (h0 : 0 ≤ (mi.sw_pll.pfd_state.ref_clk_expected_inc : Int) + r)
    (h11 : 11 * r ≤ (mi.sw_pll.pfd_state.ref_clk_expected_inc : Int)) :
    mi.sw_pll.pfd_state.ref_clk_expected_inc * mi.sw_pll.pfd_state.ref_clk_scaling_numerator
        * mi.sw_pll.pfd_state.mclk_expected_pt_inc < 18446744073709551616 ∧
    0 ≤ compensation_product mi.sw_pll.pfd_state r ∧
    compensation_product mi.sw_pll.pfd_state r < 18446744073709551616 ∧
    ((to_uint64
        ((to_uint64
            ((mi.sw_pll.pfd_state.mclk_expected_pt_inc : Int)
              * (to_uint64 ((mi.sw_pll.pfd_state.ref_clk_expected_inc : Int) + r) : Int)) : Int)
          * (mi.sw_pll.pfd_state.ref_clk_scaling_numerator : Int)) : Nat) : Int)
      = compensation_product mi.sw_pll.pfd_state r := by
  obtain ⟨hmi, hcheck⟩ := sw_pll_init_checked_some sw_pll_reset m Kp Ki loop_rate_count
    pll_ratio ref_clk_expected_inc lut_table_base num_lut_entries app_pll_ctl_reg_val
    app_pll_div_reg_val nominal_lut_idx ppm_range mi hinit
  obtain ⟨hR32, hn⟩ := sw_pll_init_numerator sw_pll_reset m Kp Ki loop_rate_count pll_ratio
    ref_clk_expected_inc lut_table_base num_lut_entries app_pll_ctl_reg_val app_pll_div_reg_val
    nominal_lut_idx ppm_range
  rw [← hmi] at hR32 hn
  have hnum1 : 1 ≤ mi.sw_pll.pfd_state.ref_clk_scaling_numerator := by
    rw [hn hR]
    exact Nat.le_add_left 1 _
  have hP := (width_check_nominal mi.sw_pll.pfd_state).1 hcheck
  refine ⟨by omega, ?_⟩
  exact width_check_product mi.sw_pll.pfd_state r hcheck hR32 hnum1 hrhi h0 h11

/-- Witness for C15 (amended) on `recip_demo_init` (`R = 1066496`, `M = 262144`,
`num = 128870`) at the largest reference difference 32767. -/
theorem width_check_headroom_witness :
    recip_demo_init.sw_pll.pfd_state.ref_clk_expected_inc ≠ 0 ∧
    11 * (32767 : Int) ≤ (recip_demo_init.sw_pll.pfd_state.ref_clk_expected_inc : Int) ∧
    compensation_product recip_demo_init.sw_pll.pfd_state 32767 < 18446744073709551616 :=
  ⟨by decide, by decide,
    (width_check_headroom demo_sw_pll_reset demo_machine 0 65536 512 512 2083
      [10, 20, 30, 40] 4 0 0 2 150 recip_demo_init 32767
      (by unfold sw_pll_init_checked recip_demo_init; dsimp only; exact if_pos (by decide))
      (by decide) (by decide) (by decide) (by decide) (by decide)).2.2.1⟩

end SwPll
